import Mathlib

/-!
# sykell crawler backend: embedding and verified properties

A shallow embedding of `backend/internal/service/crawler_service.go`,
`backend/internal/repository/crawler_repository.go`, the table definitions of
`backend/pkg/database/mysql.go` and `backend/internal/models/crawler.go`.

Conventions.

* Go `int` is `Int`.  The 64-bit wrap-around is written out (`wrapInt`) in the listing
  arithmetic of the handler, whose operands come from the request; the counters of a job
  cannot reach it.
* Timestamps are `Nat` ticks; the current time is passed in as `now`.
* Strings are sequences of Unicode characters; the length of a `VARCHAR(n)` column counts
  characters.
* The MySQL tables are lists of rows, and the server runs in its default strict SQL mode:
  a statement that writes a text longer than its column, or a number outside the range of
  its column, is rejected with an error and changes nothing.  These rejections are part of
  the embedding wherever the written value comes from the request or from the crawled page:
  the `url` of `CreateCrawlURL` and of `CreateBrokenLink` (`VARCHAR(2048)`), and the title
  (`VARCHAR(512)`), version (`VARCHAR(50)`) and counters (`INT`) of the final
  `UpdateCrawlURL` of a completed attempt.  The other updates write back values that were
  read from the row, together with a status of the `ENUM` and a message of the library;
  these fit.
* Failures of a statement that do not depend on the written values (a lost connection) are
  the oracle `Faults`; it is consulted where the code returns the error or branches on it
  (`AddURL`, `CrawlURL`, `ReCrawlURLs`, `processQueuedJobs`, the listing).
* The unique key of `crawl_urls.url` compares two URLs under the collation of the column;
  the comparison is the parameter `collate`, as MySQL's `LIKE` is the parameter `like`.
* The probe workers of `categorizeAndCheckLinks` are goroutines; what they do under the
  mutex happens in the order in which they get there, which is part of the oracle `Net`.
* Functions of the Go standard library and of `golang.org/x/net/html` are not part
  of the repository.  The pure ones are the fields of `Lib`, the network is the
  oracle `Net`; every general theorem holds for all of them.
-/

namespace Sykell

/-! ## models/crawler.go -/

def StatusQueued : String := "queued"
def StatusRunning : String := "running"
def StatusCompleted : String := "completed"
def StatusError : String := "error"

/-- The Go struct `models.CrawlURL`. -/
structure CrawlURL where
  ID : Int
  URL : String
  Status : String
  Title : String
  HTMLVersion : String
  H1Count : Int
  H2Count : Int
  H3Count : Int
  H4Count : Int
  H5Count : Int
  H6Count : Int
  InternalLinksCount : Int
  ExternalLinksCount : Int
  InaccessibleLinksCount : Int
  HasLoginForm : Bool
  ErrorMessage : String
  LastCrawledAt : Option Nat
  CreatedAt : Nat
  UpdatedAt : Nat
deriving DecidableEq, Repr

/-- The Go struct `models.BrokenLink`. -/
structure BrokenLink where
  ID : Int
  CrawlURLID : Int
  URL : String
  StatusCode : Int
  ErrorMessage : String
  CreatedAt : Nat
deriving DecidableEq, Repr

/-! ## pkg/database/mysql.go: the tables -/

/-- A row of table `crawl_urls`; the columns declared without a default that the
code reads through `sql.NullString` / `sql.NullTime` are nullable. -/
structure CrawlRow where
  id : Int
  url : String
  status : String
  title : Option String
  html_version : Option String
  h1_count : Int
  h2_count : Int
  h3_count : Int
  h4_count : Int
  h5_count : Int
  h6_count : Int
  internal_links_count : Int
  external_links_count : Int
  inaccessible_links_count : Int
  has_login_form : Bool
  error_message : Option String
  last_crawled_at : Option Nat
  created_at : Nat
  updated_at : Nat
deriving DecidableEq, Repr

/-- A row of table `broken_links`. -/
structure BrokenRow where
  id : Int
  crawl_url_id : Int
  url : String
  status_code : Option Int
  error_message : Option String
  created_at : Nat
deriving DecidableEq, Repr

/-- The database: both tables and their `AUTO_INCREMENT` counters. -/
structure DB where
  crawl_urls : List CrawlRow
  broken_links : List BrokenRow
  crawl_urls_auto : Int
  broken_links_auto : Int
deriving DecidableEq, Repr

/-- The keys of `crawl_urls`: ids are pairwise distinct (`PRIMARY KEY`), urls are pairwise
distinct (`UNIQUE`), and every id is positive and below the `AUTO_INCREMENT` counter. -/
def DB.WF (db : DB) : Prop :=
  (db.crawl_urls.map (fun r => r.id)).Nodup ∧ (db.crawl_urls.map (fun r => r.url)).Nodup ∧
    ∀ r ∈ db.crawl_urls, 0 < r.id ∧ r.id < db.crawl_urls_auto

instance (db : DB) : Decidable db.WF := by
  unfold DB.WF; exact inferInstance

/-! ## net/url -/

/-- The fields of Go's `url.URL` that the service reads, with the remaining parts
that make up the textual form. -/
structure URL where
  Scheme : String
  Opaque : String
  Host : String
  Path : String
  RawQuery : String
  Fragment : String
deriving DecidableEq, Repr

/-- The pure library functions called by the service. -/
structure Lib where
  /-- Go `strings.ToLower`. -/
  ToLower : String → String
  /-- Go `strings.TrimSpace`. -/
  TrimSpace : String → String
  /-- Go `url.Parse`. -/
  Parse : String → Except String URL
  /-- Go `(*url.URL).Parse`: parse a reference and resolve it against the receiver. -/
  URLParse : URL → String → Except String URL
  /-- Go `(*url.URL).String`. -/
  URLString : URL → String

/-! ## Failing statements -/

/-- Failures of database statements that do not depend on the values written, at the places
where the callers return the error or branch on it; `none` is success. -/
structure Faults where
  /-- The error of `GetCrawlURLs`. -/
  queryFails : Option String
  /-- The error of `GetCrawlURLByID` for an id. -/
  getFails : Int → Option String
  /-- The error of `UpdateCrawlURL` for the job with an id. -/
  updateFails : Int → Option String
  /-- The error of the `Exec` of `CreateCrawlURL`. -/
  insertFails : Option String
  /-- The error of the `LastInsertId` of `CreateCrawlURL`. -/
  insertIdFails : Option String

/-! ## repository/crawler_repository.go -/

/-- The `Scan` of `GetCrawlURLByID`: NULL text columns are read as the empty string. -/
def scanCrawlURL (r : CrawlRow) : CrawlURL :=
  { ID := r.id, URL := r.url, Status := r.status,
    Title := r.title.getD "", HTMLVersion := r.html_version.getD "",
    H1Count := r.h1_count, H2Count := r.h2_count, H3Count := r.h3_count,
    H4Count := r.h4_count, H5Count := r.h5_count, H6Count := r.h6_count,
    InternalLinksCount := r.internal_links_count,
    ExternalLinksCount := r.external_links_count,
    InaccessibleLinksCount := r.inaccessible_links_count,
    HasLoginForm := r.has_login_form, ErrorMessage := r.error_message.getD "",
    LastCrawledAt := r.last_crawled_at, CreatedAt := r.created_at, UpdatedAt := r.updated_at }

/-- `SELECT ... FROM crawl_urls WHERE id = ?`; no row gives `nil, nil`. -/
def GetCrawlURLByID (db : DB) (id : Int) : Option CrawlURL :=
  (db.crawl_urls.find? (fun r => decide (r.id = id))).map scanCrawlURL

/-- The row inserted by `INSERT INTO crawl_urls (url, status) VALUES (?, ?)`: every other
column takes its declared default. -/
def newCrawlRow (id : Int) (now : Nat) (url status : String) : CrawlRow :=
  { id := id, url := url, status := status, title := none, html_version := none,
    h1_count := 0, h2_count := 0, h3_count := 0, h4_count := 0, h5_count := 0, h6_count := 0,
    internal_links_count := 0, external_links_count := 0, inaccessible_links_count := 0,
    has_login_form := false, error_message := none, last_crawled_at := none,
    created_at := now, updated_at := now }

/-- The statement of `CreateCrawlURL` on a server that executes it, `INSERT INTO crawl_urls
(url, status) VALUES (?, ?) ON DUPLICATE KEY UPDATE status = VALUES(status), updated_at =
CURRENT_TIMESTAMP`: the store afterwards and the insert id.  A stored row whose `url` the
unique key takes for the given one (`collate`) is the duplicate, and the `UPDATE` part
changes that row.  MySQL reports as insert id the id of the inserted row, the id of the
stored row when the `UPDATE` part changes it, and 0 when the stored row already holds the
assigned values (status `queued` and the current time). -/
def insertCrawlURL (collate : String → String → Bool) (db : DB) (now : Nat) (url : String) :
    DB × Int :=
  match db.crawl_urls.find? (fun r => collate r.url url) with
  | some old =>
    ({ db with
        crawl_urls := db.crawl_urls.map (fun r =>
          if r.id = old.id then { r with status := StatusQueued, updated_at := now } else r) },
      if old.status = StatusQueued ∧ old.updated_at = now then 0 else old.id)
  | none =>
    ({ db with
        crawl_urls := db.crawl_urls ++ [newCrawlRow db.crawl_urls_auto now url StatusQueued],
        crawl_urls_auto := db.crawl_urls_auto + 1 },
      db.crawl_urls_auto)

/-- `CreateCrawlURL`: the store afterwards and the returned `(job, error)`.  The `Exec`
fails without effect on a fault or on a URL longer than the column `url VARCHAR(2048)`;
then come `LastInsertId` and `GetCrawlURLByID`, whose errors are returned as well. -/
def CreateCrawlURL (collate : String → String → Bool) (faults : Faults) (db : DB) (now : Nat)
    (url : String) : DB × Except String (Option CrawlURL) :=
  match faults.insertFails with
  | some err => (db, .error err)
  | none =>
    if url.length > 2048 then (db, .error "Data too long for column 'url' at row 1")
    else
      let r := insertCrawlURL collate db now url
      match faults.insertIdFails with
      | some err => (r.1, .error err)
      | none =>
        match faults.getFails r.2 with
        | some err => (r.1, .error err)
        | none => (r.1, .ok (GetCrawlURLByID r.1 r.2))

/-! ## service/crawler_service.go: AddURL -/

/-- `CrawlerService.AddURL`: the database afterwards and the returned `(job, error)`. -/
def AddURL (lib : Lib) (collate : String → String → Bool) (faults : Faults) (db : DB) (now : Nat)
    (urlStr : String) : DB × Except String (Option CrawlURL) :=
  match lib.Parse urlStr with
  | .error err => (db, .error ("invalid URL: " ++ err))
  | .ok parsedURL =>
    if parsedURL.Scheme ≠ "http" ∧ parsedURL.Scheme ≠ "https" then
      (db, .error "URL must use http or https scheme")
    else CreateCrawlURL collate faults db now urlStr

/-! ## golang.org/x/net/html: the document tree -/

/-- Go `html.NodeType`. -/
inductive NodeType where
  | ErrorNode | TextNode | DocumentNode | ElementNode | CommentNode | DoctypeNode | RawNode
deriving DecidableEq, Repr

/-- Go `html.Attribute`. -/
structure Attribute where
  Namespace : String
  Key : String
  Val : String
deriving DecidableEq, Repr

/-- Go `html.Node`: node type, `Data`, `Attr`, and the children reached by
`FirstChild` / `NextSibling`, in order. -/
inductive Node where
  | mk (Typ : NodeType) (Data : String) (Attr : List Attribute) (children : List Node)
deriving Repr

def Node.Typ : Node → NodeType
  | .mk t _ _ _ => t

def Node.Data : Node → String
  | .mk _ d _ _ => d

def Node.Attr : Node → List Attribute
  | .mk _ _ a _ => a

def Node.children : Node → List Node
  | .mk _ _ _ cs => cs

/-- Go `n.FirstChild`. -/
def Node.FirstChild (n : Node) : Option Node := n.children.head?

/-- Go `strings.Contains` on the code points of the strings. -/
def Contains (s substr : String) : Bool := decide (substr.data <:+: s.data)

/-- Go `strings.HasPrefix`. -/
def HasPrefix (s pre : String) : Bool := pre.data.isPrefixOf s.data

/-! ## service/crawler_service.go: isLoginForm -/

/-- The two flags captured by the closure `checkInputs`. -/
structure LoginFlags where
  hasPasswordField : Bool
  hasUsernameField : Bool
deriving DecidableEq, Repr

/-- The attribute loop of `checkInputs`: `(inputType, inputName)` after the loop, both
starting as the empty string. -/
def inputTypeName (lib : Lib) (attrs : List Attribute) : String × String :=
  attrs.foldl (fun acc attr =>
    if attr.Key = "type" then (lib.ToLower attr.Val, acc.2)
    else if attr.Key = "name" then (acc.1, lib.ToLower attr.Val)
    else acc) ("", "")

/-- The body of `checkInputs` before it descends into the children. -/
def checkInputsNode (lib : Lib) (n : Node) (st : LoginFlags) : LoginFlags :=
  if n.Typ = NodeType.ElementNode ∧ n.Data = "input" then
    let tn := inputTypeName lib n.Attr
    let st1 : LoginFlags :=
      if tn.1 = "password" then { st with hasPasswordField := true } else st
    if tn.1 = "text" ∨ tn.1 = "email" then
      if Contains tn.2 "user" || Contains tn.2 "email" || Contains tn.2 "login" then
        { st1 with hasUsernameField := true }
      else st1
    else st1
  else st

mutual
/-- The recursive closure `checkInputs` of `isLoginForm`. -/
def checkInputs (lib : Lib) : Node → LoginFlags → LoginFlags
  | .mk t d a cs, st => checkInputsList lib cs (checkInputsNode lib (.mk t d a cs) st)
/-- The loop `for c := n.FirstChild; c != nil; c = c.NextSibling` of `checkInputs`. -/
def checkInputsList (lib : Lib) : List Node → LoginFlags → LoginFlags
  | [], st => st
  | c :: cs, st => checkInputsList lib cs (checkInputs lib c st)
end

/-- `CrawlerService.isLoginForm`. -/
def isLoginForm (lib : Lib) (form : Node) : Bool :=
  let st := checkInputs lib form { hasPasswordField := false, hasUsernameField := false }
  st.hasPasswordField && st.hasUsernameField

/-! ## service/crawler_service.go: extractHTMLInfo -/

/-- The body of the closure `f` of `extractHTMLInfo` before it descends into the
children: the `switch` on the lower-cased tag of an element node. -/
def extractHTMLInfoNode (lib : Lib) (n : Node) (crawlURL : CrawlURL) : CrawlURL :=
  if n.Typ = NodeType.ElementNode then
    let tag := lib.ToLower n.Data
    if tag = "html" then
      let c1 := n.Attr.foldl (fun (c : CrawlURL) attr =>
        if attr.Key = "version" then { c with HTMLVersion := attr.Val } else c) crawlURL
      if c1.HTMLVersion = "" then { c1 with HTMLVersion := "HTML5" } else c1
    else if tag = "title" then
      match n.FirstChild with
      | some c =>
        if c.Typ = NodeType.TextNode then { crawlURL with Title := lib.TrimSpace c.Data }
        else crawlURL
      | none => crawlURL
    else if tag = "h1" then { crawlURL with H1Count := crawlURL.H1Count + 1 }
    else if tag = "h2" then { crawlURL with H2Count := crawlURL.H2Count + 1 }
    else if tag = "h3" then { crawlURL with H3Count := crawlURL.H3Count + 1 }
    else if tag = "h4" then { crawlURL with H4Count := crawlURL.H4Count + 1 }
    else if tag = "h5" then { crawlURL with H5Count := crawlURL.H5Count + 1 }
    else if tag = "h6" then { crawlURL with H6Count := crawlURL.H6Count + 1 }
    else if tag = "form" then
      if isLoginForm lib n then { crawlURL with HasLoginForm := true } else crawlURL
    else crawlURL
  else crawlURL

mutual
/-- The recursive closure `f` of `extractHTMLInfo`, threading the job it mutates. -/
def extractHTMLInfoF (lib : Lib) : Node → CrawlURL → CrawlURL
  | .mk t d a cs, crawlURL =>
    extractHTMLInfoList lib cs (extractHTMLInfoNode lib (.mk t d a cs) crawlURL)
/-- The child loop of the closure `f` of `extractHTMLInfo`. -/
def extractHTMLInfoList (lib : Lib) : List Node → CrawlURL → CrawlURL
  | [], crawlURL => crawlURL
  | c :: cs, crawlURL => extractHTMLInfoList lib cs (extractHTMLInfoF lib c crawlURL)
end

/-- `CrawlerService.extractHTMLInfo`: the job after `f(doc)`. -/
def extractHTMLInfo (lib : Lib) (crawlURL : CrawlURL) (doc : Node) : CrawlURL :=
  extractHTMLInfoF lib doc crawlURL

/-! ## service/crawler_service.go: extractLinks -/

/-- The attribute loop of `extractLinks`: it stops at the first `href` attribute and
appends its value when that is non-empty and does not start with `#`. -/
def extractLinksAttrs : List Attribute → List String → List String
  | [], links => links
  | attr :: rest, links =>
    if attr.Key = "href" then
      if attr.Val ≠ "" ∧ ¬ HasPrefix attr.Val "#" = true then links ++ [attr.Val] else links
    else extractLinksAttrs rest links

/-- The body of the closure `f` of `extractLinks` before it descends into the children. -/
def extractLinksNode (n : Node) (links : List String) : List String :=
  if n.Typ = NodeType.ElementNode ∧ n.Data = "a" then extractLinksAttrs n.Attr links
  else links

mutual
/-- The recursive closure `f` of `extractLinks`, threading the slice `links`. -/
def extractLinksF : Node → List String → List String
  | .mk t d a cs, links => extractLinksList cs (extractLinksNode (.mk t d a cs) links)
/-- The child loop of the closure `f` of `extractLinks`. -/
def extractLinksList : List Node → List String → List String
  | [], links => links
  | c :: cs, links => extractLinksList cs (extractLinksF c links)
end

/-- `CrawlerService.extractLinks`; the parameter `baseURL` is not used by the code. -/
def extractLinks (doc : Node) (_baseURL : String) : List String :=
  extractLinksF doc []

/-! ## The network -/

/-- What the service reads of an `http.Response` to a GET. -/
structure Response where
  StatusCode : Int
  Body : String
deriving DecidableEq, Repr

/-- The three ways the HEAD request of `checkLinkAccessibility` can end. -/
inductive HeadResult where
  /-- Go `http.NewRequestWithContext` returned an error. -/
  | requestError (err : String)
  /-- Go `s.client.Do` returned an error (network failure, timeout, cancelled context). -/
  | doError (err : String)
  /-- A response arrived. -/
  | response (StatusCode : Int)
deriving DecidableEq, Repr

/-- The environment of one crawl attempt.  Probe workers are numbered in the order in
which they are started. -/
structure Net where
  /-- Go `s.client.Get`. -/
  Get : String → Except String Response
  /-- Go `html.Parse` on the response body. -/
  HTMLParse : String → Except String Node
  /-- Whether worker `i` obtains a semaphore slot before the probing context is done. -/
  Acquire : Nat → Bool
  /-- The HEAD request of worker `i`. -/
  Head : Nat → String → HeadResult
  /-- The moment at which worker `i` is through with its check and, when the check failed,
  holds the mutex.  The workers run concurrently, so these moments follow no rule. -/
  DoneAt : Nat → Nat

/-! ## repository/crawler_repository.go: updates -/

/-- `UpdateCrawlURL`: `UPDATE crawl_urls SET ... , updated_at = CURRENT_TIMESTAMP WHERE id = ?`. -/
def UpdateCrawlURL (db : DB) (now : Nat) (crawlURL : CrawlURL) : DB :=
  { db with crawl_urls := db.crawl_urls.map (fun r =>
      if r.id = crawlURL.ID then
        { r with status := crawlURL.Status, title := some crawlURL.Title,
                 html_version := some crawlURL.HTMLVersion,
                 h1_count := crawlURL.H1Count, h2_count := crawlURL.H2Count,
                 h3_count := crawlURL.H3Count, h4_count := crawlURL.H4Count,
                 h5_count := crawlURL.H5Count, h6_count := crawlURL.H6Count,
                 internal_links_count := crawlURL.InternalLinksCount,
                 external_links_count := crawlURL.ExternalLinksCount,
                 inaccessible_links_count := crawlURL.InaccessibleLinksCount,
                 has_login_form := crawlURL.HasLoginForm,
                 error_message := some crawlURL.ErrorMessage,
                 last_crawled_at := crawlURL.LastCrawledAt, updated_at := now }
      else r) }

/-- `CreateBrokenLink`: `INSERT INTO broken_links (crawl_url_id, url, status_code,
error_message)`.  The server rejects a URL longer than the column `url VARCHAR(2048)`, and
the foreign key rejects a row whose job does not exist; the caller discards the error. -/
def CreateBrokenLink (db : DB) (now : Nat) (brokenLink : BrokenLink) : DB :=
  if brokenLink.URL.length ≤ 2048 ∧
      db.crawl_urls.any (fun r => decide (r.id = brokenLink.CrawlURLID)) = true then
    { db with
      broken_links := db.broken_links ++
        [{ id := db.broken_links_auto, crawl_url_id := brokenLink.CrawlURLID,
           url := brokenLink.URL, status_code := some brokenLink.StatusCode,
           error_message := some brokenLink.ErrorMessage, created_at := now }],
      broken_links_auto := db.broken_links_auto + 1 }
  else db

/-! ## service/crawler_service.go: categorizeAndCheckLinks -/

/-- `CrawlerService.checkLinkAccessibility` run by worker `i`: the returned error, or
`none` for `nil`. -/
def checkLinkAccessibility (net : Net) (i : Nat) (urlStr : String) : Option String :=
  match net.Head i urlStr with
  | .requestError err => some err
  | .doError err => some err
  | .response code => if code ≥ 400 then some ("HTTP " ++ toString code) else none

/-- The locals of the link loop: the two counters and the workers started so far, each
with its arguments `(link, linkURL)`. -/
structure LinkLoop where
  internalCount : Int
  externalCount : Int
  started : List (String × URL)
deriving DecidableEq, Repr

/-- One iteration of `for _, link := range links`; `total` is `len(links)`. -/
def linkLoopStep (lib : Lib) (baseURL : URL) (total : Int) (st : LinkLoop) (link : String) :
    LinkLoop :=
  match lib.URLParse baseURL link with
  | .error _ => st
  | .ok linkURL =>
    let isInternal : Bool := decide (linkURL.Host = baseURL.Host) || decide (linkURL.Host = "")
    let st1 : LinkLoop :=
      if isInternal then { st with internalCount := st.internalCount + 1 }
      else { st with externalCount := st.externalCount + 1 }
    if total ≤ 50 ∨ (total > 50 ∧ st1.internalCount + st1.externalCount ≤ 50) then
      { st1 with started := st1.started ++ [(link, linkURL)] }
    else st1

/-- The whole link loop, from zeroed counters. -/
def linkLoop (lib : Lib) (baseURL : URL) (links : List String) : LinkLoop :=
  links.foldl (linkLoopStep lib baseURL links.length)
    { internalCount := 0, externalCount := 0, started := [] }

/-- What the probe workers share under the mutex: the counter and the database. -/
structure ProbeState where
  inaccessibleCount : Int
  db : DB
deriving DecidableEq, Repr

/-- The body of worker `i`, started with `(link, linkURL)`. -/
def probeWorker (lib : Lib) (net : Net) (now : Nat) (crawlURL : CrawlURL) (st : ProbeState)
    (i : Nat) (w : String × URL) : ProbeState :=
  if net.Acquire i then
    if (checkLinkAccessibility net i (lib.URLString w.2)).isSome then
      { inaccessibleCount := st.inaccessibleCount + 1,
        db := CreateBrokenLink st.db now
          { ID := 0, CrawlURLID := crawlURL.ID, URL := lib.URLString w.2, StatusCode := 0,
            ErrorMessage := "Link check failed", CreatedAt := 0 } }
    else st
  else st

/-- The started workers, each with its number, in the order in which they are through with
their check: by the moment `DoneAt`, workers of the same moment in start order. -/
def completionOrder (net : Net) (ws : List (String × URL)) : List (Nat × String × URL) :=
  ws.enum.insertionSort (fun a b => net.DoneAt a.1 ≤ net.DoneAt b.1)

/-- All workers up to `wg.Wait()`.  Each worker changes the shared state only under the
mutex, after its check, so the bodies take effect one after the other in completion
order. -/
def runProbes (lib : Lib) (net : Net) (now : Nat) (crawlURL : CrawlURL)
    (ws : List (String × URL)) (st : ProbeState) : ProbeState :=
  (completionOrder net ws).foldl (fun st w => probeWorker lib net now crawlURL st w.1 w.2) st

/-- `CrawlerService.categorizeAndCheckLinks`: the job and the database afterwards. -/
def categorizeAndCheckLinks (lib : Lib) (net : Net) (db : DB) (now : Nat) (crawlURL : CrawlURL)
    (links : List String) : CrawlURL × DB :=
  match lib.Parse crawlURL.URL with
  | .error _ => (crawlURL, db)
  | .ok baseURL =>
    let st := linkLoop lib baseURL links
    let pr := runProbes lib net now crawlURL st.started { inaccessibleCount := 0, db := db }
    ({ crawlURL with InternalLinksCount := st.internalCount,
                     ExternalLinksCount := st.externalCount,
                     InaccessibleLinksCount := pr.inaccessibleCount }, pr.db)

/-! ## service/crawler_service.go: performCrawl -/

/-- Whether a number is in the range of a column of type `INT`. -/
def fitsINT (x : Int) : Bool := decide (-2147483648 ≤ x) && decide (x ≤ 2147483647)

/-- Whether the server accepts the values that the `UpdateCrawlURL` of a completed attempt
writes from the crawled page: the title fits `VARCHAR(512)`, the version fits `VARCHAR(50)`
and the nine counters fit `INT`. -/
def fitsCrawlURL (c : CrawlURL) : Bool :=
  decide (c.Title.length ≤ 512) && decide (c.HTMLVersion.length ≤ 50) &&
  [c.H1Count, c.H2Count, c.H3Count, c.H4Count, c.H5Count, c.H6Count,
   c.InternalLinksCount, c.ExternalLinksCount, c.InaccessibleLinksCount].all fitsINT

/-- `CrawlerService.performCrawl`: the job and the database when it returns.  No statement
of the embedded body panics, so the deferred `recover` branch is not entered.  On the three
error paths the update writes back what the job was loaded with; the update of a completed
attempt writes what was taken from the page, and when the server rejects it the error is
logged and the store stays as the probe workers left it. -/
def performCrawl (lib : Lib) (net : Net) (db : DB) (now : Nat) (crawlURL : CrawlURL) :
    CrawlURL × DB :=
  match net.Get crawlURL.URL with
  | .error err =>
    let c : CrawlURL := { crawlURL with Status := StatusError,
                                        ErrorMessage := "Failed to fetch URL: " ++ err }
    (c, UpdateCrawlURL db now c)
  | .ok resp =>
    if resp.StatusCode ≥ 400 then
      let c : CrawlURL := { crawlURL with Status := StatusError,
                                          ErrorMessage := "HTTP error: " ++ toString resp.StatusCode }
      (c, UpdateCrawlURL db now c)
    else
      match net.HTMLParse resp.Body with
      | .error err =>
        let c : CrawlURL := { crawlURL with Status := StatusError,
                                            ErrorMessage := "Failed to parse HTML: " ++ err }
        (c, UpdateCrawlURL db now c)
      | .ok doc =>
        let c1 := extractHTMLInfo lib crawlURL doc
        let links := extractLinks doc c1.URL
        let r := categorizeAndCheckLinks lib net db now c1 links
        let c3 : CrawlURL := { r.1 with Status := StatusCompleted, ErrorMessage := "" }
        (c3, if fitsCrawlURL c3 then UpdateCrawlURL r.2 now c3 else r.2)

/-! ## service/crawler_service.go: NewCrawlerService -/

/-- The error values the redirect policy can return. -/
inductive RedirectError where
  /-- Go `http.ErrUseLastResponse`. -/
  | ErrUseLastResponse
deriving DecidableEq, Repr

/-- The `CheckRedirect` closure of the client; `via` holds the requests made so far, and
`none` is `nil`. -/
def CheckRedirect {Request : Type} (_req : Request) (via : List Request) : Option RedirectError :=
  if via.length ≥ 10 then some RedirectError.ErrUseLastResponse else none

/-- How `http.Client` ends a chain of redirects. -/
structure RedirectOutcome where
  /-- The number of redirects that were followed. -/
  followed : Nat
  /-- Whether the policy stopped the chain with `ErrUseLastResponse`, so that the redirect
  response at hand is returned as the result. -/
  usedLastResponse : Bool
deriving DecidableEq, Repr

/-- The redirect loop of Go `http.Client.do`, for a server that answers the next `pending`
requests with a redirect: before following a redirect the client calls the policy with the
requests made so far; on `nil` it sends the next request, on `ErrUseLastResponse` it returns
the redirect response. -/
def redirectLoop (policy : Unit → List Unit → Option RedirectError) :
    Nat → List Unit → RedirectOutcome
  | 0, via => { followed := via.length - 1, usedLastResponse := false }
  | pending + 1, via =>
    match policy () via with
    | some _ => { followed := via.length - 1, usedLastResponse := true }
    | none => redirectLoop policy pending (via ++ [()])

/-- A GET through the client against a server that redirects `redirects` times: the loop
starts with the one request already made. -/
def clientRedirects (redirects : Nat) : RedirectOutcome :=
  redirectLoop CheckRedirect redirects [()]

/-! ## repository/crawler_repository.go: GetCrawlURLs -/

/-- The `WHERE` clause of `GetCrawlURLs`; `like` is MySQL's `LIKE` (pattern first), and a
NULL title matches no pattern. -/
def crawlURLFilter (like : String → String → Bool) (status search : String) (r : CrawlRow) : Bool :=
  (decide (status = "") || decide (r.status = status)) &&
  (decide (search = "") ||
    (like ("%" ++ search ++ "%") r.url ||
      (match r.title with
       | some t => like ("%" ++ search ++ "%") t
       | none => false)))

/-- `GetCrawlURLs`: the page of jobs and the total count, for a database that answers;
`ORDER BY created_at DESC LIMIT ? OFFSET ?`, rows of equal creation time in stored order.
A negative limit or offset is rejected by the server. -/
def GetCrawlURLs (like : String → String → Bool) (db : DB) (limit offset : Int)
    (status search : String) : Except String (List CrawlURL × Int) :=
  let rows := db.crawl_urls.filter (crawlURLFilter like status search)
  if limit < 0 ∨ offset < 0 then .error "invalid LIMIT or OFFSET"
  else
    let sorted := rows.insertionSort (fun a b => b.created_at ≤ a.created_at)
    .ok (((sorted.drop offset.toNat).take limit.toNat).map scanCrawlURL, (rows.length : Int))

/-! ## service/crawler_service.go: CrawlURL and ReCrawlURLs -/

/-- What a call of `CrawlURL` leaves behind: the database, the returned error, and the
job handed to the goroutine `go s.performCrawl(crawlURL)` when one is started. -/
structure CrawlStart where
  db : DB
  err : Option String
  attempt : Option CrawlURL
deriving DecidableEq, Repr

/-- `CrawlerService.CrawlURL`. -/
def CrawlerService.CrawlURL (faults : Faults) (db : DB) (now : Nat) (id : Int) : CrawlStart :=
  match faults.getFails id with
  | some err => { db := db, err := some err, attempt := none }
  | none =>
    match GetCrawlURLByID db id with
    | none => { db := db, err := some "crawl URL not found", attempt := none }
    | some c =>
      let crawlURL : Sykell.CrawlURL :=
        { c with Status := StatusRunning, LastCrawledAt := some now }
      match faults.updateFails crawlURL.ID with
      | some err => { db := db, err := some err, attempt := none }
      | none => { db := UpdateCrawlURL db now crawlURL, err := none, attempt := some crawlURL }

/-- One iteration of the loop of `ReCrawlURLs`. -/
def reCrawlStep (faults : Faults) (now : Nat) (db : DB) (id : Int) : DB :=
  match faults.getFails id with
  | some _ => db
  | none =>
    match GetCrawlURLByID db id with
    | none => db
    | some c =>
      let crawlURL : CrawlURL := { c with Status := StatusQueued, ErrorMessage := "" }
      match faults.updateFails crawlURL.ID with
      | some _ => db
      | none => UpdateCrawlURL db now crawlURL

/-- `CrawlerService.ReCrawlURLs`: the database afterwards and the returned error. -/
def ReCrawlURLs (faults : Faults) (db : DB) (now : Nat) (ids : List Int) : DB × Option String :=
  (ids.foldl (reCrawlStep faults now) db, none)

/-! ## service/crawler_job_processor.go: processQueuedJobs -/

/-- What a scheduler tick leaves behind: the database and, in start order, the jobs on
which `performCrawl` was run. -/
structure Tick where
  db : DB
  attempts : List CrawlURL
deriving DecidableEq, Repr

/-- The goroutine started for one job of the batch, run to its end. -/
def processJob (lib : Lib) (net : Net) (faults : Faults) (now : Nat) (st : Tick)
    (crawlURL : CrawlURL) : Tick :=
  let url : CrawlURL := { crawlURL with Status := StatusRunning, LastCrawledAt := some now }
  match faults.updateFails url.ID with
  | some _ => st
  | none =>
    { db := (performCrawl lib net (UpdateCrawlURL st.db now url) now url).2,
      attempts := st.attempts ++ [url] }

/-- The loop `for _, crawlURL := range queuedURLs`, the goroutines taken in start order. -/
def processBatch (lib : Lib) (net : Net) (faults : Faults) (now : Nat) (db : DB)
    (queuedURLs : List CrawlURL) : Tick :=
  queuedURLs.foldl (processJob lib net faults now) { db := db, attempts := [] }

/-- `CrawlerJobProcessor.processQueuedJobs`. -/
def processQueuedJobs (lib : Lib) (like : String → String → Bool) (net : Net) (faults : Faults)
    (db : DB) (now : Nat) : Tick :=
  match faults.queryFails with
  | some _ => { db := db, attempts := [] }
  | none =>
    match GetCrawlURLs like db 10 0 StatusQueued "" with
    | .error _ => { db := db, attempts := [] }
    | .ok r =>
      if r.1.length = 0 then { db := db, attempts := [] }
      else processBatch lib net faults now db r.1

/-! ## service/crawler_job_processor.go: Start and Stop -/

/-- The part of `CrawlerJobProcessor` that `Start` and `Stop` work on: the flag
`isRunning` and whether the channel `stopChan` has been closed. -/
structure CrawlerJobProcessor where
  isRunning : Bool
  stopChanClosed : Bool
deriving DecidableEq, Repr

/-- `NewCrawlerJobProcessor`: the only place where `stopChan` is made. -/
def NewCrawlerJobProcessor : CrawlerJobProcessor :=
  { isRunning := false, stopChanClosed := false }

/-- `CrawlerJobProcessor.Start`; an error is a panic. -/
def CrawlerJobProcessor.Start (p : CrawlerJobProcessor) : Except String CrawlerJobProcessor :=
  if p.isRunning then .ok p
  else .ok { p with isRunning := true }

/-- `CrawlerJobProcessor.Stop`; an error is a panic.  `close` of a closed channel panics;
after a successful `close` the loop `processJobs` returns and `wg.Wait()` ends. -/
def CrawlerJobProcessor.Stop (p : CrawlerJobProcessor) : Except String CrawlerJobProcessor :=
  if !p.isRunning then .ok p
  else if p.stopChanClosed then .error "close of closed channel"
  else .ok { isRunning := false, stopChanClosed := true }

/-- A call on the processor. -/
inductive ProcessorCall where
  | Start | Stop
deriving DecidableEq, Repr

/-- A sequence of calls on one processor, up to the first panic. -/
def runCalls : List ProcessorCall → CrawlerJobProcessor → Except String CrawlerJobProcessor
  | [], p => .ok p
  | ProcessorCall.Start :: rest, p =>
    match p.Start with
    | .ok p1 => runCalls rest p1
    | .error e => .error e
  | ProcessorCall.Stop :: rest, p =>
    match p.Stop with
    | .ok p1 => runCalls rest p1
    | .error e => .error e

/-! ## Listing: handler/crawler.go GetCrawlURLs and service/crawler_service.go GetCrawlURLs -/

/-- The value of a Go `int` (64-bit two's complement) that holds the integer `x`. -/
def wrapInt (x : Int) : Int := (x + 9223372036854775808) % 18446744073709551616 - 9223372036854775808

/-- `CrawlerService.GetCrawlURLs`: `offset := (page - 1) * limit`, then the repository. -/
def CrawlerService.GetCrawlURLs (like : String → String → Bool) (faults : Faults) (db : DB)
    (page limit : Int) (status search : String) :
    Except String (List Sykell.CrawlURL × Int) :=
  let offset := wrapInt (wrapInt (page - 1) * limit)
  match faults.queryFails with
  | some err => .error err
  | none => Sykell.GetCrawlURLs like db limit offset status search

/-- The handler's `if page < 1 { page = 1 }`. -/
def clampPage (page : Int) : Int := if page < 1 then 1 else page

/-- The handler's `if limit < 1 || limit > 100 { limit = 20 }`. -/
def clampLimit (limit : Int) : Int := if limit < 1 ∨ limit > 100 then 20 else limit

/-- The handler's `(total + limit - 1) / limit`; Go's `/` truncates toward zero. -/
def pageCount (total limit : Int) : Int := (wrapInt (wrapInt (total + limit) - 1)).tdiv limit

/-- The `pagination` object of the listing response. -/
structure Pagination where
  page : Int
  limit : Int
  total : Int
  pages : Int
deriving DecidableEq, Repr

/-- The handler `GetCrawlURLs`, from the values `strconv.Atoi` gave for `page` and `limit`:
the error response, or the data and the pagination object. -/
def Handler.GetCrawlURLs (like : String → String → Bool) (faults : Faults) (db : DB)
    (page limit : Int) (status search : String) : Except String (List CrawlURL × Pagination) :=
  let page := clampPage page
  let limit := clampLimit limit
  match CrawlerService.GetCrawlURLs like faults db page limit status search with
  | .error _ => .error "Failed to fetch crawl URLs"
  | .ok r =>
    .ok (r.1, { page := page, limit := limit, total := r.2, pages := pageCount r.2 limit })

/-! ## Vocabulary of the properties -/

mutual
/-- The nodes of a tree in document order (pre-order). -/
def Node.preorder : Node → List Node
  | .mk t d a cs => .mk t d a cs :: Node.preorderList cs
/-- The nodes of a forest in document order. -/
def Node.preorderList : List Node → List Node
  | [] => []
  | c :: cs => Node.preorder c ++ Node.preorderList cs
end

/-- An element node whose tag, lower-cased, is `tag`. -/
def Node.isTag (lib : Lib) (tag : String) (n : Node) : Bool :=
  decide (n.Typ = NodeType.ElementNode) && decide (lib.ToLower n.Data = tag)

/-- The number of elements of the document with the given lower-cased tag. -/
def countTag (lib : Lib) (tag : String) (doc : Node) : Nat :=
  (doc.preorder.filter (Node.isTag lib tag)).length

/-- An `input` element. -/
def Node.isInput (n : Node) : Bool :=
  decide (n.Typ = NodeType.ElementNode) && decide (n.Data = "input")

/-- The lower-cased value of the last attribute named `key`, or the empty string when
there is none: what the attribute loop of `checkInputs` leaves in its variable. -/
def attrLower (lib : Lib) (key : String) (attrs : List Attribute) : String :=
  match attrs.reverse.find? (fun attr => decide (attr.Key = key)) with
  | some attr => lib.ToLower attr.Val
  | none => ""

/-- An `input` whose type lower-cases to `password`. -/
def Node.isPasswordInput (lib : Lib) (n : Node) : Bool :=
  n.isInput && decide (attrLower lib "type" n.Attr = "password")

/-- An `input` whose type lower-cases to `text` or `email` and whose lower-cased name
contains `user`, `email` or `login`. -/
def Node.isUsernameInput (lib : Lib) (n : Node) : Bool :=
  n.isInput &&
  (decide (attrLower lib "type" n.Attr = "text") || decide (attrLower lib "type" n.Attr = "email")) &&
  (Contains (attrLower lib "name" n.Attr) "user" || Contains (attrLower lib "name" n.Attr) "email" ||
    Contains (attrLower lib "name" n.Attr) "login")

/-- The value of the first `href` attribute of a node, if it has one. -/
def Node.href (n : Node) : Option String :=
  (n.Attr.find? (fun attr => decide (attr.Key = "href"))).map (fun attr => attr.Val)

/-- The link an `a` element contributes: its href when that is non-empty and does not
start with `#`. -/
def Node.anchorLink (n : Node) : Option String :=
  if n.Typ = NodeType.ElementNode ∧ n.Data = "a" then
    match n.href with
    | some v => if v ≠ "" ∧ ¬ HasPrefix v "#" = true then some v else none
    | none => none
  else none

/-- A link that `baseURL.Parse` resolves. -/
def resolves (lib : Lib) (baseURL : URL) (link : String) : Bool :=
  match lib.URLParse baseURL link with
  | .ok _ => true
  | .error _ => false

/-- A link that resolves to the host of the base URL or to an empty host. -/
def resolvesInternal (lib : Lib) (baseURL : URL) (link : String) : Bool :=
  match lib.URLParse baseURL link with
  | .ok u => decide (u.Host = baseURL.Host) || decide (u.Host = "")
  | .error _ => false

/-- A link that resolves to a non-empty host other than the host of the base URL. -/
def resolvesExternal (lib : Lib) (baseURL : URL) (link : String) : Bool :=
  match lib.URLParse baseURL link with
  | .ok u => !(decide (u.Host = baseURL.Host) || decide (u.Host = ""))
  | .error _ => false

/-- An anchor whose href is non-empty, does not start with `#` and resolves. -/
def Node.resolvableAnchor (lib : Lib) (baseURL : URL) (n : Node) : Bool :=
  match n.anchorLink with
  | some link => resolves lib baseURL link
  | none => false

/-- The nine structural counters of a job: H1..H6, internal, external, inaccessible. -/
def CrawlURL.counters (c : CrawlURL) : List Int :=
  [c.H1Count, c.H2Count, c.H3Count, c.H4Count, c.H5Count, c.H6Count,
   c.InternalLinksCount, c.ExternalLinksCount, c.InaccessibleLinksCount]

/-- A numbered worker whose check returns an error. -/
def brokenWorker (lib : Lib) (net : Net) (w : Nat × String × URL) : Bool :=
  (checkLinkAccessibility net w.1 (lib.URLString w.2.2)).isSome

/-- A numbered worker whose resolved URL is not longer than the column `url` of
`broken_links`. -/
def fitsWorker (lib : Lib) (w : Nat × String × URL) : Bool :=
  decide ((lib.URLString w.2.2).length ≤ 2048)

/-- The workers whose check returns an error and whose URL fits its column, in completion
order. -/
def recordedWorkers (lib : Lib) (net : Net) (ws : List (String × URL)) :
    List (Nat × String × URL) :=
  ((completionOrder net ws).filter (brokenWorker lib net)).filter (fitsWorker lib)

/-- The rows of `broken_links` owned by job `jobID`, one per worker, with ids from `id`. -/
def brokenRows (lib : Lib) (jobID : Int) (now : Nat) :
    List (Nat × String × URL) → Int → List BrokenRow
  | [], _ => []
  | w :: ws, id =>
    { id := id, crawl_url_id := jobID, url := lib.URLString w.2.2, status_code := some 0,
      error_message := some "Link check failed", created_at := now } ::
      brokenRows lib jobID now ws (id + 1)

/-- The job with which an attempt returns whose fetch and parse succeed with the document
`doc`. -/
def completedJob (lib : Lib) (net : Net) (db : DB) (now : Nat) (crawlURL : CrawlURL)
    (doc : Node) : CrawlURL :=
  { (categorizeAndCheckLinks lib net db now (extractHTMLInfo lib crawlURL doc)
      (extractLinks doc crawlURL.URL)).1 with
    Status := StatusCompleted, ErrorMessage := "" }

/-- A stored row after a re-crawl request: status `queued`, error message empty, update
time `now`; the text columns that were NULL are written back as empty strings. -/
def requeuedRow (now : Nat) (r : CrawlRow) : CrawlRow :=
  { r with status := StatusQueued, title := some (r.title.getD ""),
           html_version := some (r.html_version.getD ""), error_message := some "",
           updated_at := now }

/-- A `title` element whose first child is a text node. -/
def Node.hasTitleText (lib : Lib) (n : Node) : Bool :=
  n.isTag lib "title" &&
    (match n.FirstChild with
     | some c => decide (c.Typ = NodeType.TextNode)
     | none => false)

/-- The `title` elements of a document whose first child is a text node, in document
order. -/
def titleNodes (lib : Lib) (doc : Node) : List Node :=
  doc.preorder.filter (Node.hasTitleText lib)

/-- The trimmed text of the first child of a node (the empty string without a child). -/
def Node.titleText (lib : Lib) (n : Node) : String :=
  match n.FirstChild with
  | some c => lib.TrimSpace c.Data
  | none => ""

/-- The first ten stored jobs with status `queued`, newest first. -/
def queuedBatch (db : DB) : List CrawlURL :=
  (((db.crawl_urls.filter (fun r => decide (r.status = StatusQueued))).insertionSort
    (fun a b => b.created_at ≤ a.created_at)).take 10).map scanCrawlURL

/-- The six heading counters of a job, H1 to H6. -/
def CrawlURL.headings (c : CrawlURL) : List Int :=
  [c.H1Count, c.H2Count, c.H3Count, c.H4Count, c.H5Count, c.H6Count]

/-- The number of `h1` to `h6` elements of a document. -/
def headingCounts (lib : Lib) (doc : Node) : List Int :=
  [(countTag lib "h1" doc : Int), (countTag lib "h2" doc : Int), (countTag lib "h3" doc : Int),
   (countTag lib "h4" doc : Int), (countTag lib "h5" doc : Int), (countTag lib "h6" doc : Int)]

/-- No statement fails. -/
def noFaults : Faults :=
  { queryFails := none, getFails := fun _ => none, updateFails := fun _ => none,
    insertFails := none, insertIdFails := none }

/-! ## Sample data

Concrete library behaviour, documents and stores on which the definitions are evaluated.
The sample library answers only the inputs listed; on them it agrees with Go. -/

/-- Lower-casing of the letters `A`..`Z`; `strings.ToLower` on ASCII strings. -/
def asciiLower (s : String) : String := String.mk (s.data.map Char.toLower)

/-- Removal of leading and trailing blanks, tabs and line breaks; `strings.TrimSpace` on
strings whose white space is ASCII. -/
def asciiTrim (s : String) : String :=
  String.mk ((s.data.dropWhile Char.isWhitespace).reverse.dropWhile Char.isWhitespace).reverse

def sampleURL (scheme host path : String) : URL :=
  { Scheme := scheme, Opaque := "", Host := host, Path := path, RawQuery := "", Fragment := "" }

/-- Go `url.Parse` on the listed inputs. -/
def sampleParse : String → Except String URL
  | "http://example.com" => .ok (sampleURL "http" "example.com" "")
  | "https://example.com/shop" => .ok (sampleURL "https" "example.com" "/shop")
  | "ftp://example.com/file" => .ok (sampleURL "ftp" "example.com" "/file")
  | "http://example.com/a" => .ok (sampleURL "http" "example.com" "/a")
  | "http://example.com/b" => .ok (sampleURL "http" "example.com" "/b")
  | ":bad" => .error "parse \":bad\": missing protocol scheme"
  | _ => .error "input not listed"

/-- Go `(*url.URL).Parse` on the listed references, for a base on `example.com`. -/
def sampleURLParse (baseURL : URL) : String → Except String URL
  | "/about" => .ok (sampleURL baseURL.Scheme baseURL.Host "/about")
  | "/contact" => .ok (sampleURL baseURL.Scheme baseURL.Host "/contact")
  | "https://other.org/x" => .ok (sampleURL "https" "other.org" "/x")
  | "mailto:team@example.com" =>
    .ok { Scheme := "mailto", Opaque := "team@example.com", Host := "", Path := "",
          RawQuery := "", Fragment := "" }
  | ":bad" => .error "parse \":bad\": missing protocol scheme"
  | _ => .error "input not listed"

/-- Go `(*url.URL).String` for a URL made of scheme and opaque part, or of scheme, host
and path. -/
def sampleURLString (u : URL) : String :=
  if u.Opaque ≠ "" then u.Scheme ++ ":" ++ u.Opaque else u.Scheme ++ "://" ++ u.Host ++ u.Path

def sampleLib : Lib :=
  { ToLower := asciiLower, TrimSpace := asciiTrim, Parse := sampleParse,
    URLParse := sampleURLParse, URLString := sampleURLString }

def element (tag : String) (attrs : List Attribute) (children : List Node) : Node :=
  .mk NodeType.ElementNode tag attrs children

def text (data : String) : Node := .mk NodeType.TextNode data [] []

def document (children : List Node) : Node := .mk NodeType.DocumentNode "" [] children

def attrOf (key val : String) : Attribute := { Namespace := "", Key := key, Val := val }

/-- A page with two `h1` and one `h2`. -/
def headingsPage : Node :=
  document [element "html" [] [element "head" [] [element "title" [] [text " Shop "]],
    element "body" [] [element "h1" [] [text "A"], element "h2" [] [text "B"],
      element "h1" [] [text "C"]]]]

/-- A page whose only form has a password input and a text input named `user_email`. -/
def loginPage : Node :=
  document [element "html" [] [element "body" [] [element "form" []
    [element "div" [] [element "input" [attrOf "type" "text", attrOf "name" "user_email"] []],
     element "input" [attrOf "type" "password"] []]]]]

/-- A page whose only form contains only a password field. -/
def passwordOnlyPage : Node :=
  document [element "html" [] [element "body" [] [element "form" []
    [element "input" [attrOf "type" "password"] []]]]]

/-- A page whose anchors are, in order: `/about`, `#top`, one with an empty href, one
without href, `:bad` and `/contact`. -/
def linksPage : Node :=
  document [element "html" [] [element "body" []
    [element "a" [attrOf "href" "/about"] [text "about"],
     element "p" [] [element "a" [attrOf "href" "#top"] [], element "a" [attrOf "href" ""] []],
     element "a" [attrOf "class" "x"] [],
     element "a" [attrOf "href" ":bad"] [],
     element "a" [attrOf "class" "x", attrOf "href" "/contact"] []]]]

/-- A stored job that an earlier attempt left with counters and an error message. -/
def sampleRow : CrawlRow :=
  { id := 1, url := "http://example.com", status := "error", title := some "Shop",
    html_version := some "HTML5", h1_count := 2, h2_count := 1, h3_count := 0, h4_count := 0,
    h5_count := 0, h6_count := 0, internal_links_count := 3, external_links_count := 4,
    inaccessible_links_count := 1, has_login_form := true,
    error_message := some "HTTP error: 500", last_crawled_at := some 3, created_at := 1,
    updated_at := 3 }

def sampleDB : DB :=
  { crawl_urls := [sampleRow], broken_links := [], crawl_urls_auto := 2, broken_links_auto := 1 }

/-- The job of `sampleRow` as `GetCrawlURLByID` loads it. -/
def sampleJob : CrawlURL := scanCrawlURL sampleRow

/-- A network on which the page is `linksPage` and every probe answers 404. -/
def sampleNet : Net :=
  { Get := fun _ => .ok { StatusCode := 200, Body := "page" },
    HTMLParse := fun _ => .ok linksPage,
    Acquire := fun _ => true,
    Head := fun _ _ => .response 404,
    DoneAt := fun i => i }

/-- A list of 51 links whose first entry does not resolve and whose last entry is the only
`/contact`. -/
def sampleLinks : List String := ":bad" :: (List.replicate 49 "/about" ++ ["/contact"])

/-- The comparison of the unique key `url` under a case-insensitive collation, for URLs of
unaccented ASCII characters without trailing blanks. -/
def sampleCollate (a b : String) : Bool := decide (asciiLower a = asciiLower b)

/-- MySQL `LIKE` for the patterns used below: only the pattern `%%` (empty search). -/
def sampleLike (pattern _value : String) : Bool := decide (pattern = "%%")

/-- A page whose `html` element has no `version` attribute and whose body holds an inline
SVG with its own `title`. -/
def svgPage : Node :=
  document [element "html" [] [element "head" [] [element "title" [] [text " Shop "]],
    element "body" [] [element "svg" [] [element "title" [] [text "Logo"]]]]]

/-- A job of an earlier attempt on a page that declared `version="XHTML 1.0"`. -/
def xhtmlJob : CrawlURL := { sampleJob with HTMLVersion := "XHTML 1.0" }

/-- A stored job that is `running`. -/
def runningRow : CrawlRow :=
  { (newCrawlRow 2 4 "https://example.com/shop" StatusRunning) with
    last_crawled_at := some 5, updated_at := 5 }

/-- Two stored jobs that are `queued`, created at times 6 and 7. -/
def queuedRowA : CrawlRow := newCrawlRow 3 6 "http://example.com/a" StatusQueued

def queuedRowB : CrawlRow := newCrawlRow 4 7 "http://example.com/b" StatusQueued

/-- A store with one job in `error`, one `running` and two `queued`. -/
def schedulerDB : DB :=
  { crawl_urls := [sampleRow, runningRow, queuedRowA, queuedRowB], broken_links := [],
    crawl_urls_auto := 5, broken_links_auto := 1 }

/-- A network whose every GET answers 500. -/
def failingNet : Net :=
  { Get := fun _ => .ok { StatusCode := 500, Body := "" },
    HTMLParse := fun _ => .ok (document []),
    Acquire := fun _ => true,
    Head := fun _ _ => .response 200,
    DoneAt := fun i => i }

/-- Faults under which only the update of job 3 fails. -/
def updateFaults : Faults :=
  { queryFails := none, getFails := fun _ => none,
    updateFails := fun id => if id = 3 then some "connection lost" else none,
    insertFails := none, insertIdFails := none }

/-- A network on which the page is `headingsPage`. -/
def headingsNet : Net :=
  { Get := fun _ => .ok { StatusCode := 200, Body := "page" },
    HTMLParse := fun _ => .ok headingsPage,
    Acquire := fun _ => true,
    Head := fun _ _ => .response 200,
    DoneAt := fun i => i }

/-- A page with two `h1` and one `h2` whose `html` element declares a version of 54
characters. -/
def longVersionPage : Node :=
  document [element "html"
    [attrOf "version" "-//W3C//DTD XHTML 1.1 plus MathML 2.0 plus SVG 1.1//EN"]
    [element "head" [] [element "title" [] [text " Shop "]],
     element "body" [] [element "h1" [] [text "A"], element "h2" [] [text "B"],
       element "h1" [] [text "C"]]]]

/-- A network on which the page is `longVersionPage`. -/
def longVersionNet : Net :=
  { Get := fun _ => .ok { StatusCode := 200, Body := "page" },
    HTMLParse := fun _ => .ok longVersionPage,
    Acquire := fun _ => true,
    Head := fun _ _ => .response 200,
    DoneAt := fun i => i }

/-- The job that `CrawlURL` hands to `performCrawl` at time 9 for the stored `sampleRow`. -/
def startedJob : CrawlURL := { sampleJob with Status := StatusRunning, LastCrawledAt := some 9 }

/-- The store that `CrawlURL` leaves at time 9 for job 1 of `sampleDB`. -/
def startedDB : DB := UpdateCrawlURL sampleDB 9 startedJob

/-- A network like `sampleNet` on which a worker that was started later is through
earlier. -/
def racingNet : Net :=
  { Get := fun _ => .ok { StatusCode := 200, Body := "page" },
    HTMLParse := fun _ => .ok linksPage,
    Acquire := fun _ => true,
    Head := fun _ _ => .response 404,
    DoneAt := fun i => 10 - i }

/-- A reference of 2049 characters: `/` followed by 2048 times `a`. -/
def longLink : String := String.mk ('/' :: List.replicate 2048 'a')

/-- The sample library, which resolves `longLink` as well. -/
def longLinkLib : Lib :=
  { ToLower := asciiLower, TrimSpace := asciiTrim, Parse := sampleParse,
    URLParse := fun baseURL link =>
      if link = longLink then .ok (sampleURL baseURL.Scheme baseURL.Host longLink)
      else sampleURLParse baseURL link,
    URLString := sampleURLString }

/-! # Lemmas

### Each traversal is a left fold over the document order -/

mutual
theorem checkInputs_fold (lib : Lib) : ∀ (n : Node) (st : LoginFlags),
    checkInputs lib n st = n.preorder.foldl (fun s m => checkInputsNode lib m s) st
  | .mk t d a cs, st => by
    rw [checkInputs, Node.preorder, List.foldl_cons, checkInputsList_fold lib cs]
theorem checkInputsList_fold (lib : Lib) : ∀ (ns : List Node) (st : LoginFlags),
    checkInputsList lib ns st =
      (Node.preorderList ns).foldl (fun s m => checkInputsNode lib m s) st
  | [], st => by simp [checkInputsList, Node.preorderList]
  | c :: cs, st => by
    rw [checkInputsList, Node.preorderList, List.foldl_append, checkInputs_fold lib c,
      checkInputsList_fold lib cs]
end

mutual
theorem extractHTMLInfoF_fold (lib : Lib) : ∀ (n : Node) (c : CrawlURL),
    extractHTMLInfoF lib n c = n.preorder.foldl (fun s m => extractHTMLInfoNode lib m s) c
  | .mk t d a cs, c => by
    rw [extractHTMLInfoF, Node.preorder, List.foldl_cons, extractHTMLInfoList_fold lib cs]
theorem extractHTMLInfoList_fold (lib : Lib) : ∀ (ns : List Node) (c : CrawlURL),
    extractHTMLInfoList lib ns c =
      (Node.preorderList ns).foldl (fun s m => extractHTMLInfoNode lib m s) c
  | [], c => by simp [extractHTMLInfoList, Node.preorderList]
  | n :: ns, c => by
    rw [extractHTMLInfoList, Node.preorderList, List.foldl_append, extractHTMLInfoF_fold lib n,
      extractHTMLInfoList_fold lib ns]
end

mutual
theorem extractLinksF_fold : ∀ (n : Node) (links : List String),
    extractLinksF n links = n.preorder.foldl (fun s m => extractLinksNode m s) links
  | .mk t d a cs, links => by
    rw [extractLinksF, Node.preorder, List.foldl_cons, extractLinksList_fold cs]
theorem extractLinksList_fold : ∀ (ns : List Node) (links : List String),
    extractLinksList ns links =
      (Node.preorderList ns).foldl (fun s m => extractLinksNode m s) links
  | [], links => by simp [extractLinksList, Node.preorderList]
  | n :: ns, links => by
    rw [extractLinksList, Node.preorderList, List.foldl_append, extractLinksF_fold n,
      extractLinksList_fold ns]
end

/-- The HTML-version loop only touches `HTMLVersion`. -/
theorem versionLoop_eq (attrs : List Attribute) (c : CrawlURL) :
    attrs.foldl (fun (c : CrawlURL) attr =>
        if attr.Key = "version" then { c with HTMLVersion := attr.Val } else c) c =
      { c with HTMLVersion := attrs.foldl (fun v attr =>
        if attr.Key = "version" then attr.Val else v) c.HTMLVersion } := by
  induction attrs generalizing c with
  | nil => rfl
  | cons a as ih =>
    simp only [List.foldl_cons]
    rw [ih]
    by_cases h : a.Key = "version" <;> simp [h]

theorem extractHTMLInfoNode_counts (lib : Lib) (n : Node) (c : CrawlURL) :
    (extractHTMLInfoNode lib n c).H1Count = c.H1Count + (if n.isTag lib "h1" then 1 else 0) ∧
    (extractHTMLInfoNode lib n c).H2Count = c.H2Count + (if n.isTag lib "h2" then 1 else 0) ∧
    (extractHTMLInfoNode lib n c).H3Count = c.H3Count + (if n.isTag lib "h3" then 1 else 0) ∧
    (extractHTMLInfoNode lib n c).H4Count = c.H4Count + (if n.isTag lib "h4" then 1 else 0) ∧
    (extractHTMLInfoNode lib n c).H5Count = c.H5Count + (if n.isTag lib "h5" then 1 else 0) ∧
    (extractHTMLInfoNode lib n c).H6Count = c.H6Count + (if n.isTag lib "h6" then 1 else 0) := by
  unfold extractHTMLInfoNode Node.isTag
  by_cases ht : n.Typ = NodeType.ElementNode
  · simp only [ht, if_true, decide_True, Bool.true_and, versionLoop_eq]
    generalize lib.ToLower n.Data = tag
    by_cases h0 : tag = "html"
    · subst h0; simp; split_ifs <;> simp
    by_cases h0' : tag = "title"
    · subst h0'; simp; split <;> [split; skip] <;> simp
    by_cases h1 : tag = "h1"
    · subst h1; simp
    by_cases h2 : tag = "h2"
    · subst h2; simp
    by_cases h3 : tag = "h3"
    · subst h3; simp
    by_cases h4 : tag = "h4"
    · subst h4; simp
    by_cases h5 : tag = "h5"
    · subst h5; simp
    by_cases h6 : tag = "h6"
    · subst h6; simp
    simp only [h0, h0', h1, h2, h3, h4, h5, h6, if_false, decide_False]
    split <;> [split; skip] <;> simp
  · simp [ht]

theorem extractHTMLInfoNode_login (lib : Lib) (n : Node) (c : CrawlURL) :
    (extractHTMLInfoNode lib n c).HasLoginForm =
      (c.HasLoginForm || (n.isTag lib "form" && isLoginForm lib n)) := by
  unfold extractHTMLInfoNode Node.isTag
  by_cases ht : n.Typ = NodeType.ElementNode
  · simp only [ht, if_true, decide_True, Bool.true_and, versionLoop_eq]
    generalize lib.ToLower n.Data = tag
    by_cases h0 : tag = "html"
    · subst h0; simp; split_ifs <;> simp
    by_cases h0' : tag = "title"
    · subst h0'; simp; split <;> [split; skip] <;> simp
    by_cases h1 : tag = "h1"
    · subst h1; simp
    by_cases h2 : tag = "h2"
    · subst h2; simp
    by_cases h3 : tag = "h3"
    · subst h3; simp
    by_cases h4 : tag = "h4"
    · subst h4; simp
    by_cases h5 : tag = "h5"
    · subst h5; simp
    by_cases h6 : tag = "h6"
    · subst h6; simp
    simp only [h0, h0', h1, h2, h3, h4, h5, h6, if_false, decide_False]
    by_cases hf : tag = "form"
    · subst hf; simp; split <;> simp [*]
    · simp [hf]
  · simp [ht]


/-! ### Heading counters and the login flag over the whole document -/

theorem foldInfo_counts (lib : Lib) (l : List Node) (c : CrawlURL) :
    let c1 := l.foldl (fun s m => extractHTMLInfoNode lib m s) c
    c1.H1Count = c.H1Count + ((l.filter (Node.isTag lib "h1")).length : Int) ∧
    c1.H2Count = c.H2Count + ((l.filter (Node.isTag lib "h2")).length : Int) ∧
    c1.H3Count = c.H3Count + ((l.filter (Node.isTag lib "h3")).length : Int) ∧
    c1.H4Count = c.H4Count + ((l.filter (Node.isTag lib "h4")).length : Int) ∧
    c1.H5Count = c.H5Count + ((l.filter (Node.isTag lib "h5")).length : Int) ∧
    c1.H6Count = c.H6Count + ((l.filter (Node.isTag lib "h6")).length : Int) := by
  induction l generalizing c with
  | nil => simp
  | cons n ns ih =>
    obtain ⟨h1, h2, h3, h4, h5, h6⟩ := extractHTMLInfoNode_counts lib n c
    obtain ⟨i1, i2, i3, i4, i5, i6⟩ := ih (extractHTMLInfoNode lib n c)
    simp only [List.foldl_cons, List.filter_cons]
    refine ⟨?_, ?_, ?_, ?_, ?_, ?_⟩
    · rw [i1, h1]; split <;> first | (simp; done) | (simp; omega)
    · rw [i2, h2]; split <;> first | (simp; done) | (simp; omega)
    · rw [i3, h3]; split <;> first | (simp; done) | (simp; omega)
    · rw [i4, h4]; split <;> first | (simp; done) | (simp; omega)
    · rw [i5, h5]; split <;> first | (simp; done) | (simp; omega)
    · rw [i6, h6]; split <;> first | (simp; done) | (simp; omega)

/-- Heading counters after `extractHTMLInfo`: the value before plus the number of
elements of that level. -/
theorem extractHTMLInfo_counts (lib : Lib) (c : CrawlURL) (doc : Node) :
    (extractHTMLInfo lib c doc).H1Count = c.H1Count + (countTag lib "h1" doc : Int) ∧
    (extractHTMLInfo lib c doc).H2Count = c.H2Count + (countTag lib "h2" doc : Int) ∧
    (extractHTMLInfo lib c doc).H3Count = c.H3Count + (countTag lib "h3" doc : Int) ∧
    (extractHTMLInfo lib c doc).H4Count = c.H4Count + (countTag lib "h4" doc : Int) ∧
    (extractHTMLInfo lib c doc).H5Count = c.H5Count + (countTag lib "h5" doc : Int) ∧
    (extractHTMLInfo lib c doc).H6Count = c.H6Count + (countTag lib "h6" doc : Int) := by
  unfold extractHTMLInfo countTag
  rw [extractHTMLInfoF_fold]
  exact foldInfo_counts lib doc.preorder c

theorem foldInfo_login (lib : Lib) (l : List Node) (c : CrawlURL) :
    (l.foldl (fun s m => extractHTMLInfoNode lib m s) c).HasLoginForm =
      (c.HasLoginForm || l.any (fun n => n.isTag lib "form" && isLoginForm lib n)) := by
  induction l generalizing c with
  | nil => simp
  | cons n ns ih =>
    simp only [List.foldl_cons, List.any_cons]
    rw [ih, extractHTMLInfoNode_login, Bool.or_assoc]

/-- The login flag after `extractHTMLInfo`: the flag before, or some form of the
document is a login form. -/
theorem extractHTMLInfo_login (lib : Lib) (c : CrawlURL) (doc : Node) :
    (extractHTMLInfo lib c doc).HasLoginForm =
      (c.HasLoginForm || doc.preorder.any (fun n => n.isTag lib "form" && isLoginForm lib n)) := by
  unfold extractHTMLInfo
  rw [extractHTMLInfoF_fold]
  exact foldInfo_login lib doc.preorder c

/-! ### isLoginForm -/

theorem attrLower_snoc (lib : Lib) (key : String) (attrs : List Attribute) (a : Attribute) :
    attrLower lib key (attrs ++ [a]) =
      if a.Key = key then lib.ToLower a.Val else attrLower lib key attrs := by
  unfold attrLower
  rw [List.reverse_append, List.reverse_singleton, List.singleton_append, List.find?_cons]
  by_cases h : a.Key = key <;> simp [h]

/-- The attribute loop of `checkInputs` keeps, for `type` and for `name`, the lower-cased
value of the last attribute of that name. -/
theorem inputTypeName_eq (lib : Lib) (attrs : List Attribute) :
    inputTypeName lib attrs = (attrLower lib "type" attrs, attrLower lib "name" attrs) := by
  unfold inputTypeName
  induction attrs using List.reverseRecOn with
  | nil => simp [attrLower]
  | append_singleton as a ih =>
    rw [List.foldl_append, ih, attrLower_snoc, attrLower_snoc]
    simp only [List.foldl_cons, List.foldl_nil]
    by_cases h1 : a.Key = "type"
    · have h2 : ¬ a.Key = "name" := by rw [h1]; decide
      simp [h1]
    · by_cases h2 : a.Key = "name" <;> simp [h1, h2]

theorem checkInputsNode_flags (lib : Lib) (n : Node) (st : LoginFlags) :
    (checkInputsNode lib n st).hasPasswordField = (st.hasPasswordField || n.isPasswordInput lib) ∧
    (checkInputsNode lib n st).hasUsernameField = (st.hasUsernameField || n.isUsernameInput lib) := by
  unfold checkInputsNode Node.isPasswordInput Node.isUsernameInput Node.isInput
  rw [inputTypeName_eq]
  by_cases hi : n.Typ = NodeType.ElementNode ∧ n.Data = "input"
  · obtain ⟨h1, h2⟩ := hi
    simp only [h1, h2, and_self, if_true, decide_True, Bool.true_and]
    generalize attrLower lib "type" n.Attr = ty
    generalize attrLower lib "name" n.Attr = nm
    by_cases hp : ty = "password"
    · subst hp; simp
    by_cases ht : ty = "text"
    · subst ht; simp; split <;> simp_all
    by_cases he : ty = "email"
    · subst he; simp; split <;> simp_all
    simp [hp, ht, he]
  · have : (decide (n.Typ = NodeType.ElementNode) && decide (n.Data = "input")) = false := by
      simpa using hi
    simp [hi, this]

theorem foldInputs_flags (lib : Lib) (l : List Node) (st : LoginFlags) :
    (l.foldl (fun s m => checkInputsNode lib m s) st).hasPasswordField =
        (st.hasPasswordField || l.any (Node.isPasswordInput lib)) ∧
    (l.foldl (fun s m => checkInputsNode lib m s) st).hasUsernameField =
        (st.hasUsernameField || l.any (Node.isUsernameInput lib)) := by
  induction l generalizing st with
  | nil => simp
  | cons n ns ih =>
    obtain ⟨h1, h2⟩ := checkInputsNode_flags lib n st
    obtain ⟨i1, i2⟩ := ih (checkInputsNode lib n st)
    simp only [List.foldl_cons, List.any_cons]
    rw [i1, i2, h1, h2, Bool.or_assoc, Bool.or_assoc]
    exact ⟨rfl, rfl⟩

/-- `isLoginForm` as a search of the subtree. -/
theorem isLoginForm_eq (lib : Lib) (form : Node) :
    isLoginForm lib form =
      (form.preorder.any (Node.isPasswordInput lib) && form.preorder.any (Node.isUsernameInput lib)) := by
  unfold isLoginForm
  rw [checkInputs_fold]
  obtain ⟨h1, h2⟩ := foldInputs_flags lib form.preorder
    { hasPasswordField := false, hasUsernameField := false }
  simp only [h1, h2, Bool.false_or]

/-! ### extractLinks -/

theorem extractLinksAttrs_eq (attrs : List Attribute) (links : List String) :
    extractLinksAttrs attrs links =
      links ++ (match (attrs.find? (fun attr => decide (attr.Key = "href"))).map (fun attr => attr.Val) with
        | some v => if v ≠ "" ∧ ¬ HasPrefix v "#" = true then [v] else []
        | none => []) := by
  induction attrs with
  | nil => simp [extractLinksAttrs]
  | cons a as ih =>
    by_cases h : a.Key = "href"
    · simp only [extractLinksAttrs, h, if_true, List.find?_cons, decide_True, Option.map_some']
      split <;> simp
    · simp only [extractLinksAttrs, h, if_false, List.find?_cons, decide_False]
      exact ih

theorem extractLinksNode_eq (n : Node) (links : List String) :
    extractLinksNode n links = links ++ n.anchorLink.toList := by
  unfold extractLinksNode Node.anchorLink Node.href
  by_cases h : n.Typ = NodeType.ElementNode ∧ n.Data = "a"
  · simp only [h, and_self, if_true, extractLinksAttrs_eq]
    cases (List.find? (fun attr => decide (attr.Key = "href")) n.Attr) with
    | none => simp
    | some a => simp only [Option.map_some']; split <;> simp
  · simp [h]

theorem foldLinks_eq (l : List Node) (links : List String) :
    l.foldl (fun s m => extractLinksNode m s) links = links ++ l.filterMap Node.anchorLink := by
  induction l generalizing links with
  | nil => simp
  | cons n ns ih =>
    simp only [List.foldl_cons, List.filterMap_cons]
    rw [ih, extractLinksNode_eq]
    cases n.anchorLink <;> simp

/-- `extractLinks` lists, in document order, the links contributed by the anchors. -/
theorem extractLinks_eq (doc : Node) (baseURL : String) :
    extractLinks doc baseURL = doc.preorder.filterMap Node.anchorLink := by
  unfold extractLinks
  rw [extractLinksF_fold, foldLinks_eq]
  simp

/-! ### The link loop -/

theorem resolves_of_error (lib : Lib) (base : URL) (a e : String)
    (h : lib.URLParse base a = .error e) :
    resolves lib base a = false ∧ resolvesInternal lib base a = false ∧
      resolvesExternal lib base a = false := by
  simp [resolves, resolvesInternal, resolvesExternal, h]

theorem resolves_of_ok (lib : Lib) (base : URL) (a : String) (u : URL)
    (h : lib.URLParse base a = .ok u) :
    resolves lib base a = true ∧
      resolvesInternal lib base a = (decide (u.Host = base.Host) || decide (u.Host = "")) ∧
      resolvesExternal lib base a = !(decide (u.Host = base.Host) || decide (u.Host = "")) := by
  simp [resolves, resolvesInternal, resolvesExternal, h]

theorem resolves_split (lib : Lib) (base : URL) (l : List String) :
    (l.filter (resolves lib base)).length =
      (l.filter (resolvesInternal lib base)).length + (l.filter (resolvesExternal lib base)).length := by
  induction l with
  | nil => simp
  | cons a as ih =>
    cases h : lib.URLParse base a with
    | error e =>
      obtain ⟨h1, h2, h3⟩ := resolves_of_error lib base a e h
      simp [List.filter_cons, h1, h2, h3, ih]
    | ok u =>
      obtain ⟨h1, h2, h3⟩ := resolves_of_ok lib base a u h
      cases hh : (decide (u.Host = base.Host) || decide (u.Host = "")) <;>
        rw [hh] at h2 h3 <;> simp [List.filter_cons, h1, h2, h3, ih] <;> omega

theorem take_snoc_lt {α : Type} (l : List α) (a : α) (n : Nat) (h : l.length < n) :
    (l ++ [a]).take n = l.take n ++ [a] := by
  rw [List.take_of_length_le (by simp; omega), List.take_of_length_le (by omega)]

theorem take_snoc_ge {α : Type} (l : List α) (a : α) (n : Nat) (h : n ≤ l.length) :
    (l ++ [a]).take n = l.take n := by
  rw [List.take_append_of_le_length h]

theorem linkLoopStep_error (lib : Lib) (base : URL) (total : Int) (st : LinkLoop) (a e : String)
    (h : lib.URLParse base a = .error e) : linkLoopStep lib base total st a = st := by
  simp [linkLoopStep, h]

theorem linkLoopStep_ok (lib : Lib) (base : URL) (total : Int) (st : LinkLoop) (a : String)
    (u : URL) (h : lib.URLParse base a = .ok u) :
    (linkLoopStep lib base total st a).internalCount =
        st.internalCount + (if (decide (u.Host = base.Host) || decide (u.Host = "")) then 1 else 0) ∧
    (linkLoopStep lib base total st a).externalCount =
        st.externalCount + (if (decide (u.Host = base.Host) || decide (u.Host = "")) then 0 else 1) ∧
    (linkLoopStep lib base total st a).started =
        (if total ≤ 50 ∨ (total > 50 ∧ st.internalCount + st.externalCount + 1 ≤ 50)
          then st.started ++ [(a, u)] else st.started) := by
  simp only [linkLoopStep, h]
  cases (decide (u.Host = base.Host) || decide (u.Host = "")) with
  | false =>
    simp only [Bool.false_eq_true, if_false, add_zero, Int.add_assoc]
    split <;> exact ⟨rfl, rfl, rfl⟩
  | true =>
    simp only [if_true, add_zero]
    have e : st.internalCount + 1 + st.externalCount = st.internalCount + st.externalCount + 1 := by
      omega
    rw [e]
    split <;> exact ⟨rfl, rfl, rfl⟩

theorem linkLoop_fold (lib : Lib) (base : URL) (total : Int) (l : List String) :
    (l.foldl (linkLoopStep lib base total) { internalCount := 0, externalCount := 0, started := [] }).internalCount
        = ((l.filter (resolvesInternal lib base)).length : Int) ∧
    (l.foldl (linkLoopStep lib base total) { internalCount := 0, externalCount := 0, started := [] }).externalCount
        = ((l.filter (resolvesExternal lib base)).length : Int) ∧
    (l.foldl (linkLoopStep lib base total) { internalCount := 0, externalCount := 0, started := [] }).started.map Prod.fst
        = (if total ≤ 50 then l.filter (resolves lib base) else (l.filter (resolves lib base)).take 50) ∧
    (∀ w ∈ (l.foldl (linkLoopStep lib base total)
        { internalCount := 0, externalCount := 0, started := [] }).started,
        lib.URLParse base w.1 = .ok w.2) := by
  induction l using List.reverseRecOn with
  | nil => simp
  | append_singleton l a ih =>
    obtain ⟨hi, he, hs, hw⟩ := ih
    have hsplit := resolves_split lib base l
    simp only [List.foldl_append, List.foldl_cons, List.foldl_nil, List.filter_append]
    generalize (l.foldl (linkLoopStep lib base total)
      { internalCount := 0, externalCount := 0, started := [] }) = st at hi he hs hw
    cases h : lib.URLParse base a with
    | error e =>
      obtain ⟨h1, h2, h3⟩ := resolves_of_error lib base a e h
      have f1 : List.filter (resolves lib base) [a] = [] := by simp [h1]
      have f2 : List.filter (resolvesInternal lib base) [a] = [] := by simp [h2]
      have f3 : List.filter (resolvesExternal lib base) [a] = [] := by simp [h3]
      rw [linkLoopStep_error lib base total st a e h, f1, f2, f3]
      simp only [List.append_nil]
      exact ⟨hi, he, hs, hw⟩
    | ok u =>
      obtain ⟨h1, h2, h3⟩ := resolves_of_ok lib base a u h
      obtain ⟨s1, s2, s3⟩ := linkLoopStep_ok lib base total st a u h
      have f1 : List.filter (resolves lib base) [a] = [a] := by simp [h1]
      have hlen : ((List.filter (resolves lib base) l).length : Int) =
          st.internalCount + st.externalCount := by rw [hi, he, hsplit]; push_cast; rfl
      rw [s1, s2, s3, f1]
      refine ⟨?_, ?_, ?_, ?_⟩
      · rw [hi]
        cases hh : (decide (u.Host = base.Host) || decide (u.Host = "")) <;>
          rw [hh] at h2 <;> simp [List.filter_cons, h2]
      · rw [he]
        cases hh : (decide (u.Host = base.Host) || decide (u.Host = "")) <;>
          rw [hh] at h3 <;> simp [List.filter_cons, h3]
      · by_cases ht : total ≤ 50
        · simp [ht, hs]
        · have ht2 : total > 50 := by omega
          by_cases hc : st.internalCount + st.externalCount + 1 ≤ 50
          · rw [if_pos (Or.inr ⟨ht2, hc⟩), if_neg ht, take_snoc_lt _ _ _ (by omega)]
            simp [hs, ht]
          · rw [if_neg (by rintro (h | ⟨_, h⟩) <;> contradiction), if_neg ht,
              take_snoc_ge _ _ _ (by omega)]
            simp [hs, ht]
      · intro w hmem
        split at hmem
        · rcases List.mem_append.1 hmem with hm | hm
          · exact hw w hm
          · simp at hm; subst hm; exact h
        · exact hw w hmem


/-! ### The probe workers -/

theorem probeWorker_count (lib : Lib) (net : Net) (now : Nat) (crawlURL : CrawlURL)
    (st : ProbeState) (i : Nat) (w : String × URL) :
    st.inaccessibleCount ≤ (probeWorker lib net now crawlURL st i w).inaccessibleCount ∧
    (probeWorker lib net now crawlURL st i w).inaccessibleCount ≤ st.inaccessibleCount + 1 := by
  unfold probeWorker
  split <;> [split; skip] <;> simp

/-- The workers in completion order are the started workers, each once. -/
theorem completionOrder_perm (net : Net) (ws : List (String × URL)) :
    (completionOrder net ws).Perm ws.enum :=
  List.perm_insertionSort _ _

theorem completionOrder_length (net : Net) (ws : List (String × URL)) :
    (completionOrder net ws).length = ws.length := by
  rw [(completionOrder_perm net ws).length_eq, List.enum_length]

theorem foldProbes_count (lib : Lib) (net : Net) (now : Nat) (crawlURL : CrawlURL)
    (l : List (Nat × String × URL)) (st : ProbeState) :
    st.inaccessibleCount ≤
      (l.foldl (fun st w => probeWorker lib net now crawlURL st w.1 w.2) st).inaccessibleCount ∧
    (l.foldl (fun st w => probeWorker lib net now crawlURL st w.1 w.2) st).inaccessibleCount ≤
      st.inaccessibleCount + l.length := by
  induction l generalizing st with
  | nil => simp
  | cons w l ih =>
    obtain ⟨h1, h2⟩ := probeWorker_count lib net now crawlURL st w.1 w.2
    obtain ⟨i1, i2⟩ := ih (probeWorker lib net now crawlURL st w.1 w.2)
    simp only [List.foldl_cons, List.length_cons, Nat.cast_add, Nat.cast_one]
    constructor <;> omega

theorem runProbes_count (lib : Lib) (net : Net) (now : Nat) (crawlURL : CrawlURL)
    (ws : List (String × URL)) (st : ProbeState) :
    st.inaccessibleCount ≤ (runProbes lib net now crawlURL ws st).inaccessibleCount ∧
    (runProbes lib net now crawlURL ws st).inaccessibleCount ≤ st.inaccessibleCount + ws.length := by
  have h := foldProbes_count lib net now crawlURL (completionOrder net ws) st
  rw [completionOrder_length] at h
  exact h

/-! ### categorizeAndCheckLinks and performCrawl -/

theorem categorizeAndCheckLinks_ok (lib : Lib) (net : Net) (db : DB) (now : Nat)
    (crawlURL : CrawlURL) (links : List String) (baseURL : URL)
    (hp : lib.Parse crawlURL.URL = .ok baseURL) :
    (categorizeAndCheckLinks lib net db now crawlURL links).1 =
      { crawlURL with
        InternalLinksCount := (linkLoop lib baseURL links).internalCount,
        ExternalLinksCount := (linkLoop lib baseURL links).externalCount,
        InaccessibleLinksCount :=
          (runProbes lib net now crawlURL (linkLoop lib baseURL links).started
            { inaccessibleCount := 0, db := db }).inaccessibleCount } := by
  simp [categorizeAndCheckLinks, hp]

/-- Internal and external counters after `categorizeAndCheckLinks`. -/
theorem categorizeAndCheckLinks_counts (lib : Lib) (net : Net) (db : DB) (now : Nat)
    (crawlURL : CrawlURL) (links : List String) (baseURL : URL)
    (hp : lib.Parse crawlURL.URL = .ok baseURL) :
    (categorizeAndCheckLinks lib net db now crawlURL links).1.InternalLinksCount =
        ((links.filter (resolvesInternal lib baseURL)).length : Int) ∧
    (categorizeAndCheckLinks lib net db now crawlURL links).1.ExternalLinksCount =
        ((links.filter (resolvesExternal lib baseURL)).length : Int) := by
  rw [categorizeAndCheckLinks_ok lib net db now crawlURL links baseURL hp]
  obtain ⟨h1, h2, _, _⟩ := linkLoop_fold lib baseURL links.length links
  exact ⟨h1, h2⟩

/-- The fields `extractHTMLInfo` never writes, for one node. -/
theorem extractHTMLInfoNode_frame (lib : Lib) (n : Node) (c : CrawlURL) :
    (extractHTMLInfoNode lib n c).ID = c.ID ∧
    (extractHTMLInfoNode lib n c).URL = c.URL ∧
    (extractHTMLInfoNode lib n c).Status = c.Status ∧
    (extractHTMLInfoNode lib n c).InternalLinksCount = c.InternalLinksCount ∧
    (extractHTMLInfoNode lib n c).ExternalLinksCount = c.ExternalLinksCount ∧
    (extractHTMLInfoNode lib n c).InaccessibleLinksCount = c.InaccessibleLinksCount ∧
    (extractHTMLInfoNode lib n c).ErrorMessage = c.ErrorMessage ∧
    (extractHTMLInfoNode lib n c).LastCrawledAt = c.LastCrawledAt ∧
    (extractHTMLInfoNode lib n c).CreatedAt = c.CreatedAt ∧
    (extractHTMLInfoNode lib n c).UpdatedAt = c.UpdatedAt := by
  unfold extractHTMLInfoNode
  by_cases ht : n.Typ = NodeType.ElementNode
  · simp only [ht, if_true, versionLoop_eq]
    generalize lib.ToLower n.Data = tag
    by_cases h0 : tag = "html"
    · subst h0; simp; split_ifs <;> simp
    by_cases h0' : tag = "title"
    · subst h0'; simp; split <;> [split; skip] <;> simp
    by_cases h1 : tag = "h1"
    · subst h1; simp
    by_cases h2 : tag = "h2"
    · subst h2; simp
    by_cases h3 : tag = "h3"
    · subst h3; simp
    by_cases h4 : tag = "h4"
    · subst h4; simp
    by_cases h5 : tag = "h5"
    · subst h5; simp
    by_cases h6 : tag = "h6"
    · subst h6; simp
    simp only [h0, h0', h1, h2, h3, h4, h5, h6, if_false]
    split <;> [split; skip] <;> simp
  · simp [ht]

/-- The fields `extractHTMLInfo` never writes. -/
theorem extractHTMLInfo_frame (lib : Lib) (c : CrawlURL) (doc : Node) :
    (extractHTMLInfo lib c doc).ID = c.ID ∧
    (extractHTMLInfo lib c doc).URL = c.URL ∧
    (extractHTMLInfo lib c doc).Status = c.Status ∧
    (extractHTMLInfo lib c doc).InternalLinksCount = c.InternalLinksCount ∧
    (extractHTMLInfo lib c doc).ExternalLinksCount = c.ExternalLinksCount ∧
    (extractHTMLInfo lib c doc).InaccessibleLinksCount = c.InaccessibleLinksCount ∧
    (extractHTMLInfo lib c doc).ErrorMessage = c.ErrorMessage ∧
    (extractHTMLInfo lib c doc).LastCrawledAt = c.LastCrawledAt ∧
    (extractHTMLInfo lib c doc).CreatedAt = c.CreatedAt ∧
    (extractHTMLInfo lib c doc).UpdatedAt = c.UpdatedAt := by
  unfold extractHTMLInfo
  rw [extractHTMLInfoF_fold]
  generalize doc.preorder = l
  induction l generalizing c with
  | nil => simp
  | cons n ns ih =>
    obtain ⟨a1, a2, a3, a4, a5, a6, a7, a8, a9, a10⟩ := extractHTMLInfoNode_frame lib n c
    obtain ⟨b1, b2, b3, b4, b5, b6, b7, b8, b9, b10⟩ := ih (extractHTMLInfoNode lib n c)
    simp only [List.foldl_cons]
    exact ⟨b1.trans a1, b2.trans a2, b3.trans a3, b4.trans a4, b5.trans a5, b6.trans a6,
      b7.trans a7, b8.trans a8, b9.trans a9, b10.trans a10⟩

theorem extractHTMLInfo_URL (lib : Lib) (c : CrawlURL) (doc : Node) :
    (extractHTMLInfo lib c doc).URL = c.URL :=
  (extractHTMLInfo_frame lib c doc).2.1

/-- The job returned by an attempt whose fetch and parse succeed. -/
theorem performCrawl_ok (lib : Lib) (net : Net) (db : DB) (now : Nat) (crawlURL : CrawlURL)
    (resp : Response) (doc : Node) (hget : net.Get crawlURL.URL = .ok resp)
    (hstatus : resp.StatusCode < 400) (hdoc : net.HTMLParse resp.Body = .ok doc) :
    (performCrawl lib net db now crawlURL).1 =
      { (categorizeAndCheckLinks lib net db now (extractHTMLInfo lib crawlURL doc)
          (extractLinks doc crawlURL.URL)).1 with
        Status := StatusCompleted, ErrorMessage := "" } := by
  have hs : ¬ resp.StatusCode ≥ 400 := by omega
  simp [performCrawl, hget, hs, hdoc, extractHTMLInfo_URL]

/-! ### The store -/

theorem find_id_map (g : CrawlRow → CrawlRow) (hg : ∀ r, (g r).id = r.id) :
    ∀ (rows : List CrawlRow) (old : CrawlRow), old ∈ rows →
      (rows.map (fun r => r.id)).Nodup →
      (rows.map g).find? (fun r => decide (r.id = old.id)) = some (g old)
  | [], _, h, _ => by simp at h
  | x :: xs, old, h, hn => by
    rw [List.map_cons, List.nodup_cons] at hn
    rw [List.map_cons, List.find?_cons]
    by_cases hx : x.id = old.id
    · have : old = x := by
        rcases List.mem_cons.1 h with h1 | h1
        · exact h1
        · exact absurd (hx ▸ List.mem_map_of_mem (fun r => r.id) h1) hn.1
      subst this
      simp [hg]
    · have h1 : old ∈ xs := by
        rcases List.mem_cons.1 h with h1 | h1
        · exact absurd (h1 ▸ rfl) hx
        · exact h1
      simp only [hg, hx, decide_False]
      exact find_id_map g hg xs old h1 hn.2

theorem find_id_fresh (rows : List CrawlRow) (row : CrawlRow)
    (h : ∀ r ∈ rows, r.id < row.id) :
    (rows ++ [row]).find? (fun r => decide (r.id = row.id)) = some row := by
  rw [List.find?_append]
  have : rows.find? (fun r => decide (r.id = row.id)) = none := by
    rw [List.find?_eq_none]
    intro r hr
    have := h r hr
    simp; omega
  simp [this]

/-- The duplicate that `insertCrawlURL` finds, when exactly one stored row has the URL. -/
theorem find_collate_unique (collate : String → String → Bool) (rows : List CrawlRow)
    (url : String) (old : CrawlRow) (hmem : old ∈ rows) (hurl : collate old.url url = true)
    (hkey : ∀ r ∈ rows, collate r.url url = true → r = old) :
    rows.find? (fun r => collate r.url url) = some old := by
  cases hf : rows.find? (fun r => collate r.url url) with
  | none =>
    rw [List.find?_eq_none] at hf
    exact absurd hurl (hf old hmem)
  | some x =>
    have hx : collate x.url url = true := by simpa using List.find?_some hf
    rw [hkey x (List.mem_of_find?_eq_some hf) hx]

/-- `insertCrawlURL` for a URL that is not stored: a new row with the defaults, named by
the insert id. -/
theorem insertCrawlURL_new (collate : String → String → Bool) (db : DB) (now : Nat)
    (url : String) (hwf : db.WF) (hnew : ∀ r ∈ db.crawl_urls, collate r.url url = false) :
    GetCrawlURLByID (insertCrawlURL collate db now url).1 (insertCrawlURL collate db now url).2 =
      some (scanCrawlURL (newCrawlRow db.crawl_urls_auto now url StatusQueued)) := by
  have hnone : db.crawl_urls.find? (fun r => collate r.url url) = none := by
    rw [List.find?_eq_none]
    intro r hr
    simp [hnew r hr]
  unfold insertCrawlURL
  rw [hnone]
  simp only [GetCrawlURLByID]
  have := find_id_fresh db.crawl_urls (newCrawlRow db.crawl_urls_auto now url StatusQueued)
    (fun r hr => (hwf.2.2 r hr).2)
  rw [show (newCrawlRow db.crawl_urls_auto now url StatusQueued).id = db.crawl_urls_auto from rfl]
    at this
  rw [this]; rfl

/-- `insertCrawlURL` for a stored URL whose row the statement changes: the stored row,
re-queued, named by the insert id. -/
theorem insertCrawlURL_existing (collate : String → String → Bool) (db : DB) (now : Nat)
    (url : String) (hwf : db.WF) (old : CrawlRow) (hmem : old ∈ db.crawl_urls)
    (hurl : collate old.url url = true)
    (hkey : ∀ r ∈ db.crawl_urls, collate r.url url = true → r = old)
    (hchg : old.status ≠ StatusQueued ∨ old.updated_at ≠ now) :
    GetCrawlURLByID (insertCrawlURL collate db now url).1 (insertCrawlURL collate db now url).2 =
      some (scanCrawlURL { old with status := StatusQueued, updated_at := now }) := by
  have hold := find_collate_unique collate db.crawl_urls url old hmem hurl hkey
  have hid : (if old.status = StatusQueued ∧ old.updated_at = now then (0 : Int) else old.id) =
      old.id := by
    rw [if_neg]
    rintro ⟨h1, h2⟩
    rcases hchg with h | h
    · exact h h1
    · exact h h2
  unfold insertCrawlURL
  rw [hold]
  simp only [hid]
  simp only [GetCrawlURLByID]
  rw [find_id_map _ (fun r => by by_cases h : r.id = old.id <;> simp [h]) db.crawl_urls old hmem
    hwf.1]
  simp

/-- `insertCrawlURL` for a stored URL whose row already holds the assigned values: the
insert id is 0 and names no job. -/
theorem insertCrawlURL_unchanged (collate : String → String → Bool) (db : DB) (now : Nat)
    (url : String) (hwf : db.WF) (old : CrawlRow) (hmem : old ∈ db.crawl_urls)
    (hurl : collate old.url url = true)
    (hkey : ∀ r ∈ db.crawl_urls, collate r.url url = true → r = old)
    (hsame : old.status = StatusQueued ∧ old.updated_at = now) :
    GetCrawlURLByID (insertCrawlURL collate db now url).1 (insertCrawlURL collate db now url).2 =
      none := by
  have hold := find_collate_unique collate db.crawl_urls url old hmem hurl hkey
  unfold insertCrawlURL
  rw [hold]
  simp only [hsame, and_self, if_true, GetCrawlURLByID, Option.map_eq_none', List.find?_eq_none]
  intro r hr
  obtain ⟨r0, hr0, rfl⟩ := List.mem_map.1 hr
  have hpos := (hwf.2.2 r0 hr0).1
  have : (if r0.id = old.id then
      { r0 with status := StatusQueued, updated_at := now } else r0).id = r0.id := by
    by_cases h : r0.id = old.id <;> simp [h]
  simp only [this, decide_eq_true_eq]
  omega

/-- `CreateCrawlURL` when no statement fails and the URL fits its column: the job that
`GetCrawlURLByID` finds under the insert id. -/
theorem CreateCrawlURL_ok (collate : String → String → Bool) (faults : Faults) (db : DB)
    (now : Nat) (url : String) (hlen : url.length ≤ 2048) (hins : faults.insertFails = none)
    (hlast : faults.insertIdFails = none) (hget : ∀ id, faults.getFails id = none) :
    CreateCrawlURL collate faults db now url =
      ((insertCrawlURL collate db now url).1,
        .ok (GetCrawlURLByID (insertCrawlURL collate db now url).1
          (insertCrawlURL collate db now url).2)) := by
  have hl : ¬ url.length > 2048 := by omega
  simp [CreateCrawlURL, hins, hl, hlast, hget]

/-- `CreateCrawlURL` when the `Exec` fails or the URL is longer than its column: an error,
and the store as it was. -/
theorem CreateCrawlURL_rejected (collate : String → String → Bool) (faults : Faults) (db : DB)
    (now : Nat) (url : String)
    (h : faults.insertFails ≠ none ∨ url.length > 2048) :
    ∃ err, CreateCrawlURL collate faults db now url = (db, .error err) := by
  unfold CreateCrawlURL
  cases hins : faults.insertFails with
  | some err => exact ⟨err, rfl⟩
  | none =>
    rcases h with h | h
    · exact absurd hins h
    · exact ⟨"Data too long for column 'url' at row 1", by simp [h]⟩

/-! ### Lists of links -/

theorem resolvableAnchor_length (lib : Lib) (baseURL : URL) (l : List Node) :
    ((l.filterMap Node.anchorLink).filter (resolves lib baseURL)).length =
      (l.filter (Node.resolvableAnchor lib baseURL)).length := by
  induction l with
  | nil => rfl
  | cons n ns ih =>
    cases h : n.anchorLink with
    | none => simp [List.filterMap_cons, List.filter_cons, Node.resolvableAnchor, h, ih]
    | some link =>
      cases hl : resolves lib baseURL link <;>
        simp [List.filterMap_cons, List.filter_cons, Node.resolvableAnchor, h, hl, ih]

theorem filter_length_zero {α : Type} (p : α → Bool) (l : List α) (h : ∀ a ∈ l, p a = false) :
    (l.filter p).length = 0 := by
  rw [List.length_eq_zero, List.filter_eq_nil_iff]
  intro a ha
  simp [h a ha]

theorem take_filter_of_all {α : Type} (p : α → Bool) (l : List α) (k : Nat)
    (h : ∀ a ∈ l.take k, p a = true) : (l.filter p).take k = l.take k := by
  induction l generalizing k with
  | nil => simp
  | cons a as ih =>
    cases k with
    | zero => simp
    | succ k =>
      have ha : p a = true := h a (by simp)
      rw [List.filter_cons, if_pos ha, List.take_succ_cons, List.take_succ_cons,
        ih k (fun b hb => h b (by simp [hb]))]

/-! ### The title -/

theorem extractHTMLInfoNode_Title (lib : Lib) (n : Node) (c : CrawlURL) :
    (extractHTMLInfoNode lib n c).Title =
      if n.hasTitleText lib then n.titleText lib else c.Title := by
  unfold extractHTMLInfoNode Node.hasTitleText Node.titleText Node.isTag
  by_cases ht : n.Typ = NodeType.ElementNode
  · simp only [ht, if_true, decide_True, Bool.true_and, versionLoop_eq]
    generalize lib.ToLower n.Data = tag
    by_cases h0 : tag = "html"
    · subst h0; simp; split_ifs <;> simp
    by_cases h0' : tag = "title"
    · subst h0'
      cases n.FirstChild with
      | none => simp
      | some ch => by_cases hc : ch.Typ = NodeType.TextNode <;> simp [hc]
    by_cases h1 : tag = "h1"
    · subst h1; simp
    by_cases h2 : tag = "h2"
    · subst h2; simp
    by_cases h3 : tag = "h3"
    · subst h3; simp
    by_cases h4 : tag = "h4"
    · subst h4; simp
    by_cases h5 : tag = "h5"
    · subst h5; simp
    by_cases h6 : tag = "h6"
    · subst h6; simp
    simp only [h0, h0', h1, h2, h3, h4, h5, h6, if_false, decide_False, Bool.false_and]
    split <;> [split; skip] <;> simp
  · simp [ht]

theorem foldInfo_Title (lib : Lib) (l : List Node) (c : CrawlURL) :
    (l.foldl (fun s m => extractHTMLInfoNode lib m s) c).Title =
      match (l.filter (Node.hasTitleText lib)).getLast? with
      | some n => n.titleText lib
      | none => c.Title := by
  induction l using List.reverseRecOn with
  | nil => rfl
  | append_singleton l a ih =>
    rw [List.foldl_append, List.foldl_cons, List.foldl_nil, extractHTMLInfoNode_Title,
      List.filter_append]
    by_cases h : a.hasTitleText lib = true
    · simp [h]
    · simp only [Bool.not_eq_true] at h
      simp [h, ih]

/-- The title after `extractHTMLInfo`: the trimmed text of the last `title` element that
starts with a text node, or the title held before when there is none. -/
theorem extractHTMLInfo_Title (lib : Lib) (c : CrawlURL) (doc : Node) :
    (extractHTMLInfo lib c doc).Title =
      match (titleNodes lib doc).getLast? with
      | some n => n.titleText lib
      | none => c.Title := by
  unfold extractHTMLInfo titleNodes
  rw [extractHTMLInfoF_fold]
  exact foldInfo_Title lib doc.preorder c


/-! ### Updates of the store -/

/-- The row `UpdateCrawlURL` writes for a job, from the stored row. -/
theorem UpdateCrawlURL_rows (db : DB) (now : Nat) (c : CrawlURL) :
    (UpdateCrawlURL db now c).broken_links = db.broken_links ∧
    (UpdateCrawlURL db now c).crawl_urls_auto = db.crawl_urls_auto ∧
    (UpdateCrawlURL db now c).broken_links_auto = db.broken_links_auto ∧
    (UpdateCrawlURL db now c).crawl_urls.map (fun r => r.id) = db.crawl_urls.map (fun r => r.id) ∧
    (UpdateCrawlURL db now c).crawl_urls.map (fun r => r.url) =
      db.crawl_urls.map (fun r => r.url) := by
  refine ⟨rfl, rfl, rfl, ?_, ?_⟩
  · simp only [UpdateCrawlURL, List.map_map]
    apply List.map_congr_left
    intro r _
    by_cases h : r.id = c.ID <;> simp [h]
  · simp only [UpdateCrawlURL, List.map_map]
    apply List.map_congr_left
    intro r _
    by_cases h : r.id = c.ID <;> simp [h]

theorem UpdateCrawlURL_WF (db : DB) (now : Nat) (c : CrawlURL) (hwf : db.WF) :
    (UpdateCrawlURL db now c).WF := by
  obtain ⟨_, h2, _, h4, h5⟩ := UpdateCrawlURL_rows db now c
  refine ⟨by rw [h4]; exact hwf.1, by rw [h5]; exact hwf.2.1, ?_⟩
  intro r hr
  simp only [UpdateCrawlURL, List.mem_map] at hr
  obtain ⟨r0, hr0, rfl⟩ := hr
  have := hwf.2.2 r0 hr0
  by_cases h : r0.id = c.ID <;> simpa [h, UpdateCrawlURL] using this

/-- Reading back a job after `UpdateCrawlURL`: the fields of the job, with the url and
creation time of the stored row and the update time `now`. -/
theorem GetCrawlURLByID_UpdateCrawlURL (db : DB) (now : Nat) (c : CrawlURL) (hwf : db.WF)
    (row : CrawlRow) (hmem : row ∈ db.crawl_urls) (hid : row.id = c.ID) :
    GetCrawlURLByID (UpdateCrawlURL db now c) c.ID =
      some { c with URL := row.url, CreatedAt := row.created_at, UpdatedAt := now } := by
  obtain ⟨f, hf, hfid, hfrow⟩ : ∃ f : CrawlRow → CrawlRow,
      (UpdateCrawlURL db now c).crawl_urls = db.crawl_urls.map f ∧ (∀ r, (f r).id = r.id) ∧
      scanCrawlURL (f row) =
        { c with URL := row.url, CreatedAt := row.created_at, UpdatedAt := now } :=
    ⟨_, rfl, fun r => by by_cases h : r.id = c.ID <;> simp [h], by simp [hid, scanCrawlURL]⟩
  have key := find_id_map f hfid db.crawl_urls row hmem hwf.1
  rw [hid] at key
  unfold GetCrawlURLByID
  rw [hf, key, Option.map_some', hfrow]

theorem GetCrawlURLByID_mem (db : DB) (id : Int) (c : CrawlURL)
    (h : GetCrawlURLByID db id = some c) :
    ∃ row ∈ db.crawl_urls, row.id = id ∧ c = scanCrawlURL row := by
  unfold GetCrawlURLByID at h
  cases hf : db.crawl_urls.find? (fun r => decide (r.id = id)) with
  | none => rw [hf] at h; simp at h
  | some row =>
    rw [hf] at h
    simp only [Option.map_some', Option.some.injEq] at h
    exact ⟨row, List.mem_of_find?_eq_some hf, by simpa using List.find?_some hf, h.symm⟩

theorem GetCrawlURLByID_of_mem (db : DB) (hwf : db.WF) (row : CrawlRow)
    (hmem : row ∈ db.crawl_urls) : GetCrawlURLByID db row.id = some (scanCrawlURL row) := by
  unfold GetCrawlURLByID
  have := find_id_map id (fun _ => rfl) db.crawl_urls row hmem hwf.1
  rw [List.map_id] at this
  rw [this]; rfl

/-! ### The probe workers write only `broken_links` -/

theorem CreateBrokenLink_crawl_urls (db : DB) (now : Nat) (b : BrokenLink) :
    (CreateBrokenLink db now b).crawl_urls = db.crawl_urls ∧
    (CreateBrokenLink db now b).crawl_urls_auto = db.crawl_urls_auto := by
  unfold CreateBrokenLink
  split <;> exact ⟨rfl, rfl⟩

theorem foldProbes_crawl_urls (lib : Lib) (net : Net) (now : Nat) (crawlURL : CrawlURL)
    (l : List (Nat × String × URL)) (st : ProbeState) :
    (l.foldl (fun st w => probeWorker lib net now crawlURL st w.1 w.2) st).db.crawl_urls =
      st.db.crawl_urls ∧
    (l.foldl (fun st w => probeWorker lib net now crawlURL st w.1 w.2) st).db.crawl_urls_auto =
      st.db.crawl_urls_auto := by
  induction l generalizing st with
  | nil => exact ⟨rfl, rfl⟩
  | cons w l ih =>
    obtain ⟨i1, i2⟩ := ih (probeWorker lib net now crawlURL st w.1 w.2)
    simp only [List.foldl_cons]
    rw [i1, i2]
    unfold probeWorker
    split <;> [split; skip] <;> simp [CreateBrokenLink_crawl_urls]

theorem runProbes_crawl_urls (lib : Lib) (net : Net) (now : Nat) (crawlURL : CrawlURL)
    (ws : List (String × URL)) (st : ProbeState) :
    (runProbes lib net now crawlURL ws st).db.crawl_urls = st.db.crawl_urls ∧
    (runProbes lib net now crawlURL ws st).db.crawl_urls_auto = st.db.crawl_urls_auto :=
  foldProbes_crawl_urls lib net now crawlURL (completionOrder net ws) st

theorem categorizeAndCheckLinks_crawl_urls (lib : Lib) (net : Net) (db : DB) (now : Nat)
    (crawlURL : CrawlURL) (links : List String) :
    (categorizeAndCheckLinks lib net db now crawlURL links).2.crawl_urls = db.crawl_urls ∧
    (categorizeAndCheckLinks lib net db now crawlURL links).2.crawl_urls_auto =
      db.crawl_urls_auto := by
  unfold categorizeAndCheckLinks
  cases lib.Parse crawlURL.URL with
  | error e => exact ⟨rfl, rfl⟩
  | ok baseURL => exact runProbes_crawl_urls lib net now crawlURL _ _

theorem categorizeAndCheckLinks_frame (lib : Lib) (net : Net) (db : DB) (now : Nat)
    (crawlURL : CrawlURL) (links : List String) :
    (categorizeAndCheckLinks lib net db now crawlURL links).1.ID = crawlURL.ID ∧
    (categorizeAndCheckLinks lib net db now crawlURL links).1.URL = crawlURL.URL := by
  unfold categorizeAndCheckLinks
  cases lib.Parse crawlURL.URL with
  | error e => exact ⟨rfl, rfl⟩
  | ok baseURL => exact ⟨rfl, rfl⟩

/-- With every worker served and the job stored, the workers count the failed checks and
append, in the order in which they are run, one row per failed check whose URL fits. -/
theorem foldProbes_served (lib : Lib) (net : Net) (now : Nat) (crawlURL : CrawlURL)
    (hacq : ∀ i, net.Acquire i = true) (l : List (Nat × String × URL)) (st : ProbeState)
    (hrow : st.db.crawl_urls.any (fun r => decide (r.id = crawlURL.ID)) = true) :
    (l.foldl (fun st w => probeWorker lib net now crawlURL st w.1 w.2) st).inaccessibleCount =
        st.inaccessibleCount + ((l.filter (brokenWorker lib net)).length : Int) ∧
    (l.foldl (fun st w => probeWorker lib net now crawlURL st w.1 w.2) st).db.broken_links =
        st.db.broken_links ++
          brokenRows lib crawlURL.ID now
            ((l.filter (brokenWorker lib net)).filter (fitsWorker lib))
            st.db.broken_links_auto := by
  induction l generalizing st with
  | nil => simp [brokenRows]
  | cons w l ih =>
    simp only [List.foldl_cons]
    by_cases hc : (checkLinkAccessibility net w.1 (lib.URLString w.2.2)).isSome = true
    · have hb : brokenWorker lib net w = true := hc
      by_cases hfit : (lib.URLString w.2.2).length ≤ 2048
      · have hf : fitsWorker lib w = true := by simp [fitsWorker, hfit]
        have hstep : probeWorker lib net now crawlURL st w.1 w.2 =
            { inaccessibleCount := st.inaccessibleCount + 1,
              db := { st.db with
                broken_links := st.db.broken_links ++
                  [{ id := st.db.broken_links_auto, crawl_url_id := crawlURL.ID,
                     url := lib.URLString w.2.2, status_code := some 0,
                     error_message := some "Link check failed", created_at := now }],
                broken_links_auto := st.db.broken_links_auto + 1 } } := by
          simp [probeWorker, hacq, hc, CreateBrokenLink, hrow, hfit]
        obtain ⟨i1, i2⟩ := ih (probeWorker lib net now crawlURL st w.1 w.2)
          (by rw [hstep]; exact hrow)
        rw [i1, i2, hstep]
        simp only [List.filter_cons, hb, hf, if_true, List.length_cons, brokenRows,
          List.append_assoc, List.singleton_append, Nat.cast_add, Nat.cast_one]
        exact ⟨by omega, trivial⟩
      · have hf : fitsWorker lib w = false := by simp [fitsWorker, hfit]
        have hstep : probeWorker lib net now crawlURL st w.1 w.2 =
            { inaccessibleCount := st.inaccessibleCount + 1, db := st.db } := by
          simp [probeWorker, hacq, hc, CreateBrokenLink, hfit]
        obtain ⟨i1, i2⟩ := ih (probeWorker lib net now crawlURL st w.1 w.2)
          (by rw [hstep]; exact hrow)
        rw [i1, i2, hstep]
        simp only [List.filter_cons, hb, hf, if_true, List.length_cons, Nat.cast_add,
          Nat.cast_one]
        exact ⟨by omega, by simp⟩
    · have hb : brokenWorker lib net w = false := by simpa [brokenWorker] using hc
      have hstep : probeWorker lib net now crawlURL st w.1 w.2 = st := by
        simp [probeWorker, hacq, hc]
      obtain ⟨i1, i2⟩ := ih st hrow
      rw [hstep, i1, i2]
      simp [hb]

theorem append_ne_empty (s t : String) (h : s ≠ "") : s ++ t ≠ "" := by
  intro he
  have h1 := congrArg String.length he
  rw [String.length_append] at h1
  have h2 : s.length = 0 := by
    have : "".length = 0 := rfl
    omega
  exact h (by
    cases s with
    | mk d =>
      have : d = [] := List.length_eq_zero.1 h2
      subst this; rfl)

/-- The status with which `performCrawl` returns. -/
theorem performCrawl_status (lib : Lib) (net : Net) (db : DB) (now : Nat) (crawlURL : CrawlURL) :
    ((∃ resp doc, net.Get crawlURL.URL = .ok resp ∧ resp.StatusCode < 400 ∧
        net.HTMLParse resp.Body = .ok doc) ∧
      (performCrawl lib net db now crawlURL).1.Status = StatusCompleted ∧
      (performCrawl lib net db now crawlURL).1.ErrorMessage = "") ∨
    ((¬ ∃ resp doc, net.Get crawlURL.URL = .ok resp ∧ resp.StatusCode < 400 ∧
        net.HTMLParse resp.Body = .ok doc) ∧
      (performCrawl lib net db now crawlURL).1.Status = StatusError) := by
  cases hget : net.Get crawlURL.URL with
  | error err =>
    right
    exact ⟨(by rintro ⟨resp, doc, h, _⟩; cases h), by simp [performCrawl, hget]⟩
  | ok resp =>
    by_cases hbad : resp.StatusCode ≥ 400
    · right
      refine ⟨?_, by simp [performCrawl, hget, hbad]⟩
      rintro ⟨resp2, doc, h, h4, _⟩
      cases h; omega
    · cases hdoc : net.HTMLParse resp.Body with
      | error err =>
        right
        refine ⟨?_, by simp [performCrawl, hget, hbad, hdoc]⟩
        rintro ⟨resp2, doc, h, _, hd⟩
        cases h; rw [hdoc] at hd; cases hd
      | ok doc =>
        left
        have h4 : resp.StatusCode < 400 := by omega
        refine ⟨⟨resp, doc, rfl, h4, hdoc⟩, ?_, ?_⟩ <;>
          rw [performCrawl_ok lib net db now crawlURL resp doc hget h4 hdoc]

/-- Every error path of `performCrawl` ends with `UpdateCrawlURL` of the returned job, on a
store whose `crawl_urls` table is the one it started with; the completed path does so when
the server accepts the values of the job, and otherwise leaves that store as it is. -/
theorem performCrawl_persists (lib : Lib) (net : Net) (db : DB) (now : Nat) (crawlURL : CrawlURL) :
    (performCrawl lib net db now crawlURL).1.ID = crawlURL.ID ∧
    ∃ db1 : DB, db1.crawl_urls = db.crawl_urls ∧ db1.crawl_urls_auto = db.crawl_urls_auto ∧
      (((performCrawl lib net db now crawlURL).1.Status = StatusCompleted →
          fitsCrawlURL (performCrawl lib net db now crawlURL).1 = true) →
        (performCrawl lib net db now crawlURL).2 =
          UpdateCrawlURL db1 now (performCrawl lib net db now crawlURL).1) ∧
      ((performCrawl lib net db now crawlURL).1.Status = StatusCompleted →
        fitsCrawlURL (performCrawl lib net db now crawlURL).1 = false →
        (performCrawl lib net db now crawlURL).2 = db1) := by
  have hne : StatusError ≠ StatusCompleted := by decide
  cases hget : net.Get crawlURL.URL with
  | error err =>
    exact ⟨by simp [performCrawl, hget], db, rfl, rfl, fun _ => by simp [performCrawl, hget],
      fun h => absurd (by simpa [performCrawl, hget] using h) hne⟩
  | ok resp =>
    by_cases hbad : resp.StatusCode ≥ 400
    · exact ⟨by simp [performCrawl, hget, hbad], db, rfl, rfl,
        fun _ => by simp [performCrawl, hget, hbad],
        fun h => absurd (by simpa [performCrawl, hget, hbad] using h) hne⟩
    · cases hdoc : net.HTMLParse resp.Body with
      | error err =>
        exact ⟨by simp [performCrawl, hget, hbad, hdoc], db, rfl, rfl,
          fun _ => by simp [performCrawl, hget, hbad, hdoc],
          fun h => absurd (by simpa [performCrawl, hget, hbad, hdoc] using h) hne⟩
      | ok doc =>
        have hpair : performCrawl lib net db now crawlURL =
            (completedJob lib net db now crawlURL doc,
              if fitsCrawlURL (completedJob lib net db now crawlURL doc) = true then
                UpdateCrawlURL (categorizeAndCheckLinks lib net db now
                  (extractHTMLInfo lib crawlURL doc) (extractLinks doc crawlURL.URL)).2 now
                  (completedJob lib net db now crawlURL doc)
              else (categorizeAndCheckLinks lib net db now
                  (extractHTMLInfo lib crawlURL doc) (extractLinks doc crawlURL.URL)).2) := by
          simp [performCrawl, hget, hbad, hdoc, completedJob, extractHTMLInfo_URL]
        rw [hpair]
        refine ⟨?_, (categorizeAndCheckLinks lib net db now (extractHTMLInfo lib crawlURL doc)
          (extractLinks doc crawlURL.URL)).2,
          (categorizeAndCheckLinks_crawl_urls lib net db now _ _).1,
          (categorizeAndCheckLinks_crawl_urls lib net db now _ _).2, ?_, ?_⟩
        · show (categorizeAndCheckLinks lib net db now (extractHTMLInfo lib crawlURL doc)
            (extractLinks doc crawlURL.URL)).1.ID = crawlURL.ID
          rw [(categorizeAndCheckLinks_frame lib net db now _ _).1]
          exact (extractHTMLInfo_frame lib crawlURL doc).1
        · intro h
          have hfit : fitsCrawlURL (completedJob lib net db now crawlURL doc) = true := h rfl
          simp only [hfit, if_true]
        · intro _ hfit
          have hfit2 : fitsCrawlURL (completedJob lib net db now crawlURL doc) = false := hfit
          simp [hfit2]

/-! ### ReCrawlURLs -/

theorem requeuedRow_idem (now : Nat) (r : CrawlRow) :
    requeuedRow now (requeuedRow now r) = requeuedRow now r := by
  simp [requeuedRow]

theorem scan_requeuedRow (now : Nat) (r : CrawlRow) :
    scanCrawlURL (requeuedRow now r) =
      { scanCrawlURL r with Status := StatusQueued, ErrorMessage := "", UpdatedAt := now } := by
  simp [requeuedRow, scanCrawlURL]

/-- One iteration of `ReCrawlURLs` rewrites the row with the given id, if there is one. -/
theorem reCrawlStep_eq (faults : Faults) (now : Nat) (db : DB) (id : Int) (hwf : db.WF)
    (hg : faults.getFails id = none) (hu : faults.updateFails id = none) :
    reCrawlStep faults now db id =
      { db with crawl_urls :=
          db.crawl_urls.map (fun r => if r.id = id then requeuedRow now r else r) } := by
  unfold reCrawlStep
  rw [hg]
  cases hget : GetCrawlURLByID db id with
  | none =>
    have hno : ∀ r ∈ db.crawl_urls, r.id ≠ id := by
      intro r hr hid
      have := GetCrawlURLByID_of_mem db hwf r hr
      rw [hid, hget] at this
      cases this
    have : db.crawl_urls.map (fun r => if r.id = id then requeuedRow now r else r) =
        db.crawl_urls := by
      conv_rhs => rw [← List.map_id db.crawl_urls]
      apply List.map_congr_left
      intro r hr
      simp [hno r hr]
    simp only [this]
  | some c =>
    obtain ⟨row, hmem, hid, hc⟩ := GetCrawlURLByID_mem db id c hget
    have hcid : c.ID = id := by rw [hc]; exact hid
    simp only [hcid, hu, UpdateCrawlURL]
    congr 1
    apply List.map_congr_left
    intro r hr
    by_cases h : r.id = id
    · have hr' : r = row :=
        List.inj_on_of_nodup_map hwf.1 hr hmem (h.trans hid.symm)
      subst hr'
      simp [h, hc, requeuedRow, scanCrawlURL]
    · simp [h]

theorem requeue_WF (now : Nat) (db : DB) (p : CrawlRow → Prop) [DecidablePred p] (hwf : db.WF) :
    ({ db with crawl_urls :=
        db.crawl_urls.map (fun r => if p r then requeuedRow now r else r) } : DB).WF := by
  have hid : (db.crawl_urls.map (fun r => if p r then requeuedRow now r else r)).map
      (fun r => r.id) = db.crawl_urls.map (fun r => r.id) := by
    rw [List.map_map]
    apply List.map_congr_left
    intro r _
    by_cases h : p r <;> simp [h, requeuedRow]
  have hurl : (db.crawl_urls.map (fun r => if p r then requeuedRow now r else r)).map
      (fun r => r.url) = db.crawl_urls.map (fun r => r.url) := by
    rw [List.map_map]
    apply List.map_congr_left
    intro r _
    by_cases h : p r <;> simp [h, requeuedRow]
  refine ⟨by rw [hid]; exact hwf.1, by rw [hurl]; exact hwf.2.1, ?_⟩
  intro r hr
  obtain ⟨r0, hr0, rfl⟩ := List.mem_map.1 hr
  have := hwf.2.2 r0 hr0
  by_cases h : p r0 <;> simpa [h, requeuedRow] using this

/-- The store after `ReCrawlURLs`: the rows named in the list are re-queued, nothing else
changes. -/
theorem ReCrawlURLs_eq (faults : Faults) (now : Nat) (ids : List Int) (db : DB) (hwf : db.WF)
    (hok : ∀ id ∈ ids, faults.getFails id = none ∧ faults.updateFails id = none) :
    ids.foldl (reCrawlStep faults now) db =
      { db with crawl_urls :=
          db.crawl_urls.map (fun r => if r.id ∈ ids then requeuedRow now r else r) } := by
  induction ids generalizing db with
  | nil => simp
  | cons id rest ih =>
    have h1 := hok id (by simp)
    rw [List.foldl_cons, reCrawlStep_eq faults now db id hwf h1.1 h1.2,
      ih _ (requeue_WF now db (fun r => r.id = id) hwf) (fun i hi => hok i (by simp [hi]))]
    simp only [List.map_map]
    congr 1
    apply List.map_congr_left
    intro r _
    by_cases ha : r.id = id
    · by_cases hb : id ∈ rest <;> simp [ha, hb, requeuedRow]
    · by_cases hb : r.id ∈ rest <;> simp [ha, hb]

theorem find_map_id (g : CrawlRow → CrawlRow) (hg : ∀ r, (g r).id = r.id) (rows : List CrawlRow)
    (id : Int) :
    (rows.map g).find? (fun r => decide (r.id = id)) =
      (rows.find? (fun r => decide (r.id = id))).map g := by
  induction rows with
  | nil => rfl
  | cons x xs ih =>
    simp only [List.map_cons, List.find?_cons, hg]
    by_cases h : x.id = id <;> simp [h, ih]

/-! ### Broken links -/

/-- The recorded workers are the started workers whose check fails and whose URL fits,
each once. -/
theorem recordedWorkers_perm (lib : Lib) (net : Net) (ws : List (String × URL)) :
    (recordedWorkers lib net ws).Perm
      ((ws.enum.filter (brokenWorker lib net)).filter (fitsWorker lib)) :=
  ((completionOrder_perm net ws).filter _).filter _

theorem brokenRows_owner (lib : Lib) (jobID : Int) (now : Nat) (ws : List (Nat × String × URL))
    (id : Int) :
    (brokenRows lib jobID now ws id).map (fun r => (r.crawl_url_id, r.url)) =
      ws.map (fun w => (jobID, lib.URLString w.2.2)) := by
  induction ws generalizing id with
  | nil => rfl
  | cons w ws ih => simp [brokenRows, ih]

/-- A page with a single link, which resolves and whose check fails: the link is counted,
and `CreateBrokenLink` is called once, with the text of the resolved link. -/
theorem categorizeAndCheckLinks_single (lib : Lib) (net : Net) (db : DB) (now : Nat)
    (crawlURL : CrawlURL) (baseURL : URL) (link : String) (u : URL)
    (hp : lib.Parse crawlURL.URL = .ok baseURL) (hu : lib.URLParse baseURL link = .ok u)
    (hacq : net.Acquire 0 = true)
    (hc : (checkLinkAccessibility net 0 (lib.URLString u)).isSome = true) :
    (categorizeAndCheckLinks lib net db now crawlURL [link]).1.InaccessibleLinksCount = 1 ∧
    (categorizeAndCheckLinks lib net db now crawlURL [link]).2 =
      CreateBrokenLink db now
        { ID := 0, CrawlURLID := crawlURL.ID, URL := lib.URLString u, StatusCode := 0,
          ErrorMessage := "Link check failed", CreatedAt := 0 } := by
  have hs : (linkLoop lib baseURL [link]).started = [(link, u)] := by
    have h := (linkLoopStep_ok lib baseURL ([link].length : Int)
      { internalCount := 0, externalCount := 0, started := [] } link u hu).2.2
    simpa [linkLoop] using h
  have hr : ∀ st : ProbeState, runProbes lib net now crawlURL [(link, u)] st =
      probeWorker lib net now crawlURL st 0 (link, u) := by
    intro st
    simp [runProbes, completionOrder, List.enum, List.enumFrom]
  simp [categorizeAndCheckLinks, hp, hs, hr, probeWorker, hacq, hc]

theorem longLink_length : longLink.length = 2049 := by
  show ('/' :: List.replicate 2048 'a').length = 2049
  rw [List.length_cons, List.length_replicate]

theorem longLinkLib_resolves :
    longLinkLib.URLParse (sampleURL "http" "example.com" "") longLink =
      .ok (sampleURL "http" "example.com" longLink) := by
  simp [longLinkLib]
  rfl

theorem longLinkLib_length :
    (longLinkLib.URLString (sampleURL "http" "example.com" longLink)).length = 2067 := by
  simp [longLinkLib, sampleURLString, sampleURL, String.length_append, longLink_length]
  rfl

/-- The row of a link of 2067 characters is rejected. -/
theorem CreateBrokenLink_longLink (db : DB) (now : Nat) (id : Int) :
    CreateBrokenLink db now
      { ID := 0, CrawlURLID := id,
        URL := longLinkLib.URLString (sampleURL "http" "example.com" longLink), StatusCode := 0,
        ErrorMessage := "Link check failed", CreatedAt := 0 } = db := by
  have hfit : ¬ (longLinkLib.URLString (sampleURL "http" "example.com" longLink)).length ≤
      2048 := by
    rw [longLinkLib_length]; decide
  simp [CreateBrokenLink, hfit]

/-! ### The redirect policy -/

theorem redirectLoop_eq (pending : Nat) (via : List Unit) (h1 : 1 ≤ via.length)
    (h10 : via.length ≤ 10) :
    redirectLoop CheckRedirect pending via =
      if via.length + pending ≤ 10 then
        { followed := via.length + pending - 1, usedLastResponse := false }
      else { followed := 9, usedLastResponse := true } := by
  induction pending generalizing via with
  | zero => simp [redirectLoop, h10]
  | succ p ih =>
    unfold redirectLoop
    by_cases hk : via.length ≥ 10
    · have : via.length = 10 := by omega
      have hgt : ¬ (via.length + (p + 1) ≤ 10) := by omega
      simp [CheckRedirect, hk, hgt, this]
    · have hlt : via.length < 10 := by omega
      simp only [CheckRedirect, hk, if_false]
      rw [ih (via ++ [()]) (by simp) (by simp; omega)]
      simp only [List.length_append, List.length_singleton]
      have e : via.length + 1 + p = via.length + (p + 1) := by omega
      rw [e]

/-! ### Starting attempts -/

/-- A job as `CrawlURL` and the scheduler hand it to `performCrawl`. -/
theorem processJob_eq (lib : Lib) (net : Net) (faults : Faults) (now : Nat) (st : Tick)
    (c : CrawlURL) :
    (∀ err, faults.updateFails c.ID = some err → processJob lib net faults now st c = st) ∧
    (faults.updateFails c.ID = none →
      processJob lib net faults now st c =
        { db := (performCrawl lib net
            (UpdateCrawlURL st.db now { c with Status := StatusRunning, LastCrawledAt := some now })
            now { c with Status := StatusRunning, LastCrawledAt := some now }).2,
          attempts := st.attempts ++
            [{ c with Status := StatusRunning, LastCrawledAt := some now }] }) := by
  constructor
  · intro err h
    simp [processJob, h]
  · intro h
    simp [processJob, h]

theorem processBatch_attempts (lib : Lib) (net : Net) (faults : Faults) (now : Nat)
    (batch : List CrawlURL) (st : Tick) :
    (batch.foldl (processJob lib net faults now) st).attempts =
      st.attempts ++ (batch.filter (fun c => (faults.updateFails c.ID).isNone)).map
        (fun c => { c with Status := StatusRunning, LastCrawledAt := some now }) := by
  induction batch generalizing st with
  | nil => simp
  | cons c cs ih =>
    rw [List.foldl_cons, ih]
    cases h : faults.updateFails c.ID with
    | some err =>
      rw [(processJob_eq lib net faults now st c).1 err h]
      simp [List.filter_cons, h]
    | none =>
      rw [(processJob_eq lib net faults now st c).2 h]
      simp [List.filter_cons, h]

/-! ### The scheduler tick -/

theorem crawlURLFilter_queued (like : String → String → Bool) (r : CrawlRow) :
    crawlURLFilter like StatusQueued "" r = decide (r.status = StatusQueued) := by
  have : ¬ StatusQueued = "" := by decide
  simp [crawlURLFilter, this]

/-- The batch a tick asks for: the first ten stored `queued` jobs, newest first. -/
theorem GetCrawlURLs_queued (like : String → String → Bool) (db : DB) :
    GetCrawlURLs like db 10 0 StatusQueued "" =
        .ok (queuedBatch db,
          ((db.crawl_urls.filter (fun r => decide (r.status = StatusQueued))).length : Int)) ∧
      (queuedBatch db).length =
        min 10 (db.crawl_urls.filter (fun r => decide (r.status = StatusQueued))).length ∧
      ∀ c ∈ queuedBatch db,
        c.Status = StatusQueued ∧ ∃ row ∈ db.crawl_urls, c = scanCrawlURL row := by
  have hf : db.crawl_urls.filter (crawlURLFilter like StatusQueued "") =
      db.crawl_urls.filter (fun r => decide (r.status = StatusQueued)) := by
    apply List.filter_congr
    intro r _
    exact crawlURLFilter_queued like r
  refine ⟨?_, ?_, ?_⟩
  · unfold GetCrawlURLs queuedBatch
    simp only [hf]
    rw [if_neg (by omega)]
    rfl
  · simp [queuedBatch, List.length_insertionSort]
  · intro c hc
    simp only [queuedBatch, List.mem_map] at hc
    obtain ⟨row, hrow, rfl⟩ := hc
    have hmem : row ∈ db.crawl_urls.filter (fun r => decide (r.status = StatusQueued)) :=
      (List.perm_insertionSort _ _).subset (List.mem_of_mem_take hrow)
    rw [List.mem_filter] at hmem
    exact ⟨by simpa using hmem.2, row, hmem.1, rfl⟩

/-! ### Heading counters across an attempt -/

theorem extractHTMLInfo_headings (lib : Lib) (c : CrawlURL) (doc : Node) :
    (extractHTMLInfo lib c doc).headings =
      List.zipWith (fun a b => a + b) c.headings (headingCounts lib doc) := by
  obtain ⟨h1, h2, h3, h4, h5, h6⟩ := extractHTMLInfo_counts lib c doc
  simp [CrawlURL.headings, headingCounts, h1, h2, h3, h4, h5, h6]

theorem categorizeAndCheckLinks_headings (lib : Lib) (net : Net) (db : DB) (now : Nat)
    (crawlURL : CrawlURL) (links : List String) :
    (categorizeAndCheckLinks lib net db now crawlURL links).1.headings = crawlURL.headings := by
  unfold categorizeAndCheckLinks
  cases lib.Parse crawlURL.URL with
  | error e => rfl
  | ok baseURL => rfl

/-- The heading counters with which `performCrawl` returns: those of the analysis when the
attempt completes, those of the job otherwise. -/
theorem performCrawl_headings (lib : Lib) (net : Net) (db : DB) (now : Nat) (crawlURL : CrawlURL) :
    (∀ resp doc, net.Get crawlURL.URL = .ok resp → resp.StatusCode < 400 →
      net.HTMLParse resp.Body = .ok doc →
      (performCrawl lib net db now crawlURL).1.headings =
        (extractHTMLInfo lib crawlURL doc).headings) ∧
    ((performCrawl lib net db now crawlURL).1.headings = crawlURL.headings ∨
      ∃ doc, (performCrawl lib net db now crawlURL).1.headings =
        (extractHTMLInfo lib crawlURL doc).headings) := by
  have hok : ∀ resp doc, net.Get crawlURL.URL = .ok resp → resp.StatusCode < 400 →
      net.HTMLParse resp.Body = .ok doc →
      (performCrawl lib net db now crawlURL).1.headings =
        (extractHTMLInfo lib crawlURL doc).headings := by
    intro resp doc hget hstatus hdoc
    rw [performCrawl_ok lib net db now crawlURL resp doc hget hstatus hdoc]
    exact categorizeAndCheckLinks_headings lib net db now _ _
  refine ⟨hok, ?_⟩
  cases hget : net.Get crawlURL.URL with
  | error err => left; simp [performCrawl, hget, CrawlURL.headings]
  | ok resp =>
    by_cases hbad : resp.StatusCode ≥ 400
    · left; simp [performCrawl, hget, hbad, CrawlURL.headings]
    · cases hdoc : net.HTMLParse resp.Body with
      | error err => left; simp [performCrawl, hget, hbad, hdoc, CrawlURL.headings]
      | ok doc => exact Or.inr ⟨doc, hok resp doc hget (by omega) hdoc⟩

/-- The job that `performCrawl` leaves in the store when its last update is written: on
every error path, and on the completed path when the server accepts the values. -/
theorem performCrawl_stored (lib : Lib) (net : Net) (db : DB) (now : Nat) (crawlURL : CrawlURL)
    (hwf : db.WF) (row : CrawlRow) (hmem : row ∈ db.crawl_urls) (hid : row.id = crawlURL.ID)
    (hfit : (performCrawl lib net db now crawlURL).1.Status = StatusCompleted →
      fitsCrawlURL (performCrawl lib net db now crawlURL).1 = true) :
    GetCrawlURLByID (performCrawl lib net db now crawlURL).2 crawlURL.ID =
      some { (performCrawl lib net db now crawlURL).1 with
        URL := row.url, CreatedAt := row.created_at, UpdatedAt := now } := by
  obtain ⟨hID, db1, hrows, hauto, hdb, _⟩ := performCrawl_persists lib net db now crawlURL
  have hwf1 : db1.WF := by
    unfold DB.WF at hwf ⊢
    rw [hrows, hauto]
    exact hwf
  have hread := GetCrawlURLByID_UpdateCrawlURL db1 now (performCrawl lib net db now crawlURL).1
    hwf1 row (by rw [hrows]; exact hmem) (hid.trans hID.symm)
  rw [hID, ← hdb hfit] at hread
  rw [hread]
  simp [hID]

/-- The table `crawl_urls` after a completed attempt whose last update the server rejects:
as it was before the attempt. -/
theorem performCrawl_rejected (lib : Lib) (net : Net) (db : DB) (now : Nat) (crawlURL : CrawlURL)
    (hc : (performCrawl lib net db now crawlURL).1.Status = StatusCompleted)
    (hfit : fitsCrawlURL (performCrawl lib net db now crawlURL).1 = false) :
    (performCrawl lib net db now crawlURL).2.crawl_urls = db.crawl_urls := by
  obtain ⟨_, db1, hrows, _, _, hdb⟩ := performCrawl_persists lib net db now crawlURL
  rw [hdb hc hfit, hrows]

theorem headings_le_add (a : List Int) (b : List Int) (hb : ∀ x ∈ b, 0 ≤ x)
    (hlen : a.length = b.length) :
    List.Forall₂ (fun x y => x ≤ y) a (List.zipWith (fun x y => x + y) a b) := by
  induction a generalizing b with
  | nil => simp
  | cons x xs ih =>
    cases b with
    | nil => simp at hlen
    | cons y ys =>
      simp only [List.zipWith_cons_cons, List.forall₂_cons]
      refine ⟨?_, ih ys (fun z hz => hb z (by simp [hz])) (by simpa using hlen)⟩
      have := hb y (by simp)
      omega

theorem headingCounts_nonneg (lib : Lib) (doc : Node) : ∀ x ∈ headingCounts lib doc, 0 ≤ x := by
  intro x hx
  simp only [headingCounts, List.mem_cons, List.mem_singleton, List.not_mem_nil, or_false] at hx
  rcases hx with rfl | rfl | rfl | rfl | rfl | rfl <;> exact Int.ofNat_nonneg _

theorem zipWith_self_double (a : List Int) :
    List.zipWith (fun x y => x + y) a a = a.map (fun k => 2 * k) := by
  induction a with
  | nil => rfl
  | cons x xs ih =>
    simp only [List.zipWith_cons_cons, List.map_cons, ih]
    congr 1
    ring

/-! ### Go `int` arithmetic -/

theorem wrapInt_eq (x : Int) (h1 : -9223372036854775808 ≤ x) (h2 : x < 9223372036854775808) :
    wrapInt x = x := by
  unfold wrapInt
  omega

theorem pageCount_ceil (total limit : Int) (h0 : 0 ≤ total) (h1 : 1 ≤ limit)
    (h2 : total + limit - 1 < 9223372036854775808) :
    pageCount total limit = (total + limit - 1) / limit ∧
    total ≤ pageCount total limit * limit ∧
    ∀ p : Int, total ≤ p * limit → pageCount total limit ≤ p := by
  have e : pageCount total limit = (total + limit - 1) / limit := by
    have hw : wrapInt (wrapInt (total + limit) - 1) = total + limit - 1 := by
      unfold wrapInt
      omega
    unfold pageCount
    rw [hw, Int.tdiv_eq_ediv (by omega) (by omega)]
  have hle := Int.ediv_mul_le (total + limit - 1) (show limit ≠ 0 by omega)
  have hlt := Int.lt_ediv_add_one_mul_self (total + limit - 1) (show 0 < limit by omega)
  rw [e]
  generalize (total + limit - 1) / limit = q at hle hlt
  refine ⟨rfl, ?_, ?_⟩
  · have : (q + 1) * limit = q * limit + limit := by ring
    omega
  · intro p hp
    by_contra hcon
    have hpq : p + 1 ≤ q := by omega
    have hmul : (p + 1) * limit ≤ q * limit :=
      Int.mul_le_mul_of_nonneg_right hpq (by omega)
    have : (p + 1) * limit = p * limit + limit := by ring
    omega

/-! ### Start and Stop -/

/-- What holds of single calls: `Start` never panics and does nothing on a running
processor; `Stop` does nothing on a stopped processor and panics exactly on a running
processor whose channel is closed. -/
theorem processor_calls (p : CrawlerJobProcessor) :
    (∃ p1, p.Start = .ok p1 ∧ p1.isRunning = true ∧ p1.stopChanClosed = p.stopChanClosed) ∧
    (p.isRunning = true → p.Start = .ok p) ∧
    (p.isRunning = false → p.Stop = .ok p) ∧
    (p.isRunning = true → p.stopChanClosed = false →
      p.Stop = .ok { isRunning := false, stopChanClosed := true }) ∧
    (p.isRunning = true → p.stopChanClosed = true → p.Stop = .error "close of closed channel") := by
  cases p with
  | mk r c => cases r <;> cases c <;> simp [CrawlerJobProcessor.Start, CrawlerJobProcessor.Stop]

theorem brokenRows_status_code (lib : Lib) (jobID : Int) (now : Nat)
    (ws : List (Nat × String × URL)) (id : Int) : ∀ r ∈ brokenRows lib jobID now ws id, r.status_code = some 0 := by
  induction ws generalizing id with
  | nil => simp [brokenRows]
  | cons w ws ih =>
    intro r hr
    simp only [brokenRows, List.mem_cons] at hr
    rcases hr with rfl | hr
    · rfl
    · exact ih _ r hr

/-! # The claims -/

/-- C1: `AddURL` on a string that `url.Parse` rejects, or whose parsed scheme is neither
`http` nor `https`, returns an error and leaves the store exactly as it was, so no job is
created. -/
theorem AddURL_rejects_invalid (lib : Lib) (collate : String → String → Bool) (faults : Faults)
    (db : DB) (now : Nat) (urlStr : String)
    (h : (∃ err, lib.Parse urlStr = .error err) ∨
      (∃ u, lib.Parse urlStr = .ok u ∧ u.Scheme ≠ "http" ∧ u.Scheme ≠ "https")) :
    ∃ msg, AddURL lib collate faults db now urlStr = (db, .error msg) := by
  rcases h with ⟨err, he⟩ | ⟨u, hu, h1, h2⟩
  · exact ⟨"invalid URL: " ++ err, by simp [AddURL, he]⟩
  · exact ⟨"URL must use http or https scheme", by simp [AddURL, hu, h1, h2]⟩

/-- C1, witness: an `ftp` URL is rejected and `sampleDB` is unchanged. -/
theorem AddURL_rejects_invalid_witness :
    ∃ msg, AddURL sampleLib sampleCollate noFaults sampleDB 9 "ftp://example.com/file" =
      (sampleDB, .error msg) :=
  AddURL_rejects_invalid sampleLib sampleCollate noFaults sampleDB 9 "ftp://example.com/file"
    (Or.inr ⟨sampleURL "ftp" "example.com" "/file", rfl, by decide, by decide⟩)

/-- C2, counterexample: submitting the URL of a job that is already stored returns that job,
re-queued, with the counters and the error message it had. -/
theorem AddURL_resubmit_keeps_counters :
    sampleDB.WF ∧
    sampleLib.Parse "http://example.com" = .ok (sampleURL "http" "example.com" "") ∧
    (AddURL sampleLib sampleCollate noFaults sampleDB 9 "http://example.com").2 =
      .ok (some { sampleJob with Status := StatusQueued, UpdatedAt := 9 }) ∧
    ({ sampleJob with Status := StatusQueued, UpdatedAt := 9 } : CrawlURL).counters =
      [2, 1, 0, 0, 0, 0, 3, 4, 1] ∧
    ({ sampleJob with Status := StatusQueued, UpdatedAt := 9 } : CrawlURL).ErrorMessage =
      "HTTP error: 500" :=
  ⟨by decide, rfl, rfl, rfl, rfl⟩

/-- C2, amended: for a parsable `http` or `https` URL of at most 2048 characters, when no
statement fails, on a store that satisfies its key constraints (at most one stored row has
the URL, as the unique key compares URLs) and in which a stored row with the URL is changed
by the statement, `AddURL` returns a job with status `queued`; when the URL was not stored
the job is new, carries the URL, and all nine structural counters are zero; when it was
stored the job is the stored one with only status and update time changed. -/
theorem AddURL_queued (lib : Lib) (collate : String → String → Bool) (faults : Faults)
    (db : DB) (now : Nat) (urlStr : String) (u : URL)
    (hp : lib.Parse urlStr = .ok u) (hs : u.Scheme = "http" ∨ u.Scheme = "https")
    (hlen : urlStr.length ≤ 2048)
    (hins : faults.insertFails = none) (hlast : faults.insertIdFails = none)
    (hget : ∀ id, faults.getFails id = none)
    (hwf : db.WF)
    (hkey : ∀ a ∈ db.crawl_urls, ∀ b ∈ db.crawl_urls,
      collate a.url urlStr = true → collate b.url urlStr = true → a = b)
    (hchg : ∀ old ∈ db.crawl_urls, collate old.url urlStr = true →
      old.status ≠ StatusQueued ∨ old.updated_at ≠ now) :
    ∃ job, (AddURL lib collate faults db now urlStr).2 = .ok (some job) ∧
      job.Status = StatusQueued ∧
      ((∀ r ∈ db.crawl_urls, collate r.url urlStr = false) →
        job.URL = urlStr ∧ job.counters = [0, 0, 0, 0, 0, 0, 0, 0, 0]) ∧
      (∀ old ∈ db.crawl_urls, collate old.url urlStr = true →
        job = { scanCrawlURL old with Status := StatusQueued, UpdatedAt := now }) := by
  have hadd : (AddURL lib collate faults db now urlStr).2 =
      .ok (GetCrawlURLByID (insertCrawlURL collate db now urlStr).1
        (insertCrawlURL collate db now urlStr).2) := by
    have : ¬ (u.Scheme ≠ "http" ∧ u.Scheme ≠ "https") := by
      rcases hs with h | h <;> simp [h]
    simp only [AddURL, hp, this, if_false]
    rw [CreateCrawlURL_ok collate faults db now urlStr hlen hins hlast hget]
  by_cases hex : ∃ old ∈ db.crawl_urls, collate old.url urlStr = true
  · obtain ⟨old, hmem, hurl⟩ := hex
    refine ⟨scanCrawlURL { old with status := StatusQueued, updated_at := now }, ?_, rfl,
      fun hnew => absurd hurl (by simp [hnew old hmem]), ?_⟩
    · rw [hadd, insertCrawlURL_existing collate db now urlStr hwf old hmem hurl
        (fun r hr h => hkey r hr old hmem h hurl) (hchg old hmem hurl)]
    · intro old2 hmem2 hurl2
      rw [hkey old2 hmem2 old hmem hurl2 hurl]
      rfl
  · have hnew : ∀ r ∈ db.crawl_urls, collate r.url urlStr = false := by
      intro r hr
      cases h : collate r.url urlStr with
      | false => rfl
      | true => exact absurd ⟨r, hr, h⟩ hex
    refine ⟨scanCrawlURL (newCrawlRow db.crawl_urls_auto now urlStr StatusQueued), ?_, rfl,
      fun _ => ⟨rfl, rfl⟩, fun old hmem hurl => absurd hurl (by simp [hnew old hmem])⟩
    rw [hadd, insertCrawlURL_new collate db now urlStr hwf hnew]

/-- C2, witness: a new `https` URL submitted to `sampleDB`. -/
theorem AddURL_queued_witness :
    ∃ job, (AddURL sampleLib sampleCollate noFaults sampleDB 9 "https://example.com/shop").2 =
        .ok (some job) ∧
      job.Status = StatusQueued ∧
      ((∀ r ∈ sampleDB.crawl_urls, sampleCollate r.url "https://example.com/shop" = false) →
        job.URL = "https://example.com/shop" ∧ job.counters = [0, 0, 0, 0, 0, 0, 0, 0, 0]) ∧
      (∀ old ∈ sampleDB.crawl_urls, sampleCollate old.url "https://example.com/shop" = true →
        job = { scanCrawlURL old with Status := StatusQueued, UpdatedAt := 9 }) :=
  AddURL_queued sampleLib sampleCollate noFaults sampleDB 9 "https://example.com/shop"
    (sampleURL "https" "example.com" "/shop") rfl (Or.inr rfl) (by decide) rfl rfl
    (fun _ => rfl) (by decide) (by decide) (by decide)

/-- C3, at the failing input: a job loaded with the counts of an earlier attempt
(`H1Count = 2`, `H2Count = 1`) and analysed again on a page with two `h1` and one `h2`
ends with `H1Count = 4` and `H2Count = 2`. -/
theorem extractHTMLInfo_recrawl_doubles :
    countTag sampleLib "h1" headingsPage = 2 ∧ countTag sampleLib "h2" headingsPage = 1 ∧
    sampleJob.H1Count = 2 ∧ sampleJob.H2Count = 1 ∧
    (extractHTMLInfo sampleLib sampleJob headingsPage).H1Count = 4 ∧
    (extractHTMLInfo sampleLib sampleJob headingsPage).H2Count = 2 := by
  decide

/-- C4: `isLoginForm` returns true exactly when the subtree of the node holds an `input`
whose type lower-cases to `password` and an `input` whose type lower-cases to `text` or
`email` and whose lower-cased name contains `user`, `email` or `login`. -/
theorem isLoginForm_iff (lib : Lib) (form : Node) :
    isLoginForm lib form = true ↔
      (∃ n ∈ form.preorder, n.isPasswordInput lib = true) ∧
      (∃ m ∈ form.preorder, m.isUsernameInput lib = true) := by
  rw [isLoginForm_eq, Bool.and_eq_true, List.any_eq_true, List.any_eq_true]

/-- C5, at the failing input: a job whose `HasLoginForm` is true from an earlier attempt,
analysed on a page whose only form holds only a password field, keeps `HasLoginForm = true`
although no form of the page is a login form. -/
theorem extractHTMLInfo_login_flag_sticks :
    sampleJob.HasLoginForm = true ∧
    passwordOnlyPage.preorder.any
      (fun n => n.isTag sampleLib "form" && isLoginForm sampleLib n) = false ∧
    (extractHTMLInfo sampleLib sampleJob passwordOnlyPage).HasLoginForm = true := by
  decide

/-- C6: `extractLinks` returns, in document order, the first-`href` value of every `a`
element whose href is non-empty and does not start with `#`, and nothing else. -/
theorem extractLinks_document_order (doc : Node) (baseURL : String) :
    extractLinks doc baseURL = doc.preorder.filterMap Node.anchorLink :=
  extractLinks_eq doc baseURL

/-- C7: with the page URL parsed as `baseURL`, `InternalLinksCount` is the number of links
that resolve to the host of `baseURL` or to an empty host, and `ExternalLinksCount` is the
number of links that resolve to any other host. -/
theorem link_classification (lib : Lib) (net : Net) (db : DB) (now : Nat) (crawlURL : CrawlURL)
    (links : List String) (baseURL : URL) (hp : lib.Parse crawlURL.URL = .ok baseURL) :
    (categorizeAndCheckLinks lib net db now crawlURL links).1.InternalLinksCount =
        ((links.filter (resolvesInternal lib baseURL)).length : Int) ∧
    (categorizeAndCheckLinks lib net db now crawlURL links).1.ExternalLinksCount =
        ((links.filter (resolvesExternal lib baseURL)).length : Int) :=
  categorizeAndCheckLinks_counts lib net db now crawlURL links baseURL hp

/-- C7, witness: two own-host links, a `mailto:` link without host, one foreign link and an
unresolvable one, applied to a job that held other counts. -/
theorem link_classification_witness :
    (categorizeAndCheckLinks sampleLib sampleNet sampleDB 9 sampleJob
      ["/about", "https://other.org/x", ":bad", "mailto:team@example.com", "/contact"]).1.InternalLinksCount
        = 3 ∧
    (categorizeAndCheckLinks sampleLib sampleNet sampleDB 9 sampleJob
      ["/about", "https://other.org/x", ":bad", "mailto:team@example.com", "/contact"]).1.ExternalLinksCount
        = 1 :=
  link_classification sampleLib sampleNet sampleDB 9 sampleJob
    ["/about", "https://other.org/x", ":bad", "mailto:team@example.com", "/contact"]
    (sampleURL "http" "example.com" "") rfl

/-- C8: with the page URL parsed as `baseURL`, `InternalLinksCount + ExternalLinksCount` is
the number of links of the list that resolve against `baseURL`, wherever the unresolvable
ones stand in the list. -/
theorem link_counts_total (lib : Lib) (net : Net) (db : DB) (now : Nat) (crawlURL : CrawlURL)
    (links : List String) (baseURL : URL) (hp : lib.Parse crawlURL.URL = .ok baseURL) :
    (categorizeAndCheckLinks lib net db now crawlURL links).1.InternalLinksCount +
      (categorizeAndCheckLinks lib net db now crawlURL links).1.ExternalLinksCount =
        ((links.filter (resolves lib baseURL)).length : Int) := by
  obtain ⟨h1, h2⟩ := categorizeAndCheckLinks_counts lib net db now crawlURL links baseURL hp
  rw [h1, h2, resolves_split]
  push_cast
  rfl

/-- C8, witness: an unresolvable link between resolvable ones. -/
theorem link_counts_total_witness :
    (categorizeAndCheckLinks sampleLib sampleNet sampleDB 9 sampleJob
      ["/about", ":bad", "https://other.org/x", ":bad", "/contact"]).1.InternalLinksCount +
    (categorizeAndCheckLinks sampleLib sampleNet sampleDB 9 sampleJob
      ["/about", ":bad", "https://other.org/x", ":bad", "/contact"]).1.ExternalLinksCount =
      ((["/about", ":bad", "https://other.org/x", ":bad", "/contact"].filter
        (resolves sampleLib (sampleURL "http" "example.com" ""))).length : Int) :=
  link_counts_total sampleLib sampleNet sampleDB 9 sampleJob
    ["/about", ":bad", "https://other.org/x", ":bad", "/contact"]
    (sampleURL "http" "example.com" "") rfl

/-- C9: when the fetch answers below 400, the document parses, and every anchor link that
resolves does so to the host of the page, `performCrawl` ends `completed` with
`ExternalLinksCount = 0` and `InternalLinksCount` the number of anchors whose href is
non-empty, does not start with `#` and resolves, for every prior job state and every network
behaviour of the probes. -/
theorem performCrawl_own_host_links (lib : Lib) (net : Net) (db : DB) (now : Nat)
    (crawlURL : CrawlURL) (baseURL : URL) (resp : Response) (doc : Node)
    (hp : lib.Parse crawlURL.URL = .ok baseURL)
    (hget : net.Get crawlURL.URL = .ok resp) (hstatus : resp.StatusCode < 400)
    (hdoc : net.HTMLParse resp.Body = .ok doc)
    (hown : ∀ n ∈ doc.preorder, ∀ link u, n.anchorLink = some link →
      lib.URLParse baseURL link = .ok u → u.Host = baseURL.Host) :
    (performCrawl lib net db now crawlURL).1.Status = StatusCompleted ∧
    (performCrawl lib net db now crawlURL).1.ExternalLinksCount = 0 ∧
    (performCrawl lib net db now crawlURL).1.InternalLinksCount =
      ((doc.preorder.filter (Node.resolvableAnchor lib baseURL)).length : Int) := by
  rw [performCrawl_ok lib net db now crawlURL resp doc hget hstatus hdoc]
  have hp1 : lib.Parse (extractHTMLInfo lib crawlURL doc).URL = .ok baseURL := by
    rw [extractHTMLInfo_URL]; exact hp
  obtain ⟨h1, h2⟩ := categorizeAndCheckLinks_counts lib net db now
    (extractHTMLInfo lib crawlURL doc) (extractLinks doc crawlURL.URL) baseURL hp1
  have hlinks : ∀ link ∈ extractLinks doc crawlURL.URL, ∀ u,
      lib.URLParse baseURL link = .ok u → u.Host = baseURL.Host := by
    intro link hl u hu
    rw [extractLinks_eq, List.mem_filterMap] at hl
    obtain ⟨n, hn, hnl⟩ := hl
    exact hown n hn link u hnl hu
  have hext : ∀ link ∈ extractLinks doc crawlURL.URL, resolvesExternal lib baseURL link = false := by
    intro link hl
    cases hu : lib.URLParse baseURL link with
    | error e => exact (resolves_of_error lib baseURL link e hu).2.2
    | ok u =>
      rw [(resolves_of_ok lib baseURL link u hu).2.2, hlinks link hl u hu]
      simp
  have hsplit := resolves_split lib baseURL (extractLinks doc crawlURL.URL)
  have hzero := filter_length_zero (resolvesExternal lib baseURL) _ hext
  refine ⟨rfl, ?_, ?_⟩
  · show (categorizeAndCheckLinks lib net db now (extractHTMLInfo lib crawlURL doc)
      (extractLinks doc crawlURL.URL)).1.ExternalLinksCount = 0
    rw [h2, hzero]; rfl
  · show (categorizeAndCheckLinks lib net db now (extractHTMLInfo lib crawlURL doc)
      (extractLinks doc crawlURL.URL)).1.InternalLinksCount = _
    rw [h1]
    have : (List.filter (resolvesInternal lib baseURL) (extractLinks doc crawlURL.URL)).length =
        (doc.preorder.filter (Node.resolvableAnchor lib baseURL)).length := by
      have e1 : (List.filter (resolvesInternal lib baseURL) (extractLinks doc crawlURL.URL)).length
          = (List.filter (resolves lib baseURL) (extractLinks doc crawlURL.URL)).length := by omega
      rw [e1, extractLinks_eq, resolvableAnchor_length]
    rw [this]

/-- C9, witness: `linksPage` crawled for a job that held 3 internal and 4 external links,
with every probe answering 404. -/
theorem performCrawl_own_host_links_witness :
    (performCrawl sampleLib sampleNet sampleDB 9 sampleJob).1.Status = StatusCompleted ∧
    (performCrawl sampleLib sampleNet sampleDB 9 sampleJob).1.ExternalLinksCount = 0 ∧
    (performCrawl sampleLib sampleNet sampleDB 9 sampleJob).1.InternalLinksCount =
      ((linksPage.preorder.filter
        (Node.resolvableAnchor sampleLib (sampleURL "http" "example.com" ""))).length : Int) :=
  performCrawl_own_host_links sampleLib sampleNet sampleDB 9 sampleJob
    (sampleURL "http" "example.com" "") { StatusCode := 200, Body := "page" } linksPage
    rfl rfl (by decide) rfl
    (fun n hn link u hl hu => by
      have hmem : link ∈ linksPage.preorder.filterMap Node.anchorLink :=
        List.mem_filterMap.2 ⟨n, hn, hl⟩
      have hlist : linksPage.preorder.filterMap Node.anchorLink = ["/about", ":bad", "/contact"] := by
        decide
      rw [hlist] at hmem
      simp only [List.mem_cons, List.mem_singleton, List.not_mem_nil, or_false] at hmem
      rcases hmem with rfl | rfl | rfl
      · cases hu; rfl
      · cases hu
      · cases hu; rfl)

set_option maxRecDepth 8000 in
/-- C10, counterexample: of 51 links whose first one does not resolve, the 50 probed links
are entries 2 to 51, so the 51st entry (`/contact`) is probed and the probed links are not
the first 50 entries. -/
theorem probes_pass_fiftieth_entry :
    sampleLinks.length = 51 ∧
    (linkLoop sampleLib (sampleURL "http" "example.com" "") sampleLinks).started.map Prod.fst =
      List.replicate 49 "/about" ++ ["/contact"] ∧
    (linkLoop sampleLib (sampleURL "http" "example.com" "") sampleLinks).started.map Prod.fst ≠
      sampleLinks.take 50 := by
  decide

/-- C10, amended: the workers started by the link loop are, in order, the resolvable links
of the list when it has at most 50 entries, and the first 50 resolvable links when it has
more (these are the first 50 entries when all of those resolve); each worker holds the
resolved URL of its link; every resolvable link is counted as internal or external; and
`InaccessibleLinksCount` is at most the number of workers, hence at most 50 for a longer
list. -/
theorem probes_sampled (lib : Lib) (net : Net) (db : DB) (now : Nat) (crawlURL : CrawlURL)
    (links : List String) (baseURL : URL) (hp : lib.Parse crawlURL.URL = .ok baseURL) :
    (links.length ≤ 50 →
      (linkLoop lib baseURL links).started.map Prod.fst = links.filter (resolves lib baseURL)) ∧
    (50 < links.length →
      (linkLoop lib baseURL links).started.map Prod.fst =
        (links.filter (resolves lib baseURL)).take 50) ∧
    (50 < links.length → (∀ link ∈ links.take 50, resolves lib baseURL link = true) →
      (linkLoop lib baseURL links).started.map Prod.fst = links.take 50) ∧
    (∀ w ∈ (linkLoop lib baseURL links).started, lib.URLParse baseURL w.1 = .ok w.2) ∧
    (categorizeAndCheckLinks lib net db now crawlURL links).1.InternalLinksCount +
      (categorizeAndCheckLinks lib net db now crawlURL links).1.ExternalLinksCount =
        ((links.filter (resolves lib baseURL)).length : Int) ∧
    0 ≤ (categorizeAndCheckLinks lib net db now crawlURL links).1.InaccessibleLinksCount ∧
    (categorizeAndCheckLinks lib net db now crawlURL links).1.InaccessibleLinksCount ≤
      ((linkLoop lib baseURL links).started.length : Int) ∧
    (50 < links.length →
      (categorizeAndCheckLinks lib net db now crawlURL links).1.InaccessibleLinksCount ≤ 50) := by
  obtain ⟨h1, h2, h3, h4⟩ := linkLoop_fold lib baseURL links.length links
  obtain ⟨c1, c2⟩ := categorizeAndCheckLinks_counts lib net db now crawlURL links baseURL hp
  obtain ⟨p1, p2⟩ := runProbes_count lib net now crawlURL (linkLoop lib baseURL links).started
    { inaccessibleCount := 0, db := db }
  have hlong : 50 < links.length → (linkLoop lib baseURL links).started.map Prod.fst =
      (links.filter (resolves lib baseURL)).take 50 := by
    intro hl
    have : ¬ ((links.length : Int) ≤ 50) := by omega
    unfold linkLoop
    rw [h3, if_neg this]
  have hinacc : (categorizeAndCheckLinks lib net db now crawlURL links).1.InaccessibleLinksCount =
      (runProbes lib net now crawlURL (linkLoop lib baseURL links).started
        { inaccessibleCount := 0, db := db }).inaccessibleCount := by
    rw [categorizeAndCheckLinks_ok lib net db now crawlURL links baseURL hp]
  refine ⟨?_, hlong, ?_, h4, ?_, ?_, ?_, ?_⟩
  · intro hl
    have : (links.length : Int) ≤ 50 := by omega
    unfold linkLoop
    rw [h3, if_pos this]
  · intro hl hall
    rw [hlong hl, take_filter_of_all _ _ _ hall]
  · rw [c1, c2, resolves_split]; push_cast; rfl
  · rw [hinacc]; simpa using p1
  · rw [hinacc]; simpa using p2
  · intro hl
    rw [hinacc]
    have hlen : (linkLoop lib baseURL links).started.length ≤ 50 := by
      have := congrArg List.length (hlong hl)
      rw [List.length_map, List.length_take] at this
      omega
    have p2' : (runProbes lib net now crawlURL (linkLoop lib baseURL links).started
        { inaccessibleCount := 0, db := db }).inaccessibleCount ≤
        0 + ((linkLoop lib baseURL links).started.length : Int) := p2
    omega

/-- C10, witness: the 51 links of `sampleLinks`. -/
theorem probes_sampled_witness :
    (linkLoop sampleLib (sampleURL "http" "example.com" "") sampleLinks).started.map Prod.fst =
      (sampleLinks.filter (resolves sampleLib (sampleURL "http" "example.com" ""))).take 50 ∧
    (categorizeAndCheckLinks sampleLib sampleNet sampleDB 9 sampleJob
      sampleLinks).1.InaccessibleLinksCount ≤ 50 :=
  have h := probes_sampled sampleLib sampleNet sampleDB 9 sampleJob sampleLinks
    (sampleURL "http" "example.com" "") rfl
  ⟨h.2.1 (by decide), h.2.2.2.2.2.2.2 (by decide)⟩

/-- C11, at the failing input: a job that carries `HTMLVersion = "XHTML 1.0"` from an
earlier attempt, analysed on a page whose `html` element has no `version` attribute, keeps
`"XHTML 1.0"` instead of the label `HTML5`. -/
theorem extractHTMLInfo_stale_version :
    xhtmlJob.HTMLVersion = "XHTML 1.0" ∧
    (headingsPage.preorder.filter (Node.isTag sampleLib "html")).map Node.Attr = [[]] ∧
    (extractHTMLInfo sampleLib xhtmlJob headingsPage).HTMLVersion = "XHTML 1.0" := by
  decide

/-- C12, counterexample: on a page whose `head` holds the title ` Shop ` and whose body
holds an inline SVG with the title `Logo`, the job ends with the title `Logo`: the later
`title` element overrides the first. -/
theorem extractHTMLInfo_later_title_overrides :
    (titleNodes sampleLib svgPage).map (Node.titleText sampleLib) = ["Shop", "Logo"] ∧
    (extractHTMLInfo sampleLib sampleJob svgPage).Title = "Logo" := by
  decide

/-- C12, amended: when `last` is the last `title` element of the document, in document
order, whose first child is a text node, the title after `extractHTMLInfo` is the trimmed
text of that first child. -/
theorem extractHTMLInfo_title_last (lib : Lib) (crawlURL : CrawlURL) (doc last : Node)
    (h : (titleNodes lib doc).getLast? = some last) :
    (extractHTMLInfo lib crawlURL doc).Title = last.titleText lib := by
  rw [extractHTMLInfo_Title, h]

/-- C12, witness: the page with the single title ` Shop `, for a job that held another
title. -/
theorem extractHTMLInfo_title_last_witness :
    (extractHTMLInfo sampleLib { sampleJob with Title := "Old" } headingsPage).Title = "Shop" :=
  extractHTMLInfo_title_last sampleLib { sampleJob with Title := "Old" } headingsPage
    (element "title" [] [text " Shop "]) rfl

/-- C13: when the GET returns an error, or the response status is 400 or more, or the HTML
parse fails, `performCrawl` returns the job with only status (`error`) and error message
(non-empty; `HTTP error: <code>` for the status case) changed, writes exactly that job with
`UpdateCrawlURL`, creates no BrokenLink, and the stored job reads back with that status and
message; a response below 400 ends `completed` when it parses and otherwise carries the
parse error, never the fetch or status error. -/
theorem performCrawl_failure (lib : Lib) (net : Net) (db : DB) (now : Nat) (crawlURL : CrawlURL) :
    (∀ resp, net.Get crawlURL.URL = .ok resp → resp.StatusCode < 400 →
      (∀ doc, net.HTMLParse resp.Body = .ok doc →
        (performCrawl lib net db now crawlURL).1.Status = StatusCompleted) ∧
      (∀ err, net.HTMLParse resp.Body = .error err →
        (performCrawl lib net db now crawlURL).1.ErrorMessage = "Failed to parse HTML: " ++ err)) ∧
    (((∃ err, net.Get crawlURL.URL = .error err) ∨
      (∃ resp, net.Get crawlURL.URL = .ok resp ∧
        (resp.StatusCode ≥ 400 ∨ ∃ err, net.HTMLParse resp.Body = .error err))) →
      ∃ msg, msg ≠ "" ∧
        (∀ resp, net.Get crawlURL.URL = .ok resp → resp.StatusCode ≥ 400 →
          msg = "HTTP error: " ++ toString resp.StatusCode) ∧
        (performCrawl lib net db now crawlURL).1 =
          { crawlURL with Status := StatusError, ErrorMessage := msg } ∧
        (performCrawl lib net db now crawlURL).2 =
          UpdateCrawlURL db now { crawlURL with Status := StatusError, ErrorMessage := msg } ∧
        (performCrawl lib net db now crawlURL).2.broken_links = db.broken_links ∧
        (db.WF → ∀ row ∈ db.crawl_urls, row.id = crawlURL.ID →
          GetCrawlURLByID (performCrawl lib net db now crawlURL).2 crawlURL.ID =
            some { crawlURL with Status := StatusError, ErrorMessage := msg, URL := row.url,
                                 CreatedAt := row.created_at, UpdatedAt := now })) := by
  constructor
  · intro resp hget hstatus
    constructor
    · intro doc hdoc
      rw [performCrawl_ok lib net db now crawlURL resp doc hget hstatus hdoc]
    · intro err hparse
      have hbad : ¬ resp.StatusCode ≥ 400 := by omega
      simp [performCrawl, hget, hbad, hparse]
  · have key : ∀ msg, msg ≠ "" →
        (∀ resp, net.Get crawlURL.URL = .ok resp → resp.StatusCode ≥ 400 →
          msg = "HTTP error: " ++ toString resp.StatusCode) →
        performCrawl lib net db now crawlURL =
          ({ crawlURL with Status := StatusError, ErrorMessage := msg },
            UpdateCrawlURL db now { crawlURL with Status := StatusError, ErrorMessage := msg }) →
        ∃ msg, msg ≠ "" ∧
        (∀ resp, net.Get crawlURL.URL = .ok resp → resp.StatusCode ≥ 400 →
          msg = "HTTP error: " ++ toString resp.StatusCode) ∧
        (performCrawl lib net db now crawlURL).1 =
          { crawlURL with Status := StatusError, ErrorMessage := msg } ∧
        (performCrawl lib net db now crawlURL).2 =
          UpdateCrawlURL db now { crawlURL with Status := StatusError, ErrorMessage := msg } ∧
        (performCrawl lib net db now crawlURL).2.broken_links = db.broken_links ∧
        (db.WF → ∀ row ∈ db.crawl_urls, row.id = crawlURL.ID →
          GetCrawlURLByID (performCrawl lib net db now crawlURL).2 crawlURL.ID =
            some { crawlURL with Status := StatusError, ErrorMessage := msg, URL := row.url,
                                 CreatedAt := row.created_at, UpdatedAt := now }) := by
      intro msg hne hmsg heq
      refine ⟨msg, hne, hmsg, by rw [heq], by rw [heq], by rw [heq]; rfl, ?_⟩
      intro hwf row hmem hid
      rw [heq]
      exact GetCrawlURLByID_UpdateCrawlURL db now
        { crawlURL with Status := StatusError, ErrorMessage := msg } hwf row hmem hid
    rintro (⟨err, hget⟩ | ⟨resp, hget, hbad | ⟨err, hparse⟩⟩)
    · refine key ("Failed to fetch URL: " ++ err) (append_ne_empty _ _ (by decide)) ?_ ?_
      · intro resp hr; rw [hget] at hr; cases hr
      · simp [performCrawl, hget]
    · refine key ("HTTP error: " ++ toString resp.StatusCode) (append_ne_empty _ _ (by decide))
        ?_ ?_
      · intro resp2 hr _; rw [hget] at hr; cases hr; rfl
      · simp [performCrawl, hget, hbad]
    · by_cases hbad : resp.StatusCode ≥ 400
      · refine key ("HTTP error: " ++ toString resp.StatusCode)
          (append_ne_empty _ _ (by decide)) ?_ ?_
        · intro resp2 hr _; rw [hget] at hr; cases hr; rfl
        · simp [performCrawl, hget, hbad]
      · refine key ("Failed to parse HTML: " ++ err) (append_ne_empty _ _ (by decide)) ?_ ?_
        · intro resp2 hr h4; rw [hget] at hr; cases hr; exact absurd h4 hbad
        · simp [performCrawl, hget, hbad, hparse]

/-- C13, witness: a GET answered with 500, for the stored `sampleJob`. -/
theorem performCrawl_failure_witness :
    ∃ msg, msg = "HTTP error: " ++ toString (500 : Int) ∧
      (performCrawl sampleLib failingNet sampleDB 9 sampleJob).1 =
        { sampleJob with Status := StatusError, ErrorMessage := msg } ∧
      GetCrawlURLByID (performCrawl sampleLib failingNet sampleDB 9 sampleJob).2 sampleJob.ID =
        some { sampleJob with Status := StatusError, ErrorMessage := msg, URL := sampleRow.url,
                              CreatedAt := sampleRow.created_at, UpdatedAt := 9 } :=
  let ⟨msg, _, h2, h3, _, _, h6⟩ :=
    (performCrawl_failure sampleLib failingNet sampleDB 9 sampleJob).2
      (Or.inr ⟨{ StatusCode := 500, Body := "" }, rfl, Or.inl (by decide)⟩)
  ⟨msg, h2 { StatusCode := 500, Body := "" } rfl (by decide), h3,
    h6 (by decide) sampleRow (by decide) rfl⟩

/-- C14, counterexample: job 1, which `CrawlURL` stored as `running` with the message
`HTTP error: 500` of an earlier attempt, is crawled on a page whose `html` element declares
a version of 54 characters.  The attempt returns `completed` with the empty message, the
server rejects the final update (`html_version VARCHAR(50)`), and the stored job stays
`running` with the old message. -/
theorem performCrawl_completed_not_stored :
    (CrawlerService.CrawlURL noFaults sampleDB 9 1).attempt = some startedJob ∧
    (CrawlerService.CrawlURL noFaults sampleDB 9 1).db = startedDB ∧
    (performCrawl sampleLib longVersionNet startedDB 9 startedJob).1.Status = StatusCompleted ∧
    (performCrawl sampleLib longVersionNet startedDB 9 startedJob).1.ErrorMessage = "" ∧
    (performCrawl sampleLib longVersionNet startedDB 9 startedJob).1.HTMLVersion.length = 54 ∧
    (GetCrawlURLByID (performCrawl sampleLib longVersionNet startedDB 9 startedJob).2 1).map
      (fun c => (c.Status, c.ErrorMessage)) = some ("running", "HTTP error: 500") := by
  decide

/-- C14, amended: `performCrawl` returns the job with status `completed` or `error`, never
`queued` or `running`; the status is `completed` exactly when the GET succeeds with a status
below 400 and the HTML parses; a `completed` job has the empty error message, whatever it
held before; the stored job reads back with the returned status and error message on every
error path, and on the completed path when the server accepts the final update (title of
at most 512 characters, version of at most 50, counters in the range of `INT`); when the
server rejects it, the stored jobs are left as they were before the attempt. -/
theorem performCrawl_terminal (lib : Lib) (net : Net) (db : DB) (now : Nat) (crawlURL : CrawlURL) :
    ((performCrawl lib net db now crawlURL).1.Status = StatusCompleted ∨
      (performCrawl lib net db now crawlURL).1.Status = StatusError) ∧
    (performCrawl lib net db now crawlURL).1.Status ≠ StatusQueued ∧
    (performCrawl lib net db now crawlURL).1.Status ≠ StatusRunning ∧
    ((performCrawl lib net db now crawlURL).1.Status = StatusCompleted ↔
      ∃ resp doc, net.Get crawlURL.URL = .ok resp ∧ resp.StatusCode < 400 ∧
        net.HTMLParse resp.Body = .ok doc) ∧
    ((performCrawl lib net db now crawlURL).1.Status = StatusCompleted →
      (performCrawl lib net db now crawlURL).1.ErrorMessage = "") ∧
    (db.WF → ∀ row ∈ db.crawl_urls, row.id = crawlURL.ID →
      ((performCrawl lib net db now crawlURL).1.Status = StatusCompleted →
        fitsCrawlURL (performCrawl lib net db now crawlURL).1 = true) →
      ∃ stored, GetCrawlURLByID (performCrawl lib net db now crawlURL).2 crawlURL.ID = some stored ∧
        stored.Status = (performCrawl lib net db now crawlURL).1.Status ∧
        stored.ErrorMessage = (performCrawl lib net db now crawlURL).1.ErrorMessage) ∧
    ((performCrawl lib net db now crawlURL).1.Status = StatusCompleted →
      fitsCrawlURL (performCrawl lib net db now crawlURL).1 = false →
      (performCrawl lib net db now crawlURL).2.crawl_urls = db.crawl_urls) := by
  have hne : StatusError ≠ StatusCompleted := by decide
  refine ⟨?_, ?_, ?_, ?_, ?_, ?_, ?_⟩
  · rcases performCrawl_status lib net db now crawlURL with ⟨_, h, _⟩ | ⟨_, h⟩
    · exact Or.inl h
    · exact Or.inr h
  · rcases performCrawl_status lib net db now crawlURL with ⟨_, h, _⟩ | ⟨_, h⟩ <;>
      rw [h] <;> decide
  · rcases performCrawl_status lib net db now crawlURL with ⟨_, h, _⟩ | ⟨_, h⟩ <;>
      rw [h] <;> decide
  · rcases performCrawl_status lib net db now crawlURL with ⟨hex, h, _⟩ | ⟨hex, h⟩
    · exact ⟨fun _ => hex, fun _ => h⟩
    · exact ⟨fun hc => absurd (h.symm.trans hc) hne, fun he => absurd he hex⟩
  · rcases performCrawl_status lib net db now crawlURL with ⟨_, _, h⟩ | ⟨_, h⟩
    · exact fun _ => h
    · exact fun hc => absurd (h.symm.trans hc) hne
  · intro hwf row hmem hid hfit
    exact ⟨_, performCrawl_stored lib net db now crawlURL hwf row hmem hid hfit, rfl, rfl⟩
  · exact performCrawl_rejected lib net db now crawlURL

/-- C14, witness: `linksPage` crawled for the stored `sampleJob`, which held the error
message `HTTP error: 500`. -/
theorem performCrawl_terminal_witness :
    (performCrawl sampleLib sampleNet sampleDB 9 sampleJob).1.Status = StatusCompleted ∧
    (performCrawl sampleLib sampleNet sampleDB 9 sampleJob).1.ErrorMessage = "" ∧
    ∃ stored, GetCrawlURLByID (performCrawl sampleLib sampleNet sampleDB 9 sampleJob).2
        sampleJob.ID = some stored ∧
      stored.Status = (performCrawl sampleLib sampleNet sampleDB 9 sampleJob).1.Status ∧
      stored.ErrorMessage = (performCrawl sampleLib sampleNet sampleDB 9 sampleJob).1.ErrorMessage :=
  have h := performCrawl_terminal sampleLib sampleNet sampleDB 9 sampleJob
  have hc : (performCrawl sampleLib sampleNet sampleDB 9 sampleJob).1.Status = StatusCompleted :=
    h.2.2.2.1.2 ⟨{ StatusCode := 200, Body := "page" }, linksPage, rfl, by decide, rfl⟩
  ⟨hc, h.2.2.2.2.1 hc, h.2.2.2.2.2.1 (by decide) sampleRow (by decide) rfl (fun _ => by decide)⟩

/-- C15, counterexample: after a re-crawl request for job 1 the stored job has update time
9, not the 3 it had: the update time is a field of the job that changes too. -/
theorem ReCrawlURLs_touches_update_time :
    GetCrawlURLByID sampleDB 1 = some sampleJob ∧ sampleJob.UpdatedAt = 3 ∧
    GetCrawlURLByID (ReCrawlURLs noFaults sampleDB 9 [1]).1 1 =
      some { sampleJob with Status := StatusQueued, ErrorMessage := "", UpdatedAt := 9 } := by
  decide

/-- C15, amended: when no statement fails on a store that satisfies its key constraints,
`ReCrawlURLs` returns nil; every listed id that names a job leaves that job with status
`queued`, the empty error message, the update time `now`, and every other field as it was;
BrokenLink rows, the set of jobs, and the jobs that are not listed are unchanged. -/
theorem ReCrawlURLs_requeues (faults : Faults) (db : DB) (now : Nat) (ids : List Int)
    (hwf : db.WF)
    (hok : ∀ id ∈ ids, faults.getFails id = none ∧ faults.updateFails id = none) :
    (ReCrawlURLs faults db now ids).2 = none ∧
    (ReCrawlURLs faults db now ids).1.broken_links = db.broken_links ∧
    (ReCrawlURLs faults db now ids).1.crawl_urls.map (fun r => r.id) =
      db.crawl_urls.map (fun r => r.id) ∧
    (∀ id ∈ ids, ∀ job, GetCrawlURLByID db id = some job →
      GetCrawlURLByID (ReCrawlURLs faults db now ids).1 id =
        some { job with Status := StatusQueued, ErrorMessage := "", UpdatedAt := now }) ∧
    (∀ id, id ∉ ids →
      GetCrawlURLByID (ReCrawlURLs faults db now ids).1 id = GetCrawlURLByID db id) ∧
    (∀ row ∈ db.crawl_urls, row.id ∉ ids → row ∈ (ReCrawlURLs faults db now ids).1.crawl_urls) := by
  have heq : (ReCrawlURLs faults db now ids).1 =
      { db with crawl_urls :=
          db.crawl_urls.map (fun r => if r.id ∈ ids then requeuedRow now r else r) } :=
    ReCrawlURLs_eq faults now ids db hwf hok
  have hg : ∀ r : CrawlRow, (if r.id ∈ ids then requeuedRow now r else r).id = r.id := by
    intro r
    by_cases h : r.id ∈ ids <;> simp [h, requeuedRow]
  have hlook : ∀ id, GetCrawlURLByID (ReCrawlURLs faults db now ids).1 id =
      (db.crawl_urls.find? (fun r => decide (r.id = id))).map
        (fun r => scanCrawlURL (if r.id ∈ ids then requeuedRow now r else r)) := by
    intro id
    rw [heq]
    unfold GetCrawlURLByID
    simp only []
    rw [find_map_id _ hg, Option.map_map]
    rfl
  refine ⟨rfl, by rw [heq], ?_, ?_, ?_, ?_⟩
  · rw [heq]
    simp only [List.map_map]
    apply List.map_congr_left
    intro r _
    exact hg r
  · intro id hid job hjob
    rw [hlook]
    unfold GetCrawlURLByID at hjob
    cases hf : db.crawl_urls.find? (fun r => decide (r.id = id)) with
    | none => rw [hf] at hjob; cases hjob
    | some row =>
      rw [hf] at hjob
      simp only [Option.map_some', Option.some.injEq] at hjob
      have hrid : row.id = id := by simpa using List.find?_some hf
      simp only [Option.map_some', hrid, hid, if_true, scan_requeuedRow, hjob]
  · intro id hid
    rw [hlook]
    unfold GetCrawlURLByID
    cases hf : db.crawl_urls.find? (fun r => decide (r.id = id)) with
    | none => rfl
    | some row =>
      have hrid : row.id = id := by simpa using List.find?_some hf
      simp [hrid, hid]
  · intro row hmem hid
    rw [heq]
    exact List.mem_map.2 ⟨row, hmem, by simp [hid]⟩

/-- C15, witness: a re-crawl request for the `running` job 2 and the unknown id 7 on
`schedulerDB`. -/
theorem ReCrawlURLs_requeues_witness :
    GetCrawlURLByID (ReCrawlURLs noFaults schedulerDB 9 [2, 7]).1 2 =
      some { scanCrawlURL runningRow with
        Status := StatusQueued, ErrorMessage := "", UpdatedAt := 9 } ∧
    (ReCrawlURLs noFaults schedulerDB 9 [2, 7]).1.crawl_urls.map (fun r => r.id) =
      schedulerDB.crawl_urls.map (fun r => r.id) ∧
    GetCrawlURLByID (ReCrawlURLs noFaults schedulerDB 9 [2, 7]).1 1 =
      GetCrawlURLByID schedulerDB 1 :=
  have h := ReCrawlURLs_requeues noFaults schedulerDB 9 [2, 7] (by decide)
    (fun _ _ => ⟨rfl, rfl⟩)
  ⟨h.2.2.2.1 2 (by decide) (scanCrawlURL runningRow) (by decide), h.2.2.1,
    h.2.2.2.2.1 1 (by decide)⟩

/-- C16: `checkLinkAccessibility` returns an error exactly when the HEAD request cannot be
built, the request returns an error, or the response status is 400 or more; a response
below 400 gives nil, and a response of 400 or more gives the error `HTTP <code>`. -/
theorem checkLinkAccessibility_broken_iff (net : Net) (i : Nat) (urlStr : String) :
    ((checkLinkAccessibility net i urlStr).isSome = true ↔
      (∃ err, net.Head i urlStr = .requestError err) ∨
      (∃ err, net.Head i urlStr = .doError err) ∨
      (∃ code, net.Head i urlStr = .response code ∧ code ≥ 400)) ∧
    (∀ code, net.Head i urlStr = .response code → code < 400 →
      checkLinkAccessibility net i urlStr = none) ∧
    (∀ code, net.Head i urlStr = .response code → code ≥ 400 →
      checkLinkAccessibility net i urlStr = some ("HTTP " ++ toString code)) := by
  unfold checkLinkAccessibility
  cases h : net.Head i urlStr with
  | requestError err => simp
  | doError err => simp
  | response code =>
    by_cases hc : code ≥ 400
    · simp [hc]
    · have : code < 400 := by omega
      simp [hc, this]

/-- C17, counterexample: a page link that resolves to a URL of 2067 characters and whose
probe is answered with 404 is counted in `InaccessibleLinksCount`, but the server rejects
its row (`url VARCHAR(2048)`), so no BrokenLink is created for it. -/
theorem overlong_link_counted_not_recorded :
    longLinkLib.URLParse (sampleURL "http" "example.com" "") longLink =
      .ok (sampleURL "http" "example.com" longLink) ∧
    (longLinkLib.URLString (sampleURL "http" "example.com" longLink)).length = 2067 ∧
    sampleNet.Head 0 (longLinkLib.URLString (sampleURL "http" "example.com" longLink)) =
      HeadResult.response 404 ∧
    (∃ r ∈ sampleDB.crawl_urls, r.id = sampleJob.ID) ∧
    (categorizeAndCheckLinks longLinkLib sampleNet sampleDB 9 sampleJob
      [longLink]).1.InaccessibleLinksCount = 1 ∧
    (categorizeAndCheckLinks longLinkLib sampleNet sampleDB 9 sampleJob
      [longLink]).2.broken_links = [] :=
  have h := categorizeAndCheckLinks_single longLinkLib sampleNet sampleDB 9 sampleJob
    (sampleURL "http" "example.com" "") longLink (sampleURL "http" "example.com" longLink)
    rfl longLinkLib_resolves rfl rfl
  ⟨longLinkLib_resolves, longLinkLib_length, rfl, ⟨sampleRow, by decide, rfl⟩, h.1,
    by rw [h.2, CreateBrokenLink_longLink]; rfl⟩

/-- C17, amended: when the page URL parses, every started worker obtains a slot and the job
is stored, `InaccessibleLinksCount` is the number of started workers whose check returned an
error; the BrokenLink rows appended are, in the order in which the workers are through, one
row for each of those workers whose resolved URL has at most 2048 characters, and no other
row; each of them is owned by the job and holds the text of the resolved link. -/
theorem probes_recorded (lib : Lib) (net : Net) (db : DB) (now : Nat) (crawlURL : CrawlURL)
    (links : List String) (baseURL : URL) (hp : lib.Parse crawlURL.URL = .ok baseURL)
    (hacq : ∀ i, net.Acquire i = true)
    (hrow : ∃ r ∈ db.crawl_urls, r.id = crawlURL.ID) :
    (categorizeAndCheckLinks lib net db now crawlURL links).1.InaccessibleLinksCount =
      (((linkLoop lib baseURL links).started.enum.filter (brokenWorker lib net)).length : Int) ∧
    (categorizeAndCheckLinks lib net db now crawlURL links).2.broken_links =
      db.broken_links ++ brokenRows lib crawlURL.ID now
        (recordedWorkers lib net (linkLoop lib baseURL links).started) db.broken_links_auto ∧
    (recordedWorkers lib net (linkLoop lib baseURL links).started).Perm
      (((linkLoop lib baseURL links).started.enum.filter (brokenWorker lib net)).filter
        (fitsWorker lib)) ∧
    (brokenRows lib crawlURL.ID now
        (recordedWorkers lib net (linkLoop lib baseURL links).started)
        db.broken_links_auto).map (fun r => (r.crawl_url_id, r.url)) =
      (recordedWorkers lib net (linkLoop lib baseURL links).started).map
        (fun w => (crawlURL.ID, lib.URLString w.2.2)) ∧
    (∀ w ∈ (linkLoop lib baseURL links).started, lib.URLParse baseURL w.1 = .ok w.2) := by
  have hany : db.crawl_urls.any (fun r => decide (r.id = crawlURL.ID)) = true := by
    obtain ⟨r, hr, hid⟩ := hrow
    exact List.any_eq_true.2 ⟨r, hr, by simpa using hid⟩
  obtain ⟨h1, h2⟩ := foldProbes_served lib net now crawlURL hacq
    (completionOrder net (linkLoop lib baseURL links).started)
    { inaccessibleCount := 0, db := db } hany
  have hres : categorizeAndCheckLinks lib net db now crawlURL links =
      ({ crawlURL with
          InternalLinksCount := (linkLoop lib baseURL links).internalCount,
          ExternalLinksCount := (linkLoop lib baseURL links).externalCount,
          InaccessibleLinksCount :=
            (runProbes lib net now crawlURL (linkLoop lib baseURL links).started
              { inaccessibleCount := 0, db := db }).inaccessibleCount },
        (runProbes lib net now crawlURL (linkLoop lib baseURL links).started
          { inaccessibleCount := 0, db := db }).db) := by
    simp [categorizeAndCheckLinks, hp]
  refine ⟨?_, ?_, recordedWorkers_perm lib net _, brokenRows_owner lib _ now _ _,
    (linkLoop_fold lib baseURL links.length links).2.2.2⟩
  · rw [hres]
    show (runProbes lib net now crawlURL (linkLoop lib baseURL links).started
      { inaccessibleCount := 0, db := db }).inaccessibleCount = _
    unfold runProbes
    rw [h1, ((completionOrder_perm net _).filter _).length_eq]
    simp
  · rw [hres]
    exact h2

/-- C17, witness: two links that resolve and one that does not, every probe answering 404
and the worker of the later link through first, for the stored `sampleJob`. -/
theorem probes_recorded_witness :
    (categorizeAndCheckLinks sampleLib racingNet sampleDB 9 sampleJob
      ["/about", ":bad", "/contact"]).1.InaccessibleLinksCount = 2 ∧
    (categorizeAndCheckLinks sampleLib racingNet sampleDB 9 sampleJob
      ["/about", ":bad", "/contact"]).2.broken_links.map
        (fun r => (r.id, r.crawl_url_id, r.url)) =
      [(1, 1, "http://example.com/contact"), (2, 1, "http://example.com/about")] :=
  have h := probes_recorded sampleLib racingNet sampleDB 9 sampleJob
    ["/about", ":bad", "/contact"] (sampleURL "http" "example.com" "") rfl (fun _ => rfl)
    ⟨sampleRow, by decide, rfl⟩
  ⟨h.1.trans (by decide), by rw [h.2.1]; decide⟩

/-- C18, counterexample: at the tenth redirect of a chain the policy is called with ten
requests and returns `ErrUseLastResponse`, so a chain of ten redirects has only its first
nine followed. -/
theorem tenth_redirect_not_followed :
    CheckRedirect () (List.replicate 10 ()) = some RedirectError.ErrUseLastResponse ∧
    clientRedirects 10 = { followed := 9, usedLastResponse := true } := by
  decide

/-- C18, amended: the policy returns nil while at most nine requests were made and
`ErrUseLastResponse` from ten on; so of a chain of `n` redirects the client follows the
first `min n 9`, and for `n ≥ 10` it ends with the tenth redirect response as the result
rather than with an error. -/
theorem redirect_policy (n : Nat) :
    (∀ (via : List Unit), CheckRedirect () via =
      if via.length ≤ 9 then none else some RedirectError.ErrUseLastResponse) ∧
    clientRedirects n = { followed := min n 9, usedLastResponse := decide (10 ≤ n) } := by
  constructor
  · intro via
    unfold CheckRedirect
    by_cases h : via.length ≥ 10
    · have : ¬ via.length ≤ 9 := by omega
      simp [h, this]
    · have : via.length ≤ 9 := by omega
      simp [h, this]
  · unfold clientRedirects
    rw [redirectLoop_eq n [()] (by simp) (by simp)]
    simp only [List.length_singleton]
    by_cases h : n ≤ 9
    · have h1 : 1 + n ≤ 10 := by omega
      have h2 : ¬ 10 ≤ n := by omega
      simp [h1, h2, Nat.min_eq_left h]
    · have h1 : ¬ (1 + n ≤ 10) := by omega
      have h2 : 10 ≤ n := by omega
      simp [h1, h2, Nat.min_eq_right (by omega : 9 ≤ n)]

/-- C19, counterexample: `CrawlURL` on job 2, whose stored status is `running`, returns nil
and starts a further attempt on it. -/
theorem CrawlURL_on_running_job :
    (GetCrawlURLByID schedulerDB 2).map (fun c => c.Status) = some StatusRunning ∧
    (CrawlerService.CrawlURL noFaults schedulerDB 9 2).err = none ∧
    (CrawlerService.CrawlURL noFaults schedulerDB 9 2).attempt =
      some { scanCrawlURL runningRow with LastCrawledAt := some 9 } := by
  decide

/-- C19, amended: for every stored job, whatever its status, `CrawlURL` (when its two
statements succeed) writes status `running` with the current time as `LastCrawledAt`,
returns nil and starts `performCrawl` on the job; and the scheduler loop runs `performCrawl`
on every job of its batch whose update succeeds, whatever the store holds for that job at
that moment.  Neither transition depends on the stored status. -/
theorem CrawlURL_starts_attempt (lib : Lib) (net : Net) (faults : Faults) (db : DB) (now : Nat)
    (id : Int) (job : CrawlURL) (batch : List CrawlURL)
    (hjob : GetCrawlURLByID db id = some job)
    (hget : faults.getFails id = none) (hupd : faults.updateFails job.ID = none) :
    CrawlerService.CrawlURL faults db now id =
      { db := UpdateCrawlURL db now
          { job with Status := StatusRunning, LastCrawledAt := some now },
        err := none,
        attempt := some { job with Status := StatusRunning, LastCrawledAt := some now } } ∧
    (processBatch lib net faults now db batch).attempts =
      (batch.filter (fun c => (faults.updateFails c.ID).isNone)).map
        (fun c => { c with Status := StatusRunning, LastCrawledAt := some now }) := by
  constructor
  · simp [CrawlerService.CrawlURL, hget, hjob, hupd]
  · unfold processBatch
    rw [processBatch_attempts]
    rfl

/-- C19, witness: `CrawlURL` on the `running` job 2, and a scheduler batch that still lists
job 2 as `queued`. -/
theorem CrawlURL_starts_attempt_witness :
    (CrawlerService.CrawlURL noFaults schedulerDB 9 2).attempt =
      some { scanCrawlURL runningRow with Status := StatusRunning, LastCrawledAt := some 9 } ∧
    (processBatch sampleLib failingNet noFaults 9 schedulerDB
      [{ scanCrawlURL runningRow with Status := StatusQueued }]).attempts =
      [{ scanCrawlURL runningRow with Status := StatusRunning, LastCrawledAt := some 9 }] :=
  have h := CrawlURL_starts_attempt sampleLib failingNet noFaults schedulerDB 9 2
    (scanCrawlURL runningRow) [{ scanCrawlURL runningRow with Status := StatusQueued }]
    (by decide) rfl rfl
  ⟨congrArg CrawlStart.attempt h.1, h.2⟩

/-- C20: a tick queries `GetCrawlURLs(10, 0, queued, "")`, which returns at most ten jobs,
all stored with status `queued`; when the query fails or returns no job, nothing is run
and the store is unchanged; otherwise the tick takes the returned jobs in order, and for
each job an update that fails leaves everything as it is, while an update that succeeds
stores status `running` with the current time as `LastCrawledAt` and `performCrawl` then
runs on that job over the store that holds the update. -/
theorem processQueuedJobs_tick (lib : Lib) (like : String → String → Bool) (net : Net)
    (faults : Faults) (db : DB) (now : Nat) :
    GetCrawlURLs like db 10 0 StatusQueued "" =
      .ok (queuedBatch db,
        ((db.crawl_urls.filter (fun r => decide (r.status = StatusQueued))).length : Int)) ∧
    (queuedBatch db).length ≤ 10 ∧
    (∀ c ∈ queuedBatch db,
      c.Status = StatusQueued ∧ ∃ row ∈ db.crawl_urls, c = scanCrawlURL row) ∧
    (faults.queryFails ≠ none ∨ queuedBatch db = [] →
      processQueuedJobs lib like net faults db now = { db := db, attempts := [] }) ∧
    (faults.queryFails = none →
      processQueuedJobs lib like net faults db now =
        (queuedBatch db).foldl (processJob lib net faults now) { db := db, attempts := [] }) ∧
    (∀ (st : Tick) (c : CrawlURL),
      (∀ err, faults.updateFails c.ID = some err → processJob lib net faults now st c = st) ∧
      (faults.updateFails c.ID = none →
        processJob lib net faults now st c =
          { db := (performCrawl lib net
              (UpdateCrawlURL st.db now
                { c with Status := StatusRunning, LastCrawledAt := some now })
              now { c with Status := StatusRunning, LastCrawledAt := some now }).2,
            attempts := st.attempts ++
              [{ c with Status := StatusRunning, LastCrawledAt := some now }] }) ∧
      (st.db.WF → ∀ row ∈ st.db.crawl_urls, row.id = c.ID →
        GetCrawlURLByID
          (UpdateCrawlURL st.db now { c with Status := StatusRunning, LastCrawledAt := some now })
          c.ID =
          some { c with Status := StatusRunning, LastCrawledAt := some now, URL := row.url,
                        CreatedAt := row.created_at, UpdatedAt := now })) := by
  obtain ⟨hq, hlen, hmem⟩ := GetCrawlURLs_queued like db
  refine ⟨hq, by rw [hlen]; exact Nat.min_le_left _ _, hmem, ?_, ?_, ?_⟩
  · rintro (hfail | hempty)
    · unfold processQueuedJobs
      cases h : faults.queryFails with
      | none => exact absurd h hfail
      | some err => rfl
    · unfold processQueuedJobs
      cases faults.queryFails with
      | some err => rfl
      | none => simp [hq, hempty]
  · intro hok
    unfold processQueuedJobs
    rw [hok]
    simp only [hq]
    by_cases he : (queuedBatch db).length = 0
    · rw [if_pos he, List.length_eq_zero.1 he]
      rfl
    · rw [if_neg he]
      rfl
  · intro st c
    refine ⟨(processJob_eq lib net faults now st c).1, (processJob_eq lib net faults now st c).2, ?_⟩
    intro hwf row hrow hid
    exact GetCrawlURLByID_UpdateCrawlURL st.db now
      { c with Status := StatusRunning, LastCrawledAt := some now } hwf row hrow hid

/-- C20, witness: a tick over `schedulerDB` on a network answering 500, with the update of
job 3 failing: jobs 4 and 3 are returned, only job 4 is crawled, and it ends in `error`. -/
theorem processQueuedJobs_tick_witness :
    (queuedBatch schedulerDB).map (fun c => c.ID) = [4, 3] ∧
    processQueuedJobs sampleLib sampleLike failingNet updateFaults schedulerDB 9 =
      (queuedBatch schedulerDB).foldl (processJob sampleLib failingNet updateFaults 9)
        { db := schedulerDB, attempts := [] } ∧
    (processQueuedJobs sampleLib sampleLike failingNet updateFaults schedulerDB 9).attempts.map
      (fun c => c.ID) = [4] ∧
    ((processQueuedJobs sampleLib sampleLike failingNet updateFaults schedulerDB 9).db.crawl_urls.map
      (fun r => (r.id, r.status))) =
      [(1, "error"), (2, "running"), (3, "queued"), (4, "error")] :=
  have h := processQueuedJobs_tick sampleLib sampleLike failingNet updateFaults schedulerDB 9
  ⟨by decide, h.2.2.2.2.1 rfl, by rw [h.2.2.2.2.1 rfl]; decide,
    by rw [h.2.2.2.2.1 rfl]; decide⟩

/-- C21, at the failing input: a link whose probe is answered with status 404 is stored as
a BrokenLink with `StatusCode` 0, not 404. -/
theorem BrokenLink_status_code_lost :
    sampleNet.Head 0 "http://example.com/about" = HeadResult.response 404 ∧
    checkLinkAccessibility sampleNet 0 "http://example.com/about" = some "HTTP 404" ∧
    (categorizeAndCheckLinks sampleLib sampleNet sampleDB 9 sampleJob
      ["/about"]).2.broken_links.map (fun r => (r.url, r.status_code)) =
      [("http://example.com/about", some 0)] := by
  decide

/-- C22, counterexample: job 1 is stored with two `h1` and one `h2`, the counts of the
page, and is crawled again on that page, whose `html` element declares a version of 54
characters.  The attempt returns the doubled counts, the server rejects the final update
(`html_version VARCHAR(50)`), and the stored counts stay as they were. -/
theorem recrawl_rejected_keeps_stored_counts :
    (GetCrawlURLByID startedDB 1).map CrawlURL.headings = some [2, 1, 0, 0, 0, 0] ∧
    startedJob.headings = headingCounts sampleLib longVersionPage ∧
    (performCrawl sampleLib longVersionNet startedDB 9 startedJob).1.Status = StatusCompleted ∧
    (performCrawl sampleLib longVersionNet startedDB 9 startedJob).1.headings =
      [4, 2, 0, 0, 0, 0] ∧
    (GetCrawlURLByID (performCrawl sampleLib longVersionNet startedDB 9 startedJob).2 1).map
      CrawlURL.headings = some [2, 1, 0, 0, 0, 0] := by
  decide

/-- C22, amended: `extractHTMLInfo` leaves each heading counter at its value before the
call plus the number of elements of that level, so no counter decreases, analysing the same
document twice adds the numbers twice, and a job that holds the numbers of the document
ends with their double; a completed `performCrawl` returns these sums, stores them when the
server accepts the final update, and leaves the stored jobs as they were when the server
rejects it; no run of `performCrawl` decreases a heading counter. -/
theorem heading_counters_accumulate (lib : Lib) (net : Net) (db : DB) (now : Nat)
    (crawlURL : CrawlURL) (doc : Node) :
    (extractHTMLInfo lib crawlURL doc).headings =
      List.zipWith (fun a b => a + b) crawlURL.headings (headingCounts lib doc) ∧
    List.Forall₂ (fun a b => a ≤ b) crawlURL.headings (extractHTMLInfo lib crawlURL doc).headings ∧
    (extractHTMLInfo lib (extractHTMLInfo lib crawlURL doc) doc).headings =
      List.zipWith (fun a b => a + b) crawlURL.headings
        ((headingCounts lib doc).map (fun k => 2 * k)) ∧
    (crawlURL.headings = headingCounts lib doc →
      (extractHTMLInfo lib crawlURL doc).headings =
        (headingCounts lib doc).map (fun k => 2 * k)) ∧
    (∀ resp, net.Get crawlURL.URL = .ok resp → resp.StatusCode < 400 →
      net.HTMLParse resp.Body = .ok doc →
      (performCrawl lib net db now crawlURL).1.headings =
        List.zipWith (fun a b => a + b) crawlURL.headings (headingCounts lib doc) ∧
      (db.WF → ∀ row ∈ db.crawl_urls, row.id = crawlURL.ID →
        fitsCrawlURL (performCrawl lib net db now crawlURL).1 = true →
        ∃ stored, GetCrawlURLByID (performCrawl lib net db now crawlURL).2 crawlURL.ID =
            some stored ∧
          stored.headings =
            List.zipWith (fun a b => a + b) crawlURL.headings (headingCounts lib doc)) ∧
      (fitsCrawlURL (performCrawl lib net db now crawlURL).1 = false →
        (performCrawl lib net db now crawlURL).2.crawl_urls = db.crawl_urls)) ∧
    List.Forall₂ (fun a b => a ≤ b) crawlURL.headings
      (performCrawl lib net db now crawlURL).1.headings := by
  have hadd := extractHTMLInfo_headings lib crawlURL doc
  have hmono : ∀ (c : CrawlURL) (d : Node),
      List.Forall₂ (fun a b => a ≤ b) c.headings (extractHTMLInfo lib c d).headings := by
    intro c d
    rw [extractHTMLInfo_headings]
    exact headings_le_add _ _ (headingCounts_nonneg lib d) rfl
  refine ⟨hadd, hmono crawlURL doc, ?_, ?_, ?_, ?_⟩
  · rw [extractHTMLInfo_headings, hadd]
    simp only [CrawlURL.headings, headingCounts, List.zipWith_cons_cons, List.zipWith_nil_right,
      List.map_cons, List.map_nil]
    simp only [List.cons.injEq, and_true]
    refine ⟨?_, ?_, ?_, ?_, ?_, ?_⟩ <;> ring
  · intro h
    rw [hadd, h, zipWith_self_double]
  · intro resp hget hstatus hdoc
    have hret := (performCrawl_headings lib net db now crawlURL).1 resp doc hget hstatus hdoc
    rw [hadd] at hret
    have hc : (performCrawl lib net db now crawlURL).1.Status = StatusCompleted := by
      rw [performCrawl_ok lib net db now crawlURL resp doc hget hstatus hdoc]
    refine ⟨hret, ?_, performCrawl_rejected lib net db now crawlURL hc⟩
    intro hwf row hmem hid hfit
    refine ⟨_, performCrawl_stored lib net db now crawlURL hwf row hmem hid (fun _ => hfit), ?_⟩
    rw [← hret]
    rfl
  · rcases (performCrawl_headings lib net db now crawlURL).2 with h | ⟨d, h⟩
    · rw [h]
      exact List.forall₂_same.2 (fun _ _ => le_refl _)
    · rw [h]
      exact hmono crawlURL d

/-- C22, witness: `sampleJob`, which holds `H1Count = 2` and `H2Count = 1`, crawled again
on the page with two `h1` and one `h2`; the final update is accepted and stores the
doubled counts. -/
theorem heading_counters_accumulate_witness :
    (performCrawl sampleLib headingsNet sampleDB 9 sampleJob).1.headings =
      List.zipWith (fun a b => a + b) sampleJob.headings (headingCounts sampleLib headingsPage) ∧
    (extractHTMLInfo sampleLib sampleJob headingsPage).headings =
      (headingCounts sampleLib headingsPage).map (fun k => 2 * k) ∧
    (headingCounts sampleLib headingsPage).map (fun k => 2 * k) = [4, 2, 0, 0, 0, 0] ∧
    ∃ stored, GetCrawlURLByID (performCrawl sampleLib headingsNet sampleDB 9 sampleJob).2
        sampleJob.ID = some stored ∧
      stored.headings =
        List.zipWith (fun a b => a + b) sampleJob.headings
          (headingCounts sampleLib headingsPage) :=
  have h := heading_counters_accumulate sampleLib headingsNet sampleDB 9 sampleJob headingsPage
  have h5 := h.2.2.2.2.1 { StatusCode := 200, Body := "page" } rfl (by decide) rfl
  ⟨h5.1, h.2.2.2.1 (by decide), by decide,
    h5.2.1 (by decide) sampleRow (by decide) rfl (by decide)⟩

/-- C23, at the failing input: after `Start`, `Stop`, `Start` the processor is flagged
running while its channel is closed, and the second `Stop` closes the closed channel: the
call panics. -/
theorem processor_restart_panics :
    runCalls [ProcessorCall.Start, ProcessorCall.Stop, ProcessorCall.Start]
      NewCrawlerJobProcessor = .ok { isRunning := true, stopChanClosed := true } ∧
    runCalls [ProcessorCall.Start, ProcessorCall.Stop, ProcessorCall.Start, ProcessorCall.Stop]
      NewCrawlerJobProcessor = .error "close of closed channel" :=
  ⟨rfl, rfl⟩

/-- C24, counterexample: for `page = 9223372036854775807` and `limit = 20` the offset
`(page - 1) * limit` wraps to -40, and the handler answers with the error response. -/
theorem listing_offset_wraps :
    clampPage 9223372036854775807 = 9223372036854775807 ∧ clampLimit 20 = 20 ∧
    wrapInt (wrapInt (clampPage 9223372036854775807 - 1) * clampLimit 20) = -40 ∧
    Handler.GetCrawlURLs sampleLike noFaults sampleDB 9223372036854775807 20 "" "" =
      .error "Failed to fetch crawl URLs" :=
  ⟨by decide, by decide, by decide, rfl⟩

/-- C24, amended: the handler uses `page' = page` if `page ≥ 1`, else 1, and
`limit' = limit` if `1 ≤ limit ≤ 100`, else 20; it passes to persistence the limit `limit'`
and the offset `(page' - 1) * limit'` computed in 64-bit arithmetic, which is that product
and not negative whenever the product is below `2^63`; and the reported page count is
`(total + limit' - 1) / limit'`, the least `p` with `p * limit' ≥ total`, for every
`total ≥ 0` with `total + limit' - 1` below `2^63`. -/
theorem listing_arithmetic (like : String → String → Bool) (faults : Faults) (db : DB)
    (page limit total : Int) (status search : String) :
    clampPage page = (if 1 ≤ page then page else 1) ∧
    clampLimit limit = (if 1 ≤ limit ∧ limit ≤ 100 then limit else 20) ∧
    1 ≤ clampPage page ∧ 1 ≤ clampLimit limit ∧ clampLimit limit ≤ 100 ∧
    (faults.queryFails = none →
      (∀ err, Sykell.GetCrawlURLs like db (clampLimit limit)
          (wrapInt (wrapInt (clampPage page - 1) * clampLimit limit)) status search = .error err →
        Handler.GetCrawlURLs like faults db page limit status search =
          .error "Failed to fetch crawl URLs") ∧
      (∀ r, Sykell.GetCrawlURLs like db (clampLimit limit)
          (wrapInt (wrapInt (clampPage page - 1) * clampLimit limit)) status search = .ok r →
        Handler.GetCrawlURLs like faults db page limit status search =
          .ok (r.1, { page := clampPage page, limit := clampLimit limit, total := r.2,
                      pages := pageCount r.2 (clampLimit limit) }))) ∧
    ((clampPage page - 1) * clampLimit limit < 9223372036854775808 →
      wrapInt (wrapInt (clampPage page - 1) * clampLimit limit) =
        (clampPage page - 1) * clampLimit limit ∧
      0 ≤ wrapInt (wrapInt (clampPage page - 1) * clampLimit limit)) ∧
    (0 ≤ total → total + clampLimit limit - 1 < 9223372036854775808 →
      pageCount total (clampLimit limit) = (total + clampLimit limit - 1) / clampLimit limit ∧
      total ≤ pageCount total (clampLimit limit) * clampLimit limit ∧
      ∀ p : Int, total ≤ p * clampLimit limit → pageCount total (clampLimit limit) ≤ p) := by
  have hp : 1 ≤ clampPage page := by
    unfold clampPage; split <;> omega
  have hl : 1 ≤ clampLimit limit ∧ clampLimit limit ≤ 100 := by
    unfold clampLimit; split <;> omega
  refine ⟨?_, ?_, hp, hl.1, hl.2, ?_, ?_, ?_⟩
  · unfold clampPage
    by_cases h : page < 1
    · rw [if_pos h, if_neg (by omega)]
    · rw [if_neg h, if_pos (by omega)]
  · unfold clampLimit
    by_cases h : limit < 1 ∨ limit > 100
    · rw [if_pos h, if_neg (by omega)]
    · rw [if_neg h, if_pos (by omega)]
  · intro hq
    constructor
    · intro err hg
      simp only [Handler.GetCrawlURLs, CrawlerService.GetCrawlURLs, hq, hg]
    · intro r hg
      simp only [Handler.GetCrawlURLs, CrawlerService.GetCrawlURLs, hq, hg]
  · intro hlt
    have h0 : 0 ≤ clampPage page - 1 := by omega
    have hprod : 0 ≤ (clampPage page - 1) * clampLimit limit := Int.mul_nonneg h0 (by omega)
    have hle : (clampPage page - 1) * 1 ≤ (clampPage page - 1) * clampLimit limit :=
      Int.mul_le_mul_of_nonneg_left hl.1 h0
    rw [wrapInt_eq (clampPage page - 1) (by omega) (by omega),
      wrapInt_eq _ (by omega) hlt]
    exact ⟨rfl, hprod⟩
  · intro h0 h2
    exact pageCount_ceil total (clampLimit limit) h0 hl.1 h2

/-- C24, witness: page 3 with the out-of-range limit 500 and 41 matching rows: offset 40
and 3 pages of 20. -/
theorem listing_arithmetic_witness :
    clampLimit 500 = 20 ∧
    wrapInt (wrapInt (clampPage 3 - 1) * clampLimit 500) = (clampPage 3 - 1) * clampLimit 500 ∧
    (41 : Int) ≤ pageCount 41 (clampLimit 500) * clampLimit 500 ∧
    pageCount 41 (clampLimit 500) ≤ 3 :=
  have h := listing_arithmetic sampleLike noFaults sampleDB 3 500 41 "" ""
  ⟨h.2.1, (h.2.2.2.2.2.2.1 (by decide)).1,
    (h.2.2.2.2.2.2.2 (by decide) (by decide)).2.1,
    (h.2.2.2.2.2.2.2 (by decide) (by decide)).2.2 3 (by decide)⟩

end Sykell
